import Mathlib

/-!
# ocsync: the reconciler, the chunked uploader, the cycle and the updater

A shallow embedding of the reconciliation stage of ocsync
(`src/csync_reconcile.c`, and `csync_reconcile` of `src/csync.c`), of the
chunked uploader (`src/httpbf/src/httpbf.c`), of the functions of the cycle in
`src/csync.c` (`csync_update`, `csync_propagate`, `csync_commit`,
`csync_get_status`, the abort flag and the tree walk for the user), of the
updater (`src/csync_update.c`) and of the lock file (`src/csync_lock.c`),
followed by the properties established for them. The conventions of the
uploader, of the updater and of the lock file are stated where their
definitions begin.

Conventions of the embedding:

* a replica tree (`c_rbtree_t`) is the in-order sequence of its records; a node
  pointer is the position of the node in that sequence;
* the C context is passed explicitly: an operation takes the context and
  returns its return code together with the context it leaves behind;
* collaborators whose sources are not part of the reconciler (the path hash,
  the rename table of the propagator, the journal lookup by inode, the errno
  mapping) are gathered in `csync_externals` and every property is proved for
  all of them.
-/

namespace Csync

/-! ## Data model -/

/-- The per-record instruction (`enum csync_instructions_e`). -/
inductive csync_instructions_e where
  | CSYNC_INSTRUCTION_NONE
  | CSYNC_INSTRUCTION_EVAL
  | CSYNC_INSTRUCTION_REMOVE
  | CSYNC_INSTRUCTION_RENAME
  | CSYNC_INSTRUCTION_NEW
  | CSYNC_INSTRUCTION_CONFLICT
  | CSYNC_INSTRUCTION_IGNORE
  | CSYNC_INSTRUCTION_SYNC
  | CSYNC_INSTRUCTION_STAT_ERROR
  | CSYNC_INSTRUCTION_ERROR
  | CSYNC_INSTRUCTION_DELETED
  | CSYNC_INSTRUCTION_UPDATED
  deriving DecidableEq, Repr

/-- The type of an entry (`enum csync_ftw_type_e`). -/
inductive csync_ftw_type_e where
  | CSYNC_FTW_TYPE_FILE
  | CSYNC_FTW_TYPE_SLINK
  | CSYNC_FTW_TYPE_DIR
  | CSYNC_FTW_TYPE_SKIP
  deriving DecidableEq, Repr

/-- The replica selector (`enum csync_replica_e`); the reconciler only ever
runs with one of these two values in `ctx->current`. -/
inductive csync_replica_e where
  | LOCAL_REPLICA
  | REMOTE_REPLICA
  deriving DecidableEq, Repr

/-- The error taxonomy of the context (`CSYNC_ERR_*`). -/
inductive csync_error_codes_e where
  | CSYNC_ERR_NONE
  | CSYNC_ERR_MEM
  | CSYNC_ERR_PARAM
  | CSYNC_ERR_LOCK
  | CSYNC_ERR_CONFIG_LOAD
  | CSYNC_ERR_CONFIG_FILE
  | CSYNC_ERR_MODULE
  | CSYNC_ERR_TIMESKEW
  | CSYNC_ERR_FILESYSTEM
  | CSYNC_ERR_TREE
  | CSYNC_ERR_STATEDB_LOAD
  | CSYNC_ERR_STATEDB_WRITE
  | CSYNC_ERR_UPDATE
  | CSYNC_ERR_RECONCILE
  | CSYNC_ERR_PROPAGATE
  | CSYNC_ERR_AUTH
  | CSYNC_ERR_PROXY_AUTH
  | CSYNC_ERR_CONNECT
  | CSYNC_ERR_TIMEOUT
  | CSYNC_ERR_HTTP
  | CSYNC_ERR_QUOTA
  | CSYNC_ERR_USER_ABORT
  | CSYNC_ERR_SOURCE_FILE_CHANGE
  | CSYNC_ERR_UNSPEC
  deriving DecidableEq, Repr

open csync_instructions_e csync_ftw_type_e csync_replica_e csync_error_codes_e

/-- A file record (`csync_file_stat_t`), with the fields the reconciler reads
or writes. `md5` and `destpath` are nullable C strings. -/
structure csync_file_stat_t where
  phash : Nat
  path : String
  inode : Nat
  modtime : Int
  size : Int
  type : csync_ftw_type_e
  md5 : Option String
  instruction : csync_instructions_e
  destpath : Option String
  deriving DecidableEq, Repr

/-- The record `csync_statedb_get_stat_by_inode` hands back, as far as the
reconciler looks at it: its path, which the reconciler tests for NULL. -/
structure csync_statedb_stat_t where
  path : Option String
  deriving DecidableEq, Repr

/-- A replica tree: the records in tree order (ascending `phash`). -/
abbrev c_rbtree_t := List csync_file_stat_t

/-- A pointer handed around as `void *`: NULL, the address of something the
user owns, or the address of the variable `tw_ctx` of a running
`_csync_walk_tree`. -/
inductive csync_pointer where
  | NULL
  | user (address : Nat)
  | tw_ctx
  deriving DecidableEq, Repr

/-- The view of a record that the user visitor of a tree walk gets
(`TREE_WALK_FILE`), with those of its fields that the record model carries. -/
structure TREE_WALK_FILE where
  path : String
  modtime : Int
  type : csync_ftw_type_e
  instruction : csync_instructions_e
  rename_path : Option String
  md5 : Option String
  deriving DecidableEq, Repr

/-- The structure `_csync_treewalk_context` of `csync.c`. A pointer to a
function is a natural number, NULL is `none`. -/
structure _csync_treewalk_context where
  user_visitor : Option Nat
  instruction_filter : Int
  userdata : csync_pointer
  deriving DecidableEq, Repr

/-- The context (`CSYNC`), with the fields the modelled functions touch:
the trees and the replica selectors, the options `with_conflict_copys` and
`local_only_mode`, the status and error code, the abort flag, `local.uri`,
whether the state database is open (`statedb.db` is not NULL), its file name
and whether it is disabled, `remote.uri` and `callbacks.userdata`. Two fields
are not fields of the C structure: `statedb_written` counts how often the
journal has been written, and `visited` lists the calls of the user visitor
of a tree walk, each with the view and the userdata it was given. -/
structure CSYNC where
  local_tree : c_rbtree_t
  remote_tree : c_rbtree_t
  local_type : csync_replica_e
  remote_type : csync_replica_e
  current : csync_replica_e
  replica : csync_replica_e
  with_conflict_copys : Bool
  status : Nat
  error_code : csync_error_codes_e
  abort : Bool
  local_only_mode : Bool := false
  local_uri : String := ""
  statedb_db : Bool := false
  statedb_file : Option String := none
  statedb_disabled : Bool := false
  statedb_written : Nat := 0
  remote_uri : String := ""
  callbacks_userdata : csync_pointer := csync_pointer.NULL
  visited : List (TREE_WALK_FILE × csync_pointer) := []
  deriving DecidableEq, Repr

/-- The collaborators of the reconciler that live outside of it. None of them
changes while the reconcile phase runs. -/
structure csync_externals where
  /-- The path hash `c_jhash64(path, strlen(path), 0)`. -/
  c_jhash64 : String → Nat
  /-- The path after the renames recorded so far: `csync_rename_adjust_path(ctx, path)`. -/
  csync_rename_adjust_path : String → String
  /-- The journal lookup `csync_statedb_get_stat_by_inode(ctx, inode)`; `none` is NULL. -/
  csync_statedb_get_stat_by_inode : Nat → Option csync_statedb_stat_t
  /-- The errno mapping `csync_errno_to_csync_error(default)`. -/
  csync_errno_to_csync_error : csync_error_codes_e → csync_error_codes_e
  /-- What `c_rbtree_walk` does when the visitor returns a negative value: see
  `c_rbtree_walk_nodes`. -/
  c_rbtree_walk_negative : Int → Option Int

/-- Modelled from the spec: the status bit of the reconcile phase
(`CSYNC_STATUS_RECONCILE`, declared in a header that is not part of the
sources); the states are flags, one bit per phase, in the order INIT, UPDATE,
RECONCILE, PROPAGATE. -/
def CSYNC_STATUS_RECONCILE : Nat := 4

/-- The constant `ACCEPTED_TIME_DIFF` of `csync_reconcile.c`. -/
def ACCEPTED_TIME_DIFF : Int := 5

/-! ## Trees -/

/-- The other replica. -/
def csync_replica_e.opposite : csync_replica_e → csync_replica_e
  | LOCAL_REPLICA => REMOTE_REPLICA
  | REMOTE_REPLICA => LOCAL_REPLICA

/-- The tree of a replica: `ctx->local.tree` or `ctx->remote.tree`. -/
def CSYNC.tree (ctx : CSYNC) : csync_replica_e → c_rbtree_t
  | LOCAL_REPLICA => ctx.local_tree
  | REMOTE_REPLICA => ctx.remote_tree

/-- A write through a node pointer: the record at position `i` of the tree of
replica `r` becomes `st`. -/
def CSYNC.set_node (ctx : CSYNC) (r : csync_replica_e) (i : Nat)
    (st : csync_file_stat_t) : CSYNC :=
  match r with
  | LOCAL_REPLICA => { ctx with local_tree := ctx.local_tree.set i st }
  | REMOTE_REPLICA => { ctx with remote_tree := ctx.remote_tree.set i st }

/-- Search for `key` from position `i` on. -/
def c_rbtree_find_from (key : Nat) : c_rbtree_t → Nat → Option (Nat × csync_file_stat_t)
  | [], _ => none
  | st :: rest, i =>
    if st.phash = key then some (i, st) else c_rbtree_find_from key rest (i + 1)

/-- Modelled from the spec: `c_rbtree_find` (the tree library is not part of
the sources). The tree is a mapping from `phash` to record; the lookup yields
the node holding `key` (its position and its record) or NULL. -/
def c_rbtree_find (tree : c_rbtree_t) (key : Nat) : Option (Nat × csync_file_stat_t) :=
  c_rbtree_find_from key tree 0

/-- Modelled from the spec: the visits of a walk of `c_rbtree_walk`, node
after node. What the walk does when the visitor returns a negative value is up
to the tree library, which is not part of the sources, and the spec is silent
on it; it is the parameter `negative`, a function of the value the visitor
returned: `some rc` ends the walk at that node with the return code `rc`, and
`none` lets the walk go on with the next node. -/
def c_rbtree_walk_nodes (negative : Int → Option Int) (visitor : CSYNC → Nat → Int × CSYNC) :
    List Nat → CSYNC → Int × CSYNC
  | [], ctx => (0, ctx)
  | node :: rest, ctx =>
    let r := visitor ctx node
    if r.1 < 0 then
      match negative r.1 with
      | some rc => (rc, r.2)
      | none => c_rbtree_walk_nodes negative visitor rest r.2
    else c_rbtree_walk_nodes negative visitor rest r.2

/-- Modelled from the spec: `c_rbtree_walk` (the tree library is not part of
the sources). Entries are processed in tree order; the visitor receives each
node of the tree once, together with the context, as long as it returns no
negative value (for a negative value see `c_rbtree_walk_nodes`). The walks of
this program never insert or remove a node, so the nodes to visit are those of
the tree as it is when the walk starts. -/
def c_rbtree_walk (negative : Int → Option Int) (tree : c_rbtree_t) (ctx : CSYNC)
    (visitor : CSYNC → Nat → Int × CSYNC) : Int × CSYNC :=
  c_rbtree_walk_nodes negative visitor (List.range tree.length) ctx

/-! ## The merge algorithm -/

/-- Lines 75-86 of `_csync_merge_algorithm_visitor`: the peer node of `cur` in
the opposite tree, by `phash`, and on the remote replica by the hash of the
rename-adjusted path when that path differs from `cur->path`. -/
def merge_find_node (ext : csync_externals) (ctx : CSYNC) (cur : csync_file_stat_t) :
    Option (Nat × csync_file_stat_t) :=
  let tree := ctx.tree ctx.current.opposite
  let node := c_rbtree_find tree cur.phash
  if node = none ∧ ctx.current = REMOTE_REPLICA then
    let renamed_path := ext.csync_rename_adjust_path cur.path
    if renamed_path ≠ cur.path then
      c_rbtree_find tree (ext.c_jhash64 renamed_path)
    else node
  else node

/-- Lines 154-192: `cur` is changed or new (its instruction is EVAL or NEW, or
was RENAME and has just been set to NEW) and the peer `other` sits at node
`j` of the opposite tree. -/
def merge_changed_or_new (ctx : CSYNC) (obj : Nat) (cur : csync_file_stat_t)
    (j : Nat) (other : csync_file_stat_t) : CSYNC :=
  let opp := ctx.current.opposite
  match other.instruction with
  | CSYNC_INSTRUCTION_NEW | CSYNC_INSTRUCTION_EVAL =>
    if other.size = cur.size ∧ other.modtime = cur.modtime then
      let cur1 := { cur with instruction := CSYNC_INSTRUCTION_NONE }
      let other1 := { other with instruction := CSYNC_INSTRUCTION_NONE }
      let cur2 :=
        if cur1.md5 = none ∧ other1.md5 ≠ none then { cur1 with md5 := other1.md5 } else cur1
      (ctx.set_node ctx.current obj cur2).set_node opp j other1
    else if ctx.current = REMOTE_REPLICA then
      if ctx.with_conflict_copys then
        (ctx.set_node ctx.current obj { cur with instruction := CSYNC_INSTRUCTION_CONFLICT }).set_node
          opp j { other with instruction := CSYNC_INSTRUCTION_NONE }
      else
        (ctx.set_node ctx.current obj { cur with instruction := CSYNC_INSTRUCTION_SYNC }).set_node
          opp j { other with instruction := CSYNC_INSTRUCTION_NONE }
    else
      if ctx.with_conflict_copys then
        (ctx.set_node ctx.current obj { cur with instruction := CSYNC_INSTRUCTION_NONE }).set_node
          opp j { other with instruction := CSYNC_INSTRUCTION_CONFLICT }
      else
        (ctx.set_node ctx.current obj { cur with instruction := CSYNC_INSTRUCTION_NONE }).set_node
          opp j { other with instruction := CSYNC_INSTRUCTION_SYNC }
  | CSYNC_INSTRUCTION_NONE =>
    ctx.set_node ctx.current obj { cur with instruction := CSYNC_INSTRUCTION_SYNC }
  | CSYNC_INSTRUCTION_IGNORE =>
    ctx.set_node ctx.current obj { cur with instruction := CSYNC_INSTRUCTION_IGNORE }
  | _ => ctx.set_node ctx.current obj cur

/-- The visitor `_csync_merge_algorithm_visitor(obj, data)`: `obj` is the node
of the current replica's tree that is visited, `ctx` is `data`. The logging at
the end of the C function has no effect on the context. -/
def _csync_merge_algorithm_visitor (ext : csync_externals) (ctx : CSYNC) (obj : Nat) :
    Int × CSYNC :=
  match (ctx.tree ctx.current)[obj]? with
  | none => (0, ctx)
  | some cur =>
    let opp := ctx.current.opposite
    let tree := ctx.tree opp
    match merge_find_node ext ctx cur with
    | none =>
      /- file only found on current replica -/
      match cur.instruction with
      | CSYNC_INSTRUCTION_EVAL =>
        (0, ctx.set_node ctx.current obj { cur with instruction := CSYNC_INSTRUCTION_NEW })
      | CSYNC_INSTRUCTION_NONE =>
        (0, ctx.set_node ctx.current obj { cur with instruction := CSYNC_INSTRUCTION_REMOVE })
      | CSYNC_INSTRUCTION_RENAME =>
        if ctx.current = LOCAL_REPLICA then
          match ext.csync_statedb_get_stat_by_inode cur.inode with
          | some tmp =>
            let node :=
              match tmp.path with
              | some p => c_rbtree_find tree (ext.c_jhash64 p)
              | none => none
            match node with
            | none =>
              (0, ctx.set_node ctx.current obj { cur with instruction := CSYNC_INSTRUCTION_NEW })
            | some (j, other) =>
              if other.instruction = CSYNC_INSTRUCTION_NONE ∨ cur.type = CSYNC_FTW_TYPE_DIR then
                (0, (ctx.set_node opp j
                      { other with instruction := CSYNC_INSTRUCTION_RENAME,
                                   destpath := some cur.path }).set_node
                    ctx.current obj { cur with instruction := CSYNC_INSTRUCTION_NONE })
              else
                (0, (ctx.set_node ctx.current obj
                      { cur with instruction := CSYNC_INSTRUCTION_NONE }).set_node
                    opp j { other with instruction := CSYNC_INSTRUCTION_SYNC })
          | none => (0, ctx)
        else (0, ctx)
      | _ => (0, ctx)
    | some (j, other) =>
      /- file found on the other replica -/
      match cur.instruction with
      | CSYNC_INSTRUCTION_RENAME =>
        if ctx.current ≠ LOCAL_REPLICA then (0, ctx)
        else
          (0, merge_changed_or_new ctx obj { cur with instruction := CSYNC_INSTRUCTION_NEW } j other)
      | CSYNC_INSTRUCTION_EVAL | CSYNC_INSTRUCTION_NEW =>
        (0, merge_changed_or_new ctx obj cur j other)
      | _ => (0, ctx)

/-- The function `csync_reconcile_updates(ctx)`: walk the current replica's
tree with the merge visitor. -/
def csync_reconcile_updates (ext : csync_externals) (ctx : CSYNC) : Int × CSYNC :=
  let tree := ctx.tree ctx.current
  c_rbtree_walk ext.c_rbtree_walk_negative tree ctx (_csync_merge_algorithm_visitor ext)

/-- The failure exit of `csync_reconcile`: the error code is set unless one is
already there. -/
def csync_reconcile_fail (ext : csync_externals) (ctx : CSYNC) : CSYNC :=
  if ctx.error_code = CSYNC_ERR_NONE then
    { ctx with error_code := ext.csync_errno_to_csync_error CSYNC_ERR_RECONCILE }
  else ctx

/-- The function `csync_reconcile(ctx)` of `csync.c`; `none` is a NULL context.
The time measurements and the logging have no effect on the context. -/
def csync_reconcile (ext : csync_externals) : Option CSYNC → Int × Option CSYNC
  | none => (-1, none)
  | some ctx =>
    let ctx := { ctx with error_code := CSYNC_ERR_NONE }
    /- Reconciliation for local replica -/
    let ctx := { ctx with current := LOCAL_REPLICA, replica := ctx.local_type }
    let r := csync_reconcile_updates ext ctx
    if r.1 < 0 then (-1, some (csync_reconcile_fail ext r.2))
    else
      /- Reconciliation for remote replica -/
      let ctx := { r.2 with current := REMOTE_REPLICA, replica := r.2.remote_type }
      let r := csync_reconcile_updates ext ctx
      if r.1 < 0 then (-1, some (csync_reconcile_fail ext r.2))
      else (0, some { r.2 with status := r.2.status ||| CSYNC_STATUS_RECONCILE })

/-! ## Invariants of the two passes over identical trees -/

/-- What the merge algorithm compares of a record: its key, size and modtime. -/
def csync_file_stat_t.key_size_modtime (st : csync_file_stat_t) : Nat × Int × Int :=
  (st.phash, st.size, st.modtime)

/-- The state of the local pass over trees that started as `L` and `R`, all
records NEW, after `k` visits: keys, sizes and modtimes are as at the start,
the local records visited so far are NONE and the later ones still NEW, and a
remote record is NONE when its local peer has been visited and NEW when not. -/
def local_pass_inv (L R : c_rbtree_t) (k : Nat) (c : CSYNC) : Prop :=
  c.current = LOCAL_REPLICA ∧
  c.local_tree.map csync_file_stat_t.key_size_modtime =
    L.map csync_file_stat_t.key_size_modtime ∧
  c.remote_tree.map csync_file_stat_t.key_size_modtime =
    R.map csync_file_stat_t.key_size_modtime ∧
  (∀ (i : Nat) (st : csync_file_stat_t), c.local_tree[i]? = some st →
    (i < k → st.instruction = CSYNC_INSTRUCTION_NONE) ∧
    (k ≤ i → st.instruction = CSYNC_INSTRUCTION_NEW)) ∧
  (∀ (j : Nat) (st : csync_file_stat_t), c.remote_tree[j]? = some st →
    (st.phash ∈ (L.take k).map (fun l => l.phash) → st.instruction = CSYNC_INSTRUCTION_NONE) ∧
    (st.phash ∉ (L.take k).map (fun l => l.phash) → st.instruction = CSYNC_INSTRUCTION_NEW))

/-- The state of the remote pass that follows: every record of both trees is
NONE and the keys are those of `L` and `R`. -/
def remote_pass_inv (L R : c_rbtree_t) (c : CSYNC) : Prop :=
  c.current = REMOTE_REPLICA ∧
  (∀ st ∈ c.local_tree, st.instruction = CSYNC_INSTRUCTION_NONE) ∧
  (∀ st ∈ c.remote_tree, st.instruction = CSYNC_INSTRUCTION_NONE) ∧
  c.local_tree.map (fun st => st.phash) = L.map (fun st => st.phash) ∧
  c.remote_tree.map (fun st => st.phash) = R.map (fun st => st.phash)

/-! ## Sample inputs -/

/-- Sample collaborators: the path hash is the length of the path, no rename
was recorded, the journal knows inode 7 under the old path "a", and a walk
ends with -1 when its visitor returns a negative value. -/
def ext0 : csync_externals where
  c_jhash64 := fun p => p.length
  csync_rename_adjust_path := fun p => p
  csync_statedb_get_stat_by_inode := fun i => if i = 7 then some ⟨some "a"⟩ else none
  csync_errno_to_csync_error := fun e => e
  c_rbtree_walk_negative := fun _ => some (-1)

/-- A sample record: a file of 5 bytes last modified at time 100. -/
def st0 (phash : Nat) (path : String) (instruction : csync_instructions_e) :
    csync_file_stat_t where
  phash := phash
  path := path
  inode := 7
  modtime := 100
  size := 5
  type := CSYNC_FTW_TYPE_FILE
  md5 := none
  instruction := instruction
  destpath := none

/-- A sample record like `st0`, of the same size, modified 2 seconds later. -/
def st1 (phash : Nat) (path : String) (instruction : csync_instructions_e) :
    csync_file_stat_t :=
  { st0 phash path instruction with modtime := 102 }

/-- A sample record whose inode (9) the sample journal does not know. -/
def st2 (phash : Nat) (path : String) (instruction : csync_instructions_e) :
    csync_file_stat_t :=
  { st0 phash path instruction with inode := 9 }

/-- A sample context around a local and a remote tree. -/
def ctx0 (current : csync_replica_e) (conflict_copys : Bool)
    (local_tree remote_tree : c_rbtree_t) : CSYNC where
  local_tree := local_tree
  remote_tree := remote_tree
  local_type := LOCAL_REPLICA
  remote_type := REMOTE_REPLICA
  current := current
  replica := current
  with_conflict_copys := conflict_copys
  status := 3
  error_code := CSYNC_ERR_NONE
  abort := false

/-! ## The chunked uploader (`httpbf.c`)

Conventions of this part of the embedding:

* C strings are Lean strings, a NULL pointer is `none`; allocation is taken to
  succeed; the string a function builds is modelled by its content, the sizes
  the code computes for its buffers are definitions of their own
  (`get_transfer_url_len`, `dav_request_etag_len`);
* the block counters and indices (`block_cnt`, `start_id`, `seq_number`, the
  loop counters), which are `int` in the code, are natural numbers; sizes and
  offsets (`off_t`), codes and ids are integers;
* a function whose C code can run into behaviour that C does not define
  yields an `Option`: `none` stands for a run of which the code gives no
  result (a count of blocks that the `int` counter cannot reach, a division
  by zero, a copy with a negative length, a NULL pointer that is read); these
  are `hbf_splitlist`, `dav_request` and with it `hbf_transfer`;
* `transfer->block_arr` is the list of its blocks; an index that has no entry
  stands for a NULL entry;
* the file system and the network are oracles (`hbf_env`), and the requests
  that are dispatched are recorded in the order in which they are sent.
-/

/-- The states of a block and of a transfer (`Hbf_State`). -/
inductive Hbf_State where
  | HBF_SUCCESS
  | HBF_NOT_TRANSFERED
  | HBF_TRANSFER
  | HBF_TRANSFER_FAILED
  | HBF_TRANSFER_SUCCESS
  | HBF_SPLITLIST_FAIL
  | HBF_SESSION_FAIL
  | HBF_FILESTAT_FAIL
  | HBF_PARAM_FAIL
  | HBF_AUTH_FAIL
  | HBF_PROXY_AUTH_FAIL
  | HBF_CONNECT_FAIL
  | HBF_TIMEOUT_FAIL
  | HBF_MEMORY_FAIL
  | HBF_STAT_FAIL
  | HBF_SOURCE_FILE_CHANGE
  | HBF_FAIL
  deriving DecidableEq, Repr

open Hbf_State

/-- A block descriptor (`hbf_block_t`). -/
structure hbf_block_t where
  seq_number : Nat
  start : Int
  size : Int
  state : Hbf_State
  http_result_code : Int
  http_error_msg : Option String
  etag : Option String
  deriving DecidableEq, Repr

/-- A transfer (`hbf_transfer_t`). -/
structure hbf_transfer_t where
  block_arr : List hbf_block_t
  block_cnt : Nat
  fd : Int
  transfer_id : Int
  url : String
  start_id : Nat
  status_code : Int
  error_string : Option String
  stat_size : Int
  modtime : Int
  block_size : Int
  calc_size : Int
  deriving DecidableEq, Repr

/-- What the uploader reads of a `struct stat`. -/
structure hbf_stat_t where
  st_size : Int
  st_mtime : Int
  deriving DecidableEq, Repr

/-- The constant `DEFAULT_BLOCK_SIZE`. -/
def DEFAULT_BLOCK_SIZE : Int := 10 * 1024 * 1024

/-- The function `hbf_init_transfer(dest_uri)`: a zeroed transfer with the
target url, status code 200 and the default block size. -/
def hbf_init_transfer (dest_uri : String) : hbf_transfer_t where
  block_arr := []
  block_cnt := 0
  fd := 0
  transfer_id := 0
  url := dest_uri
  start_id := 0
  status_code := 200
  error_string := none
  stat_size := 0
  modtime := 0
  block_size := DEFAULT_BLOCK_SIZE
  calc_size := 0

/-- The block that the loop of `hbf_splitlist` builds for the count `cnt`. -/
def hbf_splitlist_block (num_blocks blk_size remainder : Int) (cnt : Nat) : hbf_block_t where
  seq_number := cnt
  start := if cnt > 0 then (cnt : Int) * blk_size else 0
  size := if (cnt : Int) = num_blocks - 1 ∧ remainder > 0 then remainder else blk_size
  state := HBF_NOT_TRANSFERED
  http_result_code := 0
  http_error_msg := none
  etag := none

/-- The value that an arithmetic result has in an `int` of 32 bits in two's
complement: the result modulo 2^32, read as a signed number. -/
def int32 (v : Int) : Int :=
  (v + 2147483648) % 4294967296 - 2147483648

/-- The function `transfer_id(sb)`. `tp` is what `gettimeofday` yields
(`tv_sec` and `tv_usec`; `none` when it fails), `st_ino` is the inode of the
file and `sizeof_tv_usec` is `sizeof(tp.tv_usec)`, which is 8 where `long` has
64 bits. -/
def transfer_id (tp : Option (Int × Int)) (st_ino : Nat) (sizeof_tv_usec : Nat) : Int :=
  match tp with
  | none => 0
  | some (tv_sec, tv_usec) =>
    /- epoche value in seconds -/
    let res := int32 tv_sec
    let res := int32 (res * 2 ^ 8)
    let r : Int := ((st_ino % 256 : Nat) : Int)
    let res := int32 (res + r)
    let res := int32 (res * 2 ^ sizeof_tv_usec)
    /- milliseconds -/
    let res := int32 (res + tv_usec)
    res

/-- The largest value of an `int`, which has 32 bits. -/
def INT_MAX : Int := 2147483647

/-- The function `hbf_splitlist(transfer, fd)`. `sb` is what `fstat(fd, &sb)`
yields (`none` when it fails) and `id` is the value of `transfer_id(&sb)`,
which depends on the clock. The count of blocks `num_blocks` is an `off_t`; it
is stored in the `int` field `block_cnt` and counted by the `int` variable
`cnt`. The call has no result (`none`) when the block size is 0 (division by
zero) and when the count is above `INT_MAX` (`cnt` overflows before the loop
ends); a negative count, which needs a negative size or block size, is not
followed either, since `block_cnt` is a natural number here. -/
def hbf_splitlist (transfer : Option hbf_transfer_t) (fd : Int) (sb : Option hbf_stat_t)
    (id : Int) : Option (Hbf_State × Option hbf_transfer_t) :=
  match transfer with
  | none => some (HBF_PARAM_FAIL, none)
  | some transfer =>
    if fd ≤ 0 then some (HBF_PARAM_FAIL, some transfer)
    else
      match sb with
      | none => some (HBF_FILESTAT_FAIL, some transfer)
      | some sb =>
        /- Store the file characteristics. -/
        let transfer :=
          { transfer with fd := fd, stat_size := sb.st_size, modtime := sb.st_mtime,
                          calc_size := 0 }
        /- calc the number of blocks to split in -/
        let blk_size := transfer.block_size
        if blk_size = 0 then none
        else
          let num_blocks := Int.tdiv sb.st_size blk_size
          let remainder := sb.st_size - num_blocks * blk_size
          let num_blocks := if remainder > 0 then num_blocks + 1 else num_blocks
          let blk_size := if sb.st_size = 0 then 0 else blk_size
          let num_blocks := if sb.st_size = 0 then 1 else num_blocks
          if num_blocks ≠ 0 then
            if num_blocks < 0 ∨ INT_MAX < num_blocks then none
            else
              let block_arr :=
                (List.range num_blocks.toNat).map
                  (hbf_splitlist_block num_blocks blk_size remainder)
              some (HBF_SUCCESS,
                some { transfer with
                  block_arr := block_arr, block_cnt := num_blocks.toNat, transfer_id := id,
                  start_id := 0, calc_size := (block_arr.map (fun b => b.size)).sum })
          else some (HBF_SUCCESS, some transfer)

/-- The conversion `%u` of `sprintf` for an `int` argument. -/
def sprintf_u (v : Int) : String :=
  toString (v % 4294967296).toNat

/-- The conversion `%d` of `sprintf`. -/
def sprintf_d (v : Int) : String :=
  toString v

/-- The number of bytes `get_transfer_url` allocates for a chunk url. -/
def get_transfer_url_len (transfer : hbf_transfer_t) (indx : Nat) : Int :=
  1 + (sprintf_u transfer.transfer_id).length + (sprintf_u transfer.block_cnt).length +
    (sprintf_u indx).length + transfer.url.length + ("-chunking---" : String).length

/-- The function `get_transfer_url(transfer, indx)`. -/
def get_transfer_url (transfer : Option hbf_transfer_t) (indx : Nat) : Option String :=
  match transfer with
  | none => none
  | some transfer =>
    if indx ≥ transfer.block_cnt then none
    else
      match transfer.block_arr[indx]? with
      | none => none
      | some _ =>
        if transfer.block_cnt = 1 then
          /- Just one chunk. We send as an ordinary request without chunking. -/
          some transfer.url
        else
          some (transfer.url ++ "-chunking-" ++ sprintf_d transfer.transfer_id ++ "-" ++
            sprintf_d transfer.block_cnt ++ "-" ++ sprintf_d indx)

/-- The result codes of `ne_request_dispatch` (neon library). -/
def NE_OK : Int := 0
/-- Generic error of neon. -/
def NE_ERROR : Int := 1
/-- Server or proxy hostname lookup failed. -/
def NE_LOOKUP : Int := 2
/-- User authentication failed on server. -/
def NE_AUTH : Int := 3
/-- User authentication failed on proxy. -/
def NE_PROXYAUTH : Int := 4
/-- Could not connect to server. -/
def NE_CONNECT : Int := 5
/-- Connection timed out. -/
def NE_TIMEOUT : Int := 6

/-- What `dav_request` learns from neon after `ne_request_dispatch`: the
result code, the status of the request (`ne_get_status`) and the `ETag`
response header (`ne_get_response_header`). -/
structure ne_response where
  res : Int
  klass : Int
  code : Int
  reason_phrase : Option String
  etag : Option String
  deriving DecidableEq, Repr

/-- The length `dav_request` computes for the copy of a quoted etag:
`strlen(etag) - 2`. -/
def dav_request_etag_len (etag : String) : Int :=
  (etag.length : Int) - 2

/-- The etag `dav_request` stores on the block for a non-empty header value:
without its first and last character when both are a double quote (the `len`
characters that follow the first one), unchanged otherwise. When `len` is
negative there is no result: `strncpy` gets `len` as a `size_t`, a length far
beyond the `len + 1` bytes of the buffer. -/
def dav_request_etag (etag : String) : Option String :=
  if etag.data.head? = some '"' ∧ etag.data.getLast? = some '"' then
    if dav_request_etag_len etag < 0 then none
    else some (String.mk ((etag.data.drop 1).take (dav_request_etag_len etag).toNat))
  else some etag

/-- The function `dav_request(req, fd, blk)`: `req` tells whether the request
is there, `response` is what the dispatch of the request yields. The result is
the returned state and the block as `dav_request` leaves it, and `none` when
the copy of the etag has no result. When `blk` or `req` is NULL nothing is
dispatched. -/
def dav_request (req : Bool) (blk : Option hbf_block_t) (response : ne_response) :
    Option (Hbf_State × Option hbf_block_t) :=
  match blk with
  | none => some (HBF_PARAM_FAIL, none)
  | some blk =>
    if ¬ req then some (HBF_PARAM_FAIL, some blk)
    else
      let r : Option (Hbf_State × hbf_block_t) :=
        if response.res = NE_OK then
          if response.klass = 2 then
            match response.etag with
            | some etag =>
              if etag ≠ "" then
                /- When there is an etag, it means the transfer was complete -/
                match dav_request_etag etag with
                | some stored =>
                  some (HBF_SUCCESS,
                    { blk with state := HBF_TRANSFER_SUCCESS, etag := some stored })
                | none => none
              else some (HBF_TRANSFER_SUCCESS, { blk with state := HBF_TRANSFER_SUCCESS })
            | none => some (HBF_TRANSFER_SUCCESS, { blk with state := HBF_TRANSFER_SUCCESS })
          else some (HBF_FAIL, { blk with state := HBF_TRANSFER_FAILED })
        else if response.res = NE_AUTH then
          some (HBF_AUTH_FAIL, { blk with state := HBF_TRANSFER_FAILED })
        else if response.res = NE_PROXYAUTH then
          some (HBF_PROXY_AUTH_FAIL, { blk with state := HBF_TRANSFER_FAILED })
        else if response.res = NE_CONNECT then
          some (HBF_CONNECT_FAIL, { blk with state := HBF_TRANSFER_FAILED })
        else if response.res = NE_TIMEOUT then
          some (HBF_TIMEOUT_FAIL, { blk with state := HBF_TRANSFER_FAILED })
        else if response.res = NE_ERROR then
          some (HBF_FAIL, { blk with state := HBF_TRANSFER_FAILED })
        else some (HBF_TRANSFER_SUCCESS, blk)
      match r with
      | none => none
      | some r =>
        some (r.1, some { r.2 with
          http_result_code := response.code,
          http_error_msg :=
            match response.reason_phrase with
            | some reason => some reason
            | none => r.2.http_error_msg })

/-- The function `validate_source_file(transfer)`; `sb` is what
`fstat(transfer->fd, &sb)` yields, `none` when it fails. -/
def validate_source_file (transfer : Option hbf_transfer_t) (sb : Option hbf_stat_t) :
    Hbf_State :=
  match transfer with
  | none => HBF_PARAM_FAIL
  | some transfer =>
    if transfer.fd ≤ 0 then HBF_PARAM_FAIL
    else
      match sb with
      | none => HBF_STAT_FAIL
      | some sb =>
        if sb.st_mtime ≠ transfer.modtime ∨ sb.st_size ≠ transfer.stat_size then
          HBF_SOURCE_FILE_CHANGE
        else HBF_SUCCESS

/-- A request as `hbf_transfer` sends it: a PUT to `url` with the bytes
`[body_start, body_start + body_size)` of the source as body, for the block
`block_id`, with the header `OC-Chunked: 1` when `oc_chunked` is set. -/
structure hbf_request where
  block_id : Nat
  url : Option String
  oc_chunked : Bool
  body_start : Int
  body_size : Int
  deriving DecidableEq, Repr

/-- The surroundings of a run of `hbf_transfer`, by loop count `cnt`: what
`fstat` yields in the validation before the block of that count and in the
final validation, whether `ne_request_create` yields a request, what the
dispatch of the request yields, and the error text of the session. -/
structure hbf_env where
  fstat_before : Nat → Option hbf_stat_t
  fstat_final : Option hbf_stat_t
  ne_request_create : Nat → Bool
  ne_request_dispatch : Nat → hbf_request → ne_response
  ne_get_error : Nat → String

/-- The variables of the loop of `hbf_transfer`, with the requests sent so
far. -/
structure hbf_run where
  state : Hbf_State
  transfer : hbf_transfer_t
  sent : List hbf_request
  deriving DecidableEq, Repr

/-- The body of the loop of `hbf_transfer` for the count `cnt`; `none` when
`dav_request` has no result, and when the block is NULL at the point where
the code reads its `http_result_code`. -/
def hbf_transfer_block (env : hbf_env) (cnt : Nat) (run : hbf_run) : Option hbf_run :=
  let transfer := run.transfer
  let state := run.state
  let block_id := (cnt + transfer.start_id) % transfer.block_cnt
  let block := transfer.block_arr[block_id]?
  let state := if block = none then HBF_PARAM_FAIL else state
  let transfer_url :=
    if state = HBF_TRANSFER_SUCCESS then get_transfer_url (some transfer) block_id else none
  let state :=
    if state = HBF_TRANSFER_SUCCESS ∧ transfer_url = none then HBF_PARAM_FAIL else state
  let state :=
    if transfer.block_cnt > 1 ∧ cnt > 0 then
      /- The block count is > 1, check size and mtime before transmitting. -/
      validate_source_file (some transfer) (env.fstat_before cnt)
    else state
  if state = HBF_TRANSFER_SUCCESS ∨ state = HBF_SUCCESS then
    if env.ne_request_create cnt then
      match block with
      | none =>
        /- `dav_request` returns HBF_PARAM_FAIL before it dispatches anything,
           and `transfer->block_arr[block_id]->http_result_code` is read -/
        none
      | some blk =>
        let request : hbf_request :=
          { block_id := block_id, url := transfer_url,
            oc_chunked := decide (transfer.block_cnt > 1),
            body_start := blk.start, body_size := blk.size }
        match dav_request true (some blk) (env.ne_request_dispatch cnt request) with
        | none => none
        | some r =>
          let blk := r.2.getD blk
          let transfer := { transfer with block_arr := transfer.block_arr.set block_id blk }
          let sent := run.sent ++ [request]
          if r.1 ≠ HBF_TRANSFER_SUCCESS ∧ r.1 ≠ HBF_SUCCESS then
            some
              { state := HBF_FAIL,
                transfer := { transfer with
                  error_string := some (env.ne_get_error cnt),
                  start_id := block_id % transfer.block_cnt,
                  /- Set the code of the last transmission. -/
                  status_code := blk.http_result_code },
                sent := sent }
          else some { state := r.1, transfer := transfer, sent := sent }
    else some { run with state := HBF_MEMORY_FAIL }
  else some { run with state := state }

/-- The loop of `hbf_transfer` over the counts that are left: it goes on while
the state is HBF_TRANSFER_SUCCESS. -/
def hbf_transfer_blocks (env : hbf_env) : List Nat → hbf_run → Option hbf_run
  | [], run => some run
  | cnt :: rest, run =>
    if run.state = HBF_TRANSFER_SUCCESS then
      match hbf_transfer_block env cnt run with
      | none => none
      | some run => hbf_transfer_blocks env rest run
    else some run

/-- The outcome of `hbf_transfer`: the returned state, the transfer as it is
left, and the requests that were sent, in order. -/
structure hbf_outcome where
  state : Hbf_State
  transfer : Option hbf_transfer_t
  sent : List hbf_request
  deriving DecidableEq, Repr

/-- The end of `hbf_transfer`: the source file validation is done once more
when the loop ends with HBF_SUCCESS. -/
def hbf_transfer_finish (env : hbf_env) (run : hbf_run) : hbf_outcome :=
  /- do the source file validation finally (again). -/
  let state :=
    if run.state = HBF_SUCCESS then validate_source_file (some run.transfer) env.fstat_final
    else run.state
  { state := state, transfer := some run.transfer, sent := run.sent }

/-- The function `hbf_transfer(session, transfer, verb)`; `session` and `verb`
tell whether these pointers are there. The loop counts `cnt` from 0 up to
`block_cnt`, which the loop does not change. The result is `none` when a turn
of the loop has no result. -/
def hbf_transfer (env : hbf_env) (session : Bool) (transfer : Option hbf_transfer_t)
    (verb : Bool) : Option hbf_outcome :=
  let state := HBF_TRANSFER_SUCCESS
  let state := if ¬ session then HBF_SESSION_FAIL else state
  let state := if transfer = none then HBF_SPLITLIST_FAIL else state
  let state := if ¬ verb then HBF_PARAM_FAIL else state
  match transfer with
  | none => some { state := state, transfer := none, sent := [] }
  | some transfer =>
    (hbf_transfer_blocks env (List.range transfer.block_cnt)
      { state := state, transfer := transfer, sent := [] }).map (hbf_transfer_finish env)

/-- The loop variables of `hbf_transfer` (with a session and a verb) after the
turns for the counts 0, ..., c - 1. -/
def hbf_transfer_upto (env : hbf_env) (transfer : hbf_transfer_t) (c : Nat) : Option hbf_run :=
  hbf_transfer_blocks env (List.range c)
    { state := HBF_TRANSFER_SUCCESS, transfer := transfer, sent := [] }

/-! ### Sample inputs of the uploader -/

/-- A sample transfer to "u" with id 77: a source of `size` bytes, last
modified at time 100, split in blocks of `blk` bytes. -/
def hbf_t0 (size blk : Int) : hbf_transfer_t :=
  ((hbf_splitlist (some { hbf_init_transfer "u" with block_size := blk }) 3
    (some ⟨size, 100⟩) 77).bind (fun r => r.2)).getD (hbf_init_transfer "u")

/-- A sample answer of the server: 201 Created, with the given `ETag` header. -/
def ne_created (etag : Option String) : ne_response :=
  { res := NE_OK, klass := 2, code := 201, reason_phrase := some "Created", etag := etag }

/-- A sample failure: the dispatch yields `res`, the status is `code`. -/
def ne_failure (res code : Int) : ne_response :=
  { res := res, klass := code / 100, code := code, reason_phrase := some "failed", etag := none }

/-- Sample surroundings: `fstat` yields modtime 100 and `size` bytes before
every block and `final` at the end, every request is created, and the server
answers by `dispatch`. -/
def hbf_env0 (size : Int) (final : Option hbf_stat_t)
    (dispatch : Nat → hbf_request → ne_response) : hbf_env where
  fstat_before := fun _ => some ⟨size, 100⟩
  fstat_final := final
  ne_request_create := fun _ => true
  ne_request_dispatch := dispatch
  ne_get_error := fun _ => "error"

/-! ## The cycle: update, status, commit (`csync.c`)

The context gets the fields these functions read or write; a field that is not
given when a context is built has the value it has in a context without
journal. The journal itself lives outside of the context: `statedb_written`
counts how often it has been written, that is how often
`_merge_and_write_statedb` has closed the state database with `jwritten` = 1. -/

/-- Modelled from the spec: the status bit of the init phase
(`CSYNC_STATUS_INIT`, declared in a header that is not part of the sources). -/
def CSYNC_STATUS_INIT : Nat := 1

/-- Modelled from the spec: the status bit of the update phase
(`CSYNC_STATUS_UPDATE`). -/
def CSYNC_STATUS_UPDATE : Nat := 2

/-- Modelled from the spec: the status bit of the propagate phase
(`CSYNC_STATUS_PROPAGATE`). -/
def CSYNC_STATUS_PROPAGATE : Nat := 8

/-- Modelled from the spec: the status of a cycle whose phases are all done
(`CSYNC_STATUS_DONE`): the bits of INIT, UPDATE, RECONCILE and PROPAGATE. -/
def CSYNC_STATUS_DONE : Nat :=
  CSYNC_STATUS_INIT ||| CSYNC_STATUS_UPDATE ||| CSYNC_STATUS_RECONCILE ||| CSYNC_STATUS_PROPAGATE

/-- The collaborators of `csync_update`: whether the name of the lock file
can be built, what `csync_lock` returns, and the walk of the current replica
`csync_ftw(ctx, uri, csync_walker, MAX_DEPTH)`, which returns its code and the
context it leaves. -/
structure csync_update_externals where
  asprintf_lock : Int
  csync_lock : Int
  csync_ftw : CSYNC → Int × CSYNC
  csync_errno_to_csync_error : csync_error_codes_e → csync_error_codes_e

/-- The failure exit of `csync_update` after a walk: the error code is set
unless one is already there. -/
def csync_update_fail (ext : csync_update_externals) (ctx : CSYNC) : CSYNC :=
  if ctx.error_code = CSYNC_ERR_NONE then
    { ctx with error_code := ext.csync_errno_to_csync_error CSYNC_ERR_UPDATE }
  else ctx

/-- The function `csync_update(ctx)`; `none` is a NULL context. The time
measurements, the memory statistics and the logging have no effect on the
context. -/
def csync_update (ext : csync_update_externals) : Option CSYNC → Int × Option CSYNC
  | none => (-1, none)
  | some ctx =>
    let ctx := { ctx with error_code := CSYNC_ERR_NONE }
    /- try to create lock file -/
    if ext.asprintf_lock < 0 then (-1, some { ctx with error_code := CSYNC_ERR_MEM })
    else if ext.csync_lock < 0 then (-1, some { ctx with error_code := CSYNC_ERR_LOCK })
    else
      /- update detection for local replica -/
      let ctx := { ctx with current := LOCAL_REPLICA, replica := ctx.local_type }
      let r := ext.csync_ftw ctx
      if r.1 < 0 then (-1, some (csync_update_fail ext r.2))
      else
        /- update detection for remote replica -/
        if ¬ r.2.local_only_mode then
          let ctx := { r.2 with current := REMOTE_REPLICA, replica := r.2.remote_type }
          let r := ext.csync_ftw ctx
          if r.1 < 0 then (-1, some (csync_update_fail ext r.2))
          else (0, some { r.2 with status := r.2.status ||| CSYNC_STATUS_UPDATE })
        else (0, some { r.2 with status := r.2.status ||| CSYNC_STATUS_UPDATE })

/-- The function `csync_get_status(ctx)`. -/
def csync_get_status : Option CSYNC → Int × Option CSYNC
  | none => (-1, none)
  | some ctx => ((ctx.status : Int), some { ctx with error_code := CSYNC_ERR_NONE })

/-- The function `csync_is_statedb_disabled(ctx)` for a context that is there. -/
def csync_is_statedb_disabled (ctx : CSYNC) : Bool × CSYNC :=
  (ctx.statedb_disabled, { ctx with error_code := CSYNC_ERR_NONE })

/-- The collaborators of `csync_commit`: the merge of the trees, which returns
its code and the context it leaves, the codes that writing and closing the
state database return, and the codes of the steps that set up the next cycle
(the name of the journal, loading it, the two new trees, the name of the lock
file). -/
structure csync_commit_externals where
  csync_merge_file_trees : CSYNC → Int × CSYNC
  csync_statedb_write : CSYNC → Int
  csync_statedb_close : CSYNC → Bool → Int
  asprintf_statedb_file : Int
  csync_statedb_load : Int
  c_rbtree_create_local : Int
  c_rbtree_create_remote : Int
  asprintf_lock : Int

/-- The function `_merge_and_write_statedb(ctx)`. -/
def _merge_and_write_statedb (ext : csync_commit_externals) (ctx : CSYNC) : Int × CSYNC :=
  /- if we have a statedb -/
  if ctx.statedb_db then
    let r : Int × Bool × CSYNC :=
      /- and we have successfully synchronized -/
      if ctx.status ≥ CSYNC_STATUS_DONE then
        /- merge trees -/
        let m := ext.csync_merge_file_trees ctx
        if m.1 < 0 then (-1, false, m.2)
        else
          /- write the statedb to disk -/
          if ext.csync_statedb_write m.2 = 0 then (0, true, m.2) else (-1, false, m.2)
      else (0, false, ctx)
    let rc := r.1
    let jwritten := r.2.1
    let ctx := r.2.2
    let rc := if ext.csync_statedb_close ctx jwritten < 0 then -1 else rc
    (rc, { ctx with statedb_written := ctx.statedb_written + (if jwritten then 1 else 0) })
  else (0, ctx)

/-- The function `csync_commit(ctx)`, for a context that is there (the
function does not test it). A conditional assignment to one field is written
as the new value of that field. The trees that are destroyed and freed are
empty afterwards. -/
def csync_commit (ext : csync_commit_externals) (ctx : CSYNC) : Int × CSYNC :=
  /- maybe the propagate was done using another propagator, let the merger
     think it has been done -/
  let ctx :=
    { ctx with
      status := if ctx.error_code = CSYNC_ERR_NONE then CSYNC_STATUS_DONE else ctx.status,
      error_code := CSYNC_ERR_NONE }
  let m := _merge_and_write_statedb ext ctx
  let rc : Int := if m.1 < 0 then 1 else 0
  /- destroy the rbtrees, free memory -/
  let ctx :=
    { m.2 with
      error_code :=
        if m.1 < 0 ∧ m.2.error_code = CSYNC_ERR_NONE then CSYNC_ERR_STATEDB_WRITE
        else m.2.error_code,
      local_tree := [], remote_tree := [] }
  /- create/load statedb -/
  let d := csync_is_statedb_disabled ctx
  let ctx := d.2
  let unnamed : Bool := ¬ d.1 ∧ ctx.statedb_file = none
  if unnamed ∧ ext.asprintf_statedb_file < 0 then
    (ext.asprintf_statedb_file, { ctx with error_code := CSYNC_ERR_MEM })
  else
    let rc := if unnamed then ext.asprintf_statedb_file else rc
    let ctx :=
      { ctx with
        statedb_file :=
          if unnamed then some (ctx.local_uri ++ "/.csync_journal.db") else ctx.statedb_file }
    if ¬ d.1 ∧ ext.csync_statedb_load < 0 then
      (-1, { ctx with error_code := CSYNC_ERR_STATEDB_LOAD })
    else
      let ctx := { ctx with statedb_db := if ¬ d.1 then true else ctx.statedb_db }
      /- Create new trees -/
      if ext.c_rbtree_create_local < 0 then (-1, { ctx with error_code := CSYNC_ERR_TREE })
      else if ext.c_rbtree_create_remote < 0 then
        (-1, { ctx with error_code := CSYNC_ERR_TREE })
      else
        let ctx := { ctx with status := CSYNC_STATUS_INIT, error_code := CSYNC_ERR_NONE }
        /- create lock file -/
        if ext.asprintf_lock < 0 then (-1, { ctx with error_code := CSYNC_ERR_MEM })
        else (rc, ctx)

/-- Sample collaborators of `csync_commit`: every step succeeds. -/
def commit_ext0 : csync_commit_externals where
  csync_merge_file_trees := fun ctx => (0, ctx)
  csync_statedb_write := fun _ => 0
  csync_statedb_close := fun _ _ => 0
  asprintf_statedb_file := 20
  csync_statedb_load := 0
  c_rbtree_create_local := 0
  c_rbtree_create_remote := 0
  asprintf_lock := 10

/-- A sample context after `csync_init`: the INIT bit is set, the journal is
open, the trees are empty. -/
def ctx_init : CSYNC :=
  { ctx0 LOCAL_REPLICA false [] [] with
    status := CSYNC_STATUS_INIT, statedb_db := true, statedb_file := some "/l/.csync_journal.db",
    local_uri := "/l" }

/-! ## The propagate phase and the abort flag (`csync.c`) -/

/-- The collaborators of `csync_propagate`: the propagation of the renamed
directories and the propagation of the files of the current replica, each
with its return code and the context it leaves. -/
structure csync_propagate_externals where
  csync_propagate_rename_dirs : CSYNC → Int × CSYNC
  csync_propagate_files : CSYNC → Int × CSYNC
  csync_errno_to_csync_error : csync_error_codes_e → csync_error_codes_e

/-- The failure exit of `csync_propagate`: the error code is set unless one is
already there. -/
def csync_propagate_fail (ext : csync_propagate_externals) (ctx : CSYNC) : CSYNC :=
  if ctx.error_code = CSYNC_ERR_NONE then
    { ctx with error_code := ext.csync_errno_to_csync_error CSYNC_ERR_PROPAGATE }
  else ctx

/-- The function `csync_propagate(ctx)`; `none` is a NULL context. The time
measurements and the logging have no effect on the context. -/
def csync_propagate (ext : csync_propagate_externals) : Option CSYNC → Int × Option CSYNC
  | none => (-1, none)
  | some ctx =>
    let ctx := { ctx with error_code := CSYNC_ERR_NONE }
    let ctx := { ctx with current := REMOTE_REPLICA, replica := ctx.remote_type }
    let r := ext.csync_propagate_rename_dirs ctx
    if r.1 < 0 then (-1, some (csync_propagate_fail ext r.2))
    else
      /- propagation for the local replica -/
      let ctx := { r.2 with current := LOCAL_REPLICA, replica := r.2.local_type }
      let r := ext.csync_propagate_files ctx
      if r.1 < 0 then (-1, some (csync_propagate_fail ext r.2))
      else
        /- propagation for the remote replica -/
        let ctx := { r.2 with current := REMOTE_REPLICA, replica := r.2.remote_type }
        let r := ext.csync_propagate_files ctx
        if r.1 < 0 then (-1, some (csync_propagate_fail ext r.2))
        else (0, some { r.2 with status := r.2.status ||| CSYNC_STATUS_PROPAGATE })

/-- The function `csync_request_abort(ctx)`. -/
def csync_request_abort (ctx : CSYNC) : CSYNC :=
  { ctx with abort := true }

/-- The function `csync_resume(ctx)`. -/
def csync_resume (ctx : CSYNC) : CSYNC :=
  { ctx with abort := false }

/-- Sample collaborators of `csync_propagate`: every step succeeds and leaves
the context as it is. -/
def propagate_ext0 : csync_propagate_externals where
  csync_propagate_rename_dirs := fun ctx => (0, ctx)
  csync_propagate_files := fun ctx => (0, ctx)
  csync_errno_to_csync_error := fun e => e

/-- A sample context on which no phase has run, not even `csync_init`:
the status is 0. The replicas are the directories "/l" and "/l/d" of the
sample file system. -/
def ctx_none (local_tree remote_tree : c_rbtree_t) : CSYNC :=
  { ctx0 LOCAL_REPLICA false local_tree remote_tree with
    status := 0, local_uri := "/l", remote_uri := "/l/d" }

/-! ## The tree walk for the user (`csync.c`) -/

/-- What the tree walk needs from outside: the numeric value of an instruction
(the enumeration is declared in a header that is not part of the sources),
the call of the user visitor a function pointer points to, which yields its
return code and the view as the visitor leaves it, the errno mapping, and
what `c_rbtree_walk` does when the visitor returns a negative value (see
`c_rbtree_walk_nodes`). -/
structure csync_treewalk_externals where
  instruction_value : csync_instructions_e → Int
  call_visitor : Nat → TREE_WALK_FILE → csync_pointer → Int × TREE_WALK_FILE
  csync_errno_to_csync_error : csync_error_codes_e → csync_error_codes_e
  c_rbtree_walk_negative : Int → Option Int

/-- The view `trav` that `_csync_treewalk_visitor` fills from the record `cur`. -/
def csync_treewalk_view (cur : csync_file_stat_t) : TREE_WALK_FILE where
  path := cur.path
  modtime := cur.modtime
  type := cur.type
  instruction := cur.instruction
  rename_path := cur.destpath
  md5 := cur.md5

/-- The function `_csync_treewalk_visitor(obj, data)`: `obj` is the node of the
walked tree (the tree of replica `tree`), `ctx` is `data`, and `tw_ctx` is the
content of the variable of that name of the running `_csync_walk_tree`, which
is what `ctx->callbacks.userdata` points to during a walk; any other userdata
is taken as NULL. -/
def _csync_treewalk_visitor (ext : csync_treewalk_externals) (tw_ctx : _csync_treewalk_context)
    (tree : csync_replica_e) (ctx : CSYNC) (obj : Nat) : Int × CSYNC :=
  match (ctx.tree tree)[obj]? with
  | none => (-1, { ctx with error_code := CSYNC_ERR_PARAM })
  | some cur =>
    let ctx := { ctx with error_code := CSYNC_ERR_NONE }
    let twctx : Option _csync_treewalk_context :=
      if ctx.callbacks_userdata = csync_pointer.tw_ctx then some tw_ctx else none
    match twctx with
    | none => (-1, { ctx with error_code := CSYNC_ERR_PARAM })
    | some twctx =>
      if twctx.instruction_filter > 0 ∧
          Int.land twctx.instruction_filter (ext.instruction_value cur.instruction) = 0 then
        (0, ctx)
      else
        match twctx.user_visitor with
        | some visitor =>
          let trav := csync_treewalk_view cur
          let r := ext.call_visitor visitor trav twctx.userdata
          let ctx := { ctx with visited := ctx.visited ++ [(trav, twctx.userdata)] }
          (r.1, ctx.set_node tree obj { cur with instruction := r.2.instruction, md5 := r.2.md5 })
        | none => (-1, { ctx with error_code := CSYNC_ERR_TREE })

/-- The function `_csync_walk_tree(ctx, tree, visitor, filter)`; a NULL context,
tree or visitor is `none`, and the tree is named by its replica. -/
def _csync_walk_tree (ext : csync_treewalk_externals) (ctx : Option CSYNC)
    (tree : Option csync_replica_e) (visitor : Option Nat) (filter : Int) :
    Int × Option CSYNC :=
  match ctx with
  | none => (-1, none)
  | some ctx =>
    let ctx := { ctx with error_code := CSYNC_ERR_NONE }
    match visitor, tree with
    | some visitor, some tree =>
      let tw_ctx : _csync_treewalk_context :=
        { userdata := ctx.callbacks_userdata, user_visitor := some visitor,
          instruction_filter := filter }
      let ctx := { ctx with callbacks_userdata := csync_pointer.tw_ctx }
      let r := c_rbtree_walk ext.c_rbtree_walk_negative (ctx.tree tree) ctx
        (_csync_treewalk_visitor ext tw_ctx tree)
      let error_code :=
        if r.1 < 0 ∧ r.2.error_code = CSYNC_ERR_NONE then
          ext.csync_errno_to_csync_error CSYNC_ERR_TREE
        else r.2.error_code
      (r.1, some { r.2 with error_code := error_code, callbacks_userdata := tw_ctx.userdata })
    | _, _ => (-1, some { ctx with error_code := CSYNC_ERR_PARAM })

/-- The function `csync_walk_remote_tree(ctx, visitor, filter)`. -/
def csync_walk_remote_tree (ext : csync_treewalk_externals) (ctx : Option CSYNC)
    (visitor : Option Nat) (filter : Int) : Int × Option CSYNC :=
  _csync_walk_tree ext ctx (ctx.map (fun _ => REMOTE_REPLICA)) visitor filter

/-- The function `csync_walk_local_tree(ctx, visitor, filter)`. -/
def csync_walk_local_tree (ext : csync_treewalk_externals) (ctx : Option CSYNC)
    (visitor : Option Nat) (filter : Int) : Int × Option CSYNC :=
  _csync_walk_tree ext ctx (ctx.map (fun _ => LOCAL_REPLICA)) visitor filter

/-- The filter of a tree walk lets the record `st` through: the filter is not
positive, or it has a bit in common with the instruction of the record. -/
def csync_treewalk_selects (ext : csync_treewalk_externals) (filter : Int)
    (st : csync_file_stat_t) : Prop :=
  ¬ (filter > 0 ∧ Int.land filter (ext.instruction_value st.instruction) = 0)

instance (ext : csync_treewalk_externals) (filter : Int) (st : csync_file_stat_t) :
    Decidable (csync_treewalk_selects ext filter st) := by
  unfold csync_treewalk_selects
  exact inferInstance

/-- The record `st` after its visit by a tree walk: when the filter lets it
through, its instruction and md5 are what the user visitor leaves in the view;
otherwise it is as it was. -/
def csync_treewalk_visit (ext : csync_treewalk_externals) (visitor : Nat)
    (userdata : csync_pointer) (filter : Int) (st : csync_file_stat_t) : csync_file_stat_t :=
  if csync_treewalk_selects ext filter st then
    { st with
      instruction := (ext.call_visitor visitor (csync_treewalk_view st) userdata).2.instruction,
      md5 := (ext.call_visitor visitor (csync_treewalk_view st) userdata).2.md5 }
  else st

/-- The values of the instructions as flags, one bit each:
NONE 0, EVAL 1, REMOVE 2, RENAME 4, NEW 8, CONFLICT 16, IGNORE 32, SYNC 64,
STAT_ERROR 128, ERROR 256, DELETED 512, UPDATED 1024. -/
def instruction_flags : csync_instructions_e → Int
  | CSYNC_INSTRUCTION_NONE => 0
  | CSYNC_INSTRUCTION_EVAL => 1
  | CSYNC_INSTRUCTION_REMOVE => 2
  | CSYNC_INSTRUCTION_RENAME => 4
  | CSYNC_INSTRUCTION_NEW => 8
  | CSYNC_INSTRUCTION_CONFLICT => 16
  | CSYNC_INSTRUCTION_IGNORE => 32
  | CSYNC_INSTRUCTION_SYNC => 64
  | CSYNC_INSTRUCTION_STAT_ERROR => 128
  | CSYNC_INSTRUCTION_ERROR => 256
  | CSYNC_INSTRUCTION_DELETED => 512
  | CSYNC_INSTRUCTION_UPDATED => 1024

/-- Sample collaborators of the tree walk: the user visitor behind pointer 1
marks what it sees as UPDATED and returns 0, the one behind any other pointer
leaves the view alone and returns -1; a walk ends with -1 when its visitor
returns a negative value. -/
def treewalk_ext0 : csync_treewalk_externals where
  instruction_value := instruction_flags
  call_visitor := fun f trav _ =>
    if f = 1 then (0, { trav with instruction := CSYNC_INSTRUCTION_UPDATED }) else (-1, trav)
  csync_errno_to_csync_error := fun e => e
  c_rbtree_walk_negative := fun _ => some (-1)

/-! ## The updater (`csync_update.c`)

The virtual file system (the `csync_vio_*` functions) is an oracle: what
`opendir` and the following calls of `readdir` deliver for a uri, and what
`stat` delivers for a file name. A context is passed explicitly as before,
and a walk records the directories it opens and the calls of the walker it
makes, in the order in which they happen. -/

/-- What the walk tells the walker about an entry (`enum csync_ftw_flags_e`). -/
inductive csync_ftw_flags_e where
  | CSYNC_FTW_FLAG_FILE
  | CSYNC_FTW_FLAG_DIR
  | CSYNC_FTW_FLAG_DNR
  | CSYNC_FTW_FLAG_NSTAT
  | CSYNC_FTW_FLAG_SLINK
  | CSYNC_FTW_FLAG_SLN
  | CSYNC_FTW_FLAG_DP
  deriving DecidableEq, Repr

/-- The file types of the virtual file system (`enum csync_vio_file_type_e`). -/
inductive csync_vio_file_type_e where
  | CSYNC_VIO_FILE_TYPE_UNKNOWN
  | CSYNC_VIO_FILE_TYPE_REGULAR
  | CSYNC_VIO_FILE_TYPE_DIRECTORY
  | CSYNC_VIO_FILE_TYPE_FIFO
  | CSYNC_VIO_FILE_TYPE_SOCKET
  | CSYNC_VIO_FILE_TYPE_CHARACTER_DEVICE
  | CSYNC_VIO_FILE_TYPE_BLOCK_DEVICE
  | CSYNC_VIO_FILE_TYPE_SYMBOLIC_LINK
  deriving DecidableEq, Repr

open csync_ftw_flags_e csync_vio_file_type_e

/-- What the updater reads of a `csync_vio_file_stat_t`. -/
structure csync_vio_file_stat_t where
  name : Option String
  type : csync_vio_file_type_e
  mode : Nat
  size : Int
  mtime : Int
  inode : Nat
  deriving DecidableEq, Repr

/-- The function `csync_vio_file_stat_new()`: a zeroed stat. -/
def csync_vio_file_stat_new : csync_vio_file_stat_t where
  name := none
  type := CSYNC_VIO_FILE_TYPE_UNKNOWN
  mode := 0
  size := 0
  mtime := 0
  inode := 0

/-- The mask `S_IFMT` of `sys/stat.h`. -/
def S_IFMT : Nat := 0o170000
/-- The file type `S_IFREG` of `sys/stat.h`. -/
def S_IFREG : Nat := 0o100000
/-- The file type `S_IFLNK` of `sys/stat.h`. -/
def S_IFLNK : Nat := 0o120000
/-- The error number `EACCES` of `errno.h`. -/
def EACCES : Int := 13

/-- The collaborators of the walker: the exclude list
(`csync_excluded(ctx, file)`) and the path hash. -/
structure csync_walker_externals where
  csync_excluded : String → Bool
  c_jhash64 : String → Nat

/-- The function `csync_detect_update(ctx, file, fs, type)`; a NULL `file` or
`fs` is `none`. The hash it computes is logged and then dropped. -/
def csync_detect_update (ext : csync_walker_externals) (ctx : CSYNC) (file : Option String)
    (fs : Option csync_vio_file_stat_t) (_type : csync_ftw_type_e) : Int × CSYNC :=
  match file, fs with
  | some file, some _ =>
    let _h := ext.c_jhash64 file
    (0, ctx)
  | _, _ => (-1, ctx)

/-- The function `csync_walker(ctx, file, fs, flag)`, for a file name and a
stat that are there (the walk passes no NULL). In the C `switch` the case of
a file or symbolic link that is neither `S_IFREG` nor `S_IFLNK` falls through
to the case of a directory. -/
def csync_walker (ext : csync_walker_externals) (ctx : CSYNC) (file : String)
    (fs : csync_vio_file_stat_t) (flag : csync_ftw_flags_e) : Int × CSYNC :=
  /- Check if file is excluded -/
  if ext.csync_excluded file then (0, ctx)
  else
    match flag with
    | CSYNC_FTW_FLAG_FILE | CSYNC_FTW_FLAG_SLINK =>
      if fs.mode &&& S_IFMT = S_IFREG ∨ fs.mode &&& S_IFMT = S_IFLNK then
        csync_detect_update ext ctx (some file) (some fs) CSYNC_FTW_TYPE_FILE
      else csync_detect_update ext ctx (some file) (some fs) CSYNC_FTW_TYPE_DIR
    | CSYNC_FTW_FLAG_DIR => csync_detect_update ext ctx (some file) (some fs) CSYNC_FTW_TYPE_DIR
    | _ => (0, ctx)

/-- The virtual file system as the walk sees it: `opendir` yields the entries
that the calls of `readdir` deliver until it returns NULL, or the `errno` of
the failure; `stat` yields the stat of a file name, or `none` when it fails;
`asprintf` is the return code of building the file name of an entry. -/
structure csync_vio where
  opendir : String → Except Int (List csync_vio_file_stat_t)
  stat : String → Option csync_vio_file_stat_t
  asprintf : String → String → Int

/-- One call of the walker as the walk records it: the name of the entry, the
file name and the flag passed, and the return code of the walker. -/
structure csync_ftw_call where
  d_name : String
  file : String
  flag : csync_ftw_flags_e
  rc : Int
  deriving DecidableEq, Repr

/-- The state of a walk: the context, the directories opened so far (also
those whose `opendir` failed) and the calls of the walker made so far. -/
structure csync_ftw_run where
  ctx : CSYNC
  opened : List String
  walked : List csync_ftw_call
  deriving DecidableEq, Repr

/-- The walker function of a walk (`csync_walker_fn`). -/
abbrev csync_walker_fn := CSYNC → String → csync_vio_file_stat_t → csync_ftw_flags_e → Int × CSYNC

/-- The flag of an entry from the outcome of `csync_vio_stat`. -/
def csync_ftw_flag : Option csync_vio_file_stat_t → csync_ftw_flags_e
  | some fs =>
    if fs.type = CSYNC_VIO_FILE_TYPE_SYMBOLIC_LINK then CSYNC_FTW_FLAG_SLINK
    else if fs.type = CSYNC_VIO_FILE_TYPE_DIRECTORY then CSYNC_FTW_FLAG_DIR
    else CSYNC_FTW_FLAG_FILE
  | none => CSYNC_FTW_FLAG_NSTAT

/-- The `while` loop of `csync_ftw` over the entries that `readdir` still
delivers; `rc` is the value of the variable of that name, and `descend` is the
recursive call `csync_ftw(ctx, filename, fn, depth - 1)` when `depth` is not 0. -/
def csync_ftw_entries (vio : csync_vio) (fn : csync_walker_fn)
    (descend : Option (String → csync_ftw_run → Int × csync_ftw_run)) (uri : String) :
    List csync_vio_file_stat_t → Int → csync_ftw_run → Int × csync_ftw_run
  | [], rc, run => (rc, run)
  | dirent :: rest, rc, run =>
    match dirent.name with
    | none => (-1, run)
    | some d_name =>
      /- skip "." and ".." -/
      if d_name = "." ∨ d_name = ".." then csync_ftw_entries vio fn descend uri rest rc run
      else if vio.asprintf uri d_name < 0 then (-1, run)
      else
        let filename := uri ++ "/" ++ d_name
        let st := vio.stat filename
        let flag := csync_ftw_flag st
        /- Call walker function for each file -/
        let r := fn run.ctx filename (st.getD csync_vio_file_stat_new) flag
        let run :=
          { run with ctx := r.2, walked := run.walked ++ [⟨d_name, filename, flag, r.1⟩] }
        if r.1 < 0 then (r.1, run)
        else
          match (if flag = CSYNC_FTW_FLAG_DIR then descend else none) with
          | some recurse =>
            let r2 := recurse filename run
            if r2.1 < 0 then r2 else csync_ftw_entries vio fn descend uri rest r2.1 r2.2
          | none => csync_ftw_entries vio fn descend uri rest r.1 run

/-- The body of `csync_ftw` for one directory. -/
def csync_ftw_dir (vio : csync_vio) (fn : csync_walker_fn)
    (descend : Option (String → csync_ftw_run → Int × csync_ftw_run)) (uri : String)
    (run : csync_ftw_run) : Int × csync_ftw_run :=
  if uri = "" then (-1, run)
  else
    let run := { run with opened := run.opened ++ [uri] }
    match vio.opendir uri with
    | Except.error errno =>
      /- permission denied -/
      if errno = EACCES then (0, run) else (-1, run)
    | Except.ok entries => csync_ftw_entries vio fn descend uri entries 0 run

/-- The function `csync_ftw(ctx, uri, fn, depth)`, the file tree walker. -/
def csync_ftw (vio : csync_vio) (fn : csync_walker_fn) (uri : String) :
    Nat → csync_ftw_run → Int × csync_ftw_run
  | 0, run => csync_ftw_dir vio fn none uri run
  | depth + 1, run =>
    csync_ftw_dir vio fn (some (fun filename run => csync_ftw vio fn filename depth run)) uri run

/-- The two walks of `csync_update`, `csync_ftw(ctx, uri, csync_walker,
MAX_DEPTH)` with the uri of the current replica, for a virtual file system
and a value of `MAX_DEPTH`, which a header that is not part of the sources
defines. -/
def csync_update_ftw (vio : csync_vio) (ext : csync_walker_externals) (MAX_DEPTH : Nat)
    (ctx : CSYNC) : Int × CSYNC :=
  let uri :=
    match ctx.current with
    | LOCAL_REPLICA => ctx.local_uri
    | REMOTE_REPLICA => ctx.remote_uri
  let r := csync_ftw vio (csync_walker ext) uri MAX_DEPTH { ctx := ctx, opened := [], walked := [] }
  (r.1, r.2.ctx)

/-- The collaborators of `csync_update` with the walks of the updater itself. -/
def csync_update_with (vio : csync_vio) (ext : csync_walker_externals) (MAX_DEPTH : Nat)
    (asprintf_lock csync_lock : Int) : csync_update_externals where
  asprintf_lock := asprintf_lock
  csync_lock := csync_lock
  csync_ftw := csync_update_ftw vio ext MAX_DEPTH
  csync_errno_to_csync_error := fun e => e

/-- A sample stat: a regular file of 5 bytes. -/
def vio_file (name : String) : csync_vio_file_stat_t where
  name := some name
  type := CSYNC_VIO_FILE_TYPE_REGULAR
  mode := 0o100644
  size := 5
  mtime := 100
  inode := 7

/-- A sample stat: a directory. -/
def vio_dir (name : String) : csync_vio_file_stat_t where
  name := some name
  type := CSYNC_VIO_FILE_TYPE_DIRECTORY
  mode := 0o040755
  size := 0
  mtime := 100
  inode := 8

/-- A sample file system: "/l" holds ".", "..", the file "a" and the directory
"d"; "/l/d" holds the file "b" and the directory "e"; "/l/d/e" holds the
file "c"; "/x" cannot be opened (EACCES); nothing else exists. -/
def vio0 : csync_vio where
  opendir := fun uri =>
    if uri = "/l" then Except.ok [vio_dir ".", vio_dir "..", vio_file "a", vio_dir "d"]
    else if uri = "/l/d" then Except.ok [vio_dir ".", vio_file "b", vio_dir "e"]
    else if uri = "/l/d/e" then Except.ok [vio_file "c"]
    else if uri = "/x" then Except.error EACCES
    else Except.error 2
  stat := fun file =>
    if file = "/l/a" then some (vio_file "a")
    else if file = "/l/d" then some (vio_dir "d")
    else if file = "/l/d/b" then some (vio_file "b")
    else if file = "/l/d/e" then some (vio_dir "e")
    else if file = "/l/d/e/c" then some (vio_file "c")
    else none
  asprintf := fun uri d_name => (uri.length + 1 + d_name.length : Nat)

/-- Sample collaborators of the walker: nothing is excluded. -/
def walker_ext0 : csync_walker_externals where
  csync_excluded := fun _ => false
  c_jhash64 := fun p => p.length

/-- Sample collaborators of `csync_update`: the lock is free, and the walks
are those of the updater over the sample file system. -/
def update_ext0 : csync_update_externals :=
  csync_update_with vio0 walker_ext0 50 10 0

/-- Sample collaborators of `csync_update`: the lock is held by someone else. -/
def update_ext_locked : csync_update_externals :=
  csync_update_with vio0 walker_ext0 50 10 (-1)

/-- A sample walker that fails on the file "/l/d/b" and does nothing else. -/
def walker_fail_b : csync_walker_fn :=
  fun ctx file _ _ => if file = "/l/d/b" then (-7, ctx) else (0, ctx)

/-- A sample start of a walk: nothing opened, nothing walked. -/
def ftw_run0 : csync_ftw_run where
  ctx := { ctx_init with remote_uri := "/r" }
  opened := []
  walked := []

/-! ### What a walk may do -/

/-- The uri `u` lies at most `d` levels below `uri`: it is `uri` followed by
at most `d` names, each after a "/". -/
def csync_ftw_below (uri : String) (d : Nat) (u : String) : Prop :=
  ∃ names : List String, names.length ≤ d ∧ u = names.foldl (fun u n => u ++ "/" ++ n) uri

/-- The calls of the walker end with the first negative return code, which is
then the return code `rc` of the walk: either no call returned a negative
value, or the last one did, no one before it, and `rc` is that value. -/
def csync_ftw_stops (walked : List csync_ftw_call) (rc : Int) : Prop :=
  (∀ c ∈ walked, 0 ≤ c.rc) ∨
  ∃ pre c, walked = pre ++ [c] ∧ (∀ x ∈ pre, 0 ≤ x.rc) ∧ c.rc < 0 ∧ rc = c.rc

/-- What a walk from `uri` with depth `d` that starts in `run` and ends in `r`
has done: it has opened directories at most `d` levels below `uri`, called the
walker for names other than "." and "..", and stopped at the first negative
return code of the walker. -/
def csync_ftw_spec (uri : String) (d : Nat) (run : csync_ftw_run)
    (r : Int × csync_ftw_run) : Prop :=
  ∃ opened walked, r.2.opened = run.opened ++ opened ∧ r.2.walked = run.walked ++ walked ∧
    (∀ u ∈ opened, csync_ftw_below uri d u) ∧
    (∀ c ∈ walked, c.d_name ≠ "." ∧ c.d_name ≠ "..") ∧
    csync_ftw_stops walked r.1

/-! ## The journal lookups (`csync_statedb.c`, which is not part of the sources) -/

/-- Modelled from the spec: a row of the `metadata` table of the journal, one
row per file record with `phash` as the primary key; the columns are those of
the table that the test `check_csync_statedb_query.c` creates. -/
structure csync_statedb_row where
  phash : Nat
  pathlen : Nat
  path : String
  inode : Nat
  uid : Nat
  gid : Nat
  mode : Nat
  modtime : Int
  type : csync_ftw_type_e
  md5 : Option String
  deriving DecidableEq, Repr

/-- Modelled from the spec: the journal as the lookups see it, the rows of its
`metadata` table. -/
abbrev csync_statedb_t := List csync_statedb_row

/-- Modelled from the spec: the file record of a row of the journal; what the
table has no column for is zero. -/
def csync_statedb_row.stat (row : csync_statedb_row) : csync_file_stat_t where
  phash := row.phash
  path := row.path
  inode := row.inode
  modtime := row.modtime
  size := 0
  type := row.type
  md5 := row.md5
  instruction := CSYNC_INSTRUCTION_NONE
  destpath := none

/-- Modelled from the spec: `csync_statedb_get_stat_by_hash(ctx, phash)`, the
lookup "get-by-phash" of the journal: the record of the row whose `phash` is
the one asked for, NULL when the table has no such row. -/
def csync_statedb_get_stat_by_hash (db : csync_statedb_t) (phash : Nat) :
    Option csync_file_stat_t :=
  (db.find? (fun row => row.phash = phash)).map csync_statedb_row.stat

/-- Modelled from the spec: `csync_statedb_get_stat_by_inode(ctx, inode)`, the
lookup "get-by-inode" of the journal: the record of the first row whose
`inode` is the one asked for, NULL when the table has no such row. -/
def csync_statedb_get_stat_by_inode (db : csync_statedb_t) (inode : Nat) :
    Option csync_file_stat_t :=
  (db.find? (fun row => row.inode = inode)).map csync_statedb_row.stat

/-- The journal that `setup_db` of `check_csync_statedb_query.c` builds: one
row with `phash` 42 and `inode` 23. -/
def statedb_test : csync_statedb_t :=
  [{ phash := 42, pathlen := 42, path := "It's a rainy day", inode := 23, uid := 42, gid := 42,
     mode := 42, modtime := 42, type := CSYNC_FTW_TYPE_DIR, md5 := some "43" }]

/-! ## The lock file (`csync_lock.c`)

The functions of the operating system are oracles; a lock file is modelled by
its content. -/

/-- The error number `ERANGE` of `errno.h`. -/
def ERANGE : Int := 34
/-- The error number `ESRCH` of `errno.h`. -/
def ESRCH : Int := 3

/-- What `_csync_lock_create` gets from the operating system: the process id,
the directory of the lock file (`none` when `c_dirname` fails), the return code
of building the name of the temporary file, the descriptor `mkstemp` returns,
the number of bytes `write` writes of a buffer, and the return code of `link`. -/
structure csync_lock_create_env where
  getpid : Int
  c_dirname : Option String
  asprintf : Int
  mkstemp : Int
  write : String → Int
  link : Int

/-- The function `_csync_lock_create(ctx, lockfile)`: its return code, and the
content of the lock file when it has created one. The buffer is the process
id in decimal followed by a newline, and the number of its bytes is what
`asprintf` returns. -/
def _csync_lock_create (env : csync_lock_create_env) : Int × Option String :=
  let pid := env.getpid
  match env.c_dirname with
  | none => (-1, none)
  | some _ =>
    if env.asprintf < 0 then (-1, none)
    else if env.mkstemp < 0 then (-1, none)
    else
      let buf := sprintf_d pid ++ "\n"
      let pid : Int := buf.length
      if env.write buf = pid then
        /- Create lock file -/
        if env.link < 0 then (-1, none) else (0, some buf)
      else (-1, none)

/-- The characters `isspace` accepts. -/
def isspace (c : Char) : Bool :=
  c = ' ' ∨ c = '\t' ∨ c = '\n' ∨ c = '\x0b' ∨ c = '\x0c' ∨ c = '\r'

/-- The decimal digits at the start of a string, as a number added to ten
times `acc` for each digit. -/
def strtol_digits : List Char → Nat → Nat
  | [], acc => acc
  | c :: rest, acc =>
    if c.isDigit then strtol_digits rest (acc * 10 + (c.toNat - '0'.toNat)) else acc

/-- The function `strtol(s, NULL, 10)` of the C library for a `long` of 64
bits, with the value of `errno` before the call: the value, and `errno` after
the call. White space is skipped, a sign is taken, the digits are read up to
the first character that is no digit (the end of the string included), and a
value out of range is clamped with `errno` set to `ERANGE`. -/
def strtol (s : List Char) (errno : Int) : Int × Int :=
  let s := s.dropWhile isspace
  let negative := s.head? = some '-'
  let s := if s.head? = some '-' ∨ s.head? = some '+' then s.drop 1 else s
  let v : Int := strtol_digits s 0
  if negative then
    if v > 9223372036854775808 then (-9223372036854775808, ERANGE) else (-v, errno)
  else
    if v > 9223372036854775807 then (9223372036854775807, ERANGE) else (v, errno)

/-- What `_csync_lock_read` gets from the operating system: the descriptor
`_topen` returns, the content of the lock file (`none` when `read` fails), the
value of `errno` when `strtol` is called, and `kill(pid, 0)`: `none` when it
returns 0 and the `errno` it sets when it returns -1. -/
structure csync_lock_read_env where
  topen : Int
  file : Option String
  errno : Int
  kill : Int → Option Int

/-- The function `_csync_lock_read(ctx, lockfile)`: the process id it returns
(-1 when there is none), and whether it has called `unlink` for the lock
file. `read` delivers the first 8 bytes of the file into a zeroed buffer,
whose last byte is then set to 0, so `strtol` sees the first 7 bytes. -/
def _csync_lock_read (env : csync_lock_read_env) : Int × Bool :=
  if env.topen = 0 then (-1, false)
  else
    match env.file with
    | none => (-1, false)
    | some content =>
      let rc : Int := min content.length 8
      if rc ≤ 0 then (-1, false)
      else
        let buf := content.data.take 7
        let r := strtol buf env.errno
        let tmp := r.1
        if tmp = 0 ∨ tmp > 0xFFFF ∨ r.2 = ERANGE then
          /- Broken lock file -/
          (-1, true)
        else
          let pid := tmp % 65536
          /- Check if process is still alive -/
          if env.kill pid = some ESRCH then
            /- Process is dead. Remove stale lock. -/
            (-1, true)
          else (pid, false)

/-- A sample of what `_csync_lock_create` gets: process `pid`, every step
succeeds. -/
def lock_create_env0 (pid : Int) : csync_lock_create_env where
  getpid := pid
  c_dirname := some "/l"
  asprintf := 18
  mkstemp := 3
  write := fun buf => buf.length
  link := 0

/-- A sample of what `_csync_lock_read` gets: the lock file has the given
content, `errno` is 0 and every process is alive. -/
def lock_read_env0 (content : String) : csync_lock_read_env where
  topen := 3
  file := some content
  errno := 0
  kill := fun _ => none

/-! ## Basic facts about trees and node writes -/

section lemmas

@[simp] theorem opposite_opposite (r : csync_replica_e) : r.opposite.opposite = r := by
  cases r <;> rfl

@[simp] theorem opposite_ne (r : csync_replica_e) : r.opposite ≠ r := by
  cases r <;> simp [csync_replica_e.opposite]

@[simp] theorem ne_opposite (r : csync_replica_e) : r ≠ r.opposite := by
  cases r <;> simp [csync_replica_e.opposite]

@[simp] theorem tree_set_node_same (ctx : CSYNC) (r : csync_replica_e) (i : Nat)
    (st : csync_file_stat_t) : (ctx.set_node r i st).tree r = (ctx.tree r).set i st := by
  cases r <;> rfl

@[simp] theorem tree_set_node_opposite (ctx : CSYNC) (r : csync_replica_e) (i : Nat)
    (st : csync_file_stat_t) : (ctx.set_node r.opposite i st).tree r = ctx.tree r := by
  cases r <;> rfl

@[simp] theorem tree_opposite_set_node (ctx : CSYNC) (r : csync_replica_e) (i : Nat)
    (st : csync_file_stat_t) : (ctx.set_node r i st).tree r.opposite = ctx.tree r.opposite := by
  cases r <;> rfl

@[simp] theorem current_set_node (ctx : CSYNC) (r : csync_replica_e) (i : Nat)
    (st : csync_file_stat_t) : (ctx.set_node r i st).current = ctx.current := by
  cases r <;> rfl

@[simp] theorem with_conflict_copys_set_node (ctx : CSYNC) (r : csync_replica_e) (i : Nat)
    (st : csync_file_stat_t) :
    (ctx.set_node r i st).with_conflict_copys = ctx.with_conflict_copys := by
  cases r <;> rfl

theorem list_set_of_getElem? {α : Type} {l : List α} {i : Nat} {a : α}
    (h : l[i]? = some a) : l.set i a = l := by
  induction l generalizing i with
  | nil => rfl
  | cons b rest ih =>
    cases i with
    | zero => simp at h; simp [h]
    | succ k => simp at h; simp [ih h]

/-- Writing back the record a node already holds changes nothing. -/
theorem set_node_self (ctx : CSYNC) (r : csync_replica_e) (i : Nat) (st : csync_file_stat_t)
    (h : (ctx.tree r)[i]? = some st) : ctx.set_node r i st = ctx := by
  cases r
  · have : ctx.local_tree.set i st = ctx.local_tree := list_set_of_getElem? h
    simp [CSYNC.set_node, this]
  · have : ctx.remote_tree.set i st = ctx.remote_tree := list_set_of_getElem? h
    simp [CSYNC.set_node, this]

theorem c_rbtree_find_from_some {key : Nat} {tree : c_rbtree_t} {i j : Nat}
    {st : csync_file_stat_t} (h : c_rbtree_find_from key tree i = some (j, st)) :
    i ≤ j ∧ tree[j - i]? = some st ∧ st.phash = key := by
  induction tree generalizing i with
  | nil => simp [c_rbtree_find_from] at h
  | cons a rest ih =>
    unfold c_rbtree_find_from at h
    split at h
    · cases h
      simp_all
    · obtain ⟨h1, h2, h3⟩ := ih h
      refine ⟨by omega, ?_, h3⟩
      have : j - i = (j - (i + 1)) + 1 := by omega
      rw [this]
      simpa using h2

/-- A node found by `c_rbtree_find` is a node of the tree and holds the key. -/
theorem c_rbtree_find_some {key : Nat} {tree : c_rbtree_t} {j : Nat}
    {st : csync_file_stat_t} (h : c_rbtree_find tree key = some (j, st)) :
    tree[j]? = some st ∧ st.phash = key := by
  have := c_rbtree_find_from_some h
  simpa using this.2

theorem c_rbtree_find_from_none {key : Nat} {tree : c_rbtree_t} {i : Nat}
    (h : c_rbtree_find_from key tree i = none) : ∀ st ∈ tree, st.phash ≠ key := by
  induction tree generalizing i with
  | nil => simp
  | cons a rest ih =>
    unfold c_rbtree_find_from at h
    split at h
    · cases h
    · intro st hst
      rcases List.mem_cons.mp hst with rfl | hmem
      · assumption
      · exact ih h st hmem

/-- When `c_rbtree_find` yields NULL no record of the tree holds the key. -/
theorem c_rbtree_find_none {key : Nat} {tree : c_rbtree_t}
    (h : c_rbtree_find tree key = none) : ∀ st ∈ tree, st.phash ≠ key :=
  c_rbtree_find_from_none h

/-- The peer node the visitor works with is a node of the opposite tree. -/
theorem merge_find_node_some {ext : csync_externals} {ctx : CSYNC} {cur : csync_file_stat_t}
    {j : Nat} {other : csync_file_stat_t}
    (h : merge_find_node ext ctx cur = some (j, other)) :
    (ctx.tree ctx.current.opposite)[j]? = some other := by
  unfold merge_find_node at h
  simp only at h
  split at h
  · split at h
    · exact (c_rbtree_find_some h).1
    · exact (c_rbtree_find_some h).1
  · exact (c_rbtree_find_some h).1

/-- The visitor always returns 0. -/
theorem merge_visitor_rc (ext : csync_externals) (ctx : CSYNC) (obj : Nat) :
    (_csync_merge_algorithm_visitor ext ctx obj).1 = 0 := by
  unfold _csync_merge_algorithm_visitor
  repeat' (first | rfl | split | dsimp only)

/-- A changed or new record with a peer node is handed to the inner switch. -/
theorem merge_visitor_changed_or_new {ext : csync_externals} {ctx : CSYNC} {obj : Nat}
    {cur : csync_file_stat_t} {j : Nat} {other : csync_file_stat_t}
    (hcur : (ctx.tree ctx.current)[obj]? = some cur)
    (hi : cur.instruction = CSYNC_INSTRUCTION_EVAL ∨ cur.instruction = CSYNC_INSTRUCTION_NEW)
    (hnode : merge_find_node ext ctx cur = some (j, other)) :
    (_csync_merge_algorithm_visitor ext ctx obj).2 = merge_changed_or_new ctx obj cur j other := by
  rcases hi with hi | hi <;> simp [_csync_merge_algorithm_visitor, hcur, hnode, hi]

/-- On the local replica the peer node is the one found under `cur->phash`. -/
theorem merge_find_node_local {ext : csync_externals} {ctx : CSYNC} {cur : csync_file_stat_t}
    (hl : ctx.current = LOCAL_REPLICA) :
    merge_find_node ext ctx cur = c_rbtree_find ctx.remote_tree cur.phash := by
  simp [merge_find_node, hl, CSYNC.tree, csync_replica_e.opposite, CSYNC.set_node]

/-- The tree of replica `r'` after a write to a node of replica `r`. -/
theorem tree_set_node (ctx : CSYNC) (r r' : csync_replica_e) (i : Nat)
    (st : csync_file_stat_t) :
    (ctx.set_node r i st).tree r' = if r' = r then (ctx.tree r').set i st else ctx.tree r' := by
  cases r <;> cases r' <;> rfl

/-- Induction over a walk whose visitor never fails: a property indexed by the
number of nodes visited so far, kept by every visit, holds at the end. -/
theorem c_rbtree_walk_nodes_induct (negative : Int → Option Int)
    (visitor : CSYNC → Nat → Int × CSYNC)
    (hrc : ∀ ctx i, (visitor ctx i).1 = 0) (I : Nat → CSYNC → Prop) (n : Nat) :
    ∀ (s : Nat) (ctx : CSYNC),
      (∀ k c, s ≤ k → k < s + n → I k c → I (k + 1) (visitor c k).2) → I s ctx →
      (c_rbtree_walk_nodes negative visitor (List.range' s n) ctx).1 = 0 ∧
      I (s + n) (c_rbtree_walk_nodes negative visitor (List.range' s n) ctx).2 := by
  induction n with
  | zero => intro s ctx _ h0; exact ⟨rfl, h0⟩
  | succ m ih =>
    intro s ctx hstep h0
    have h1 : I (s + 1) (visitor ctx s).2 := hstep s ctx (le_refl s) (by omega) h0
    have := ih (s + 1) (visitor ctx s).2
      (fun k c hk hk2 => hstep k c (by omega) (by omega)) h1
    simp only [List.range'_succ, c_rbtree_walk_nodes, hrc, lt_self_iff_false, if_false]
    have e : s + (m + 1) = s + 1 + m := by omega
    rw [e]
    exact this

theorem c_rbtree_walk_induct (negative : Int → Option Int)
    (visitor : CSYNC → Nat → Int × CSYNC)
    (hrc : ∀ ctx i, (visitor ctx i).1 = 0) (I : Nat → CSYNC → Prop)
    (tree : c_rbtree_t) (ctx : CSYNC)
    (hstep : ∀ k c, k < tree.length → I k c → I (k + 1) (visitor c k).2) (h0 : I 0 ctx) :
    (c_rbtree_walk negative tree ctx visitor).1 = 0 ∧
    I tree.length (c_rbtree_walk negative tree ctx visitor).2 := by
  have := c_rbtree_walk_nodes_induct negative visitor hrc I tree.length 0 ctx
    (fun k c _ hk => hstep k c (by omega)) h0
  simpa [c_rbtree_walk, List.range_eq_range'] using this

theorem merge_changed_or_new_current (ctx : CSYNC) (obj : Nat) (cur : csync_file_stat_t)
    (j : Nat) (other : csync_file_stat_t) :
    (merge_changed_or_new ctx obj cur j other).current = ctx.current := by
  unfold merge_changed_or_new
  repeat' (first | rfl | split | dsimp only | simp only [current_set_node])

/-- A visit does not change `ctx->current`. -/
theorem merge_visitor_current (ext : csync_externals) (ctx : CSYNC) (obj : Nat) :
    (_csync_merge_algorithm_visitor ext ctx obj).2.current = ctx.current := by
  unfold _csync_merge_algorithm_visitor
  repeat' (first | rfl | split | dsimp only |
    simp only [current_set_node, merge_changed_or_new_current])


/-- On the remote replica, the visit of a record that is SYNC, CONFLICT or
RENAME changes nothing at all. -/
theorem merge_visitor_remote_decided {ext : csync_externals} {ctx : CSYNC} {obj : Nat}
    {cur : csync_file_stat_t} (hc : ctx.current = REMOTE_REPLICA)
    (hcur : (ctx.tree REMOTE_REPLICA)[obj]? = some cur)
    (hd : cur.instruction = CSYNC_INSTRUCTION_SYNC ∨ cur.instruction = CSYNC_INSTRUCTION_CONFLICT ∨
      cur.instruction = CSYNC_INSTRUCTION_RENAME) :
    (_csync_merge_algorithm_visitor ext ctx obj).2 = ctx := by
  rw [← hc] at hcur
  unfold _csync_merge_algorithm_visitor
  simp only [hcur]
  rcases hd with hd | hd | hd <;> split <;> simp [hd, hc]

theorem merge_changed_or_new_current_tree (ctx : CSYNC) (obj : Nat) (cur : csync_file_stat_t)
    (j : Nat) (other : csync_file_stat_t) (i : Nat) (hi : i ≠ obj) :
    ((merge_changed_or_new ctx obj cur j other).tree ctx.current)[i]? =
      (ctx.tree ctx.current)[i]? := by
  unfold merge_changed_or_new
  repeat' (first | rfl | split | dsimp only)
  all_goals simp [tree_set_node, List.getElem?_set_ne (Ne.symm hi)]

/-- A visit leaves the other nodes of the current replica's tree alone. -/
theorem merge_visitor_current_tree (ext : csync_externals) (ctx : CSYNC) (obj : Nat)
    (i : Nat) (hi : i ≠ obj) :
    ((_csync_merge_algorithm_visitor ext ctx obj).2.tree ctx.current)[i]? =
      (ctx.tree ctx.current)[i]? := by
  unfold _csync_merge_algorithm_visitor
  repeat' (first | rfl | split | dsimp only)
  all_goals simp [tree_set_node, List.getElem?_set_ne (Ne.symm hi),
    merge_changed_or_new_current_tree _ _ _ _ _ _ hi]

theorem merge_changed_or_new_keeps_none (ctx : CSYNC) (obj : Nat) (cur : csync_file_stat_t)
    (j : Nat) (other : csync_file_stat_t)
    (hother : (ctx.tree ctx.current.opposite)[j]? = some other)
    (i : Nat) (st : csync_file_stat_t)
    (hst : (ctx.tree ctx.current.opposite)[i]? = some st)
    (hn : st.instruction = CSYNC_INSTRUCTION_NONE) :
    ((merge_changed_or_new ctx obj cur j other).tree ctx.current.opposite)[i]? = some st := by
  have hne : other.instruction = CSYNC_INSTRUCTION_NEW ∨
      other.instruction = CSYNC_INSTRUCTION_EVAL → i ≠ j := by
    intro ho hij
    subst hij
    rw [hother] at hst
    cases hst
    rcases ho with ho | ho <;> rw [ho] at hn <;> cases hn
  unfold merge_changed_or_new
  split
  · have h1 := hne (Or.inl (by assumption))
    repeat' (first | split | dsimp only)
    all_goals simp [tree_set_node, List.getElem?_set_ne (Ne.symm h1), hst]
  · have h1 := hne (Or.inr (by assumption))
    repeat' (first | split | dsimp only)
    all_goals simp [tree_set_node, List.getElem?_set_ne (Ne.symm h1), hst]
  · simp [tree_set_node, hst]
  · simp [tree_set_node, hst]
  · simp [tree_set_node, hst]

/-- On the remote replica, a visit leaves every record of the local tree whose
instruction is NONE as it is. -/
theorem merge_visitor_remote_keeps_local_none {ext : csync_externals} {ctx : CSYNC} {obj : Nat}
    (hc : ctx.current = REMOTE_REPLICA) {i : Nat} {st : csync_file_stat_t}
    (hst : (ctx.tree LOCAL_REPLICA)[i]? = some st)
    (hn : st.instruction = CSYNC_INSTRUCTION_NONE) :
    ((_csync_merge_algorithm_visitor ext ctx obj).2.tree LOCAL_REPLICA)[i]? = some st := by
  have hopp : ctx.current.opposite = LOCAL_REPLICA := by rw [hc]; rfl
  unfold _csync_merge_algorithm_visitor
  split
  · exact hst
  · dsimp only
    split
    · repeat' (first | exact hst | split | dsimp only)
      all_goals simp_all [tree_set_node]
    · rename_i j other hnode
      have hother := merge_find_node_some hnode
      have key := merge_changed_or_new_keeps_none ctx obj
      rw [hopp] at key hother
      split
      · split
        · exact hst
        · rename_i h
          exact absurd (by rw [hc]; decide) h
      · exact key _ j other hother i st hst hn
      · exact key _ j other hother i st hst hn
      · exact hst


theorem map_phash_of_map_key {A B : c_rbtree_t}
    (h : A.map csync_file_stat_t.key_size_modtime = B.map csync_file_stat_t.key_size_modtime) :
    A.map (fun st => st.phash) = B.map (fun st => st.phash) := by
  have := congrArg (List.map Prod.fst) h
  simpa [List.map_map, Function.comp_def, csync_file_stat_t.key_size_modtime] using this

/-- A key that occurs in the tree is found. -/
theorem c_rbtree_find_of_mem {tree : c_rbtree_t} {key : Nat}
    (h : key ∈ tree.map (fun st => st.phash)) :
    ∃ j other, c_rbtree_find tree key = some (j, other) := by
  cases hf : c_rbtree_find tree key with
  | none =>
    obtain ⟨st, hst, hk⟩ := List.mem_map.mp h
    exact absurd hk (c_rbtree_find_none hf st hst)
  | some p => exact ⟨p.1, p.2, rfl⟩

/-- In a tree without duplicate keys, two nodes with the same key are the same
node. -/
theorem node_eq_of_phash_eq {tree : c_rbtree_t}
    (hnd : (tree.map (fun st => st.phash)).Nodup) {i j : Nat} {a b : csync_file_stat_t}
    (ha : tree[i]? = some a) (hb : tree[j]? = some b) (h : a.phash = b.phash) : i = j := by
  obtain ⟨hi, rfl⟩ := List.getElem?_eq_some.mp ha
  obtain ⟨hj, rfl⟩ := List.getElem?_eq_some.mp hb
  have hi' : i < (tree.map (fun st => st.phash)).length := by simpa using hi
  have hj' : j < (tree.map (fun st => st.phash)).length := by simpa using hj
  have hinj : (tree.map (fun st => st.phash))[i] = (tree.map (fun st => st.phash))[j] ↔ i = j :=
    List.Nodup.getElem_inj_iff hnd
  exact hinj.mp (by simpa using h)

/-- In a tree without duplicate keys, the key of node `k` is not among the
keys of the nodes before it. -/
theorem phash_not_mem_take {tree : c_rbtree_t}
    (hnd : (tree.map (fun st => st.phash)).Nodup) {k : Nat} {a : csync_file_stat_t}
    (ha : tree[k]? = some a) : a.phash ∉ (tree.take k).map (fun st => st.phash) := by
  intro hmem
  obtain ⟨b, hb, hab⟩ := List.mem_map.mp hmem
  obtain ⟨i, hi, rfl⟩ := List.mem_take_iff_getElem.mp hb
  have hik : i < k := by omega
  have hil : i < tree.length := by omega
  have := node_eq_of_phash_eq hnd (List.getElem?_eq_getElem hil) ha hab
  omega

theorem mem_take_succ_phash {tree : c_rbtree_t} {k : Nat} {a : csync_file_stat_t}
    (ha : tree[k]? = some a) (h : Nat) :
    h ∈ (tree.take (k + 1)).map (fun st => st.phash) ↔
      h ∈ (tree.take k).map (fun st => st.phash) ∨ h = a.phash := by
  rw [List.take_succ, ha]
  simp [eq_comm]


/-- Replacing a record by one with the same key, size and modtime keeps the
list of keys, sizes and modtimes. -/
theorem map_key_set {tree : c_rbtree_t} {i : Nat} {a b : csync_file_stat_t}
    (ha : tree[i]? = some a) (hab : b.key_size_modtime = a.key_size_modtime) :
    (tree.set i b).map csync_file_stat_t.key_size_modtime =
      tree.map csync_file_stat_t.key_size_modtime := by
  rw [List.map_set]
  apply list_set_of_getElem?
  simp [ha, hab]

/-- The outcome of the conflict rule for records that agree in size and
modtime: both nodes are rewritten, with NONE as instruction and with key, size
and modtime as before. -/
theorem merge_changed_or_new_equal (ctx : CSYNC) (obj : Nat) (cur : csync_file_stat_t)
    (j : Nat) (other : csync_file_stat_t)
    (ho : other.instruction = CSYNC_INSTRUCTION_NEW ∨ other.instruction = CSYNC_INSTRUCTION_EVAL)
    (heq : other.size = cur.size ∧ other.modtime = cur.modtime) :
    ∃ cur2 : csync_file_stat_t,
      cur2.key_size_modtime = cur.key_size_modtime ∧
      cur2.instruction = CSYNC_INSTRUCTION_NONE ∧
      merge_changed_or_new ctx obj cur j other =
        (ctx.set_node ctx.current obj cur2).set_node ctx.current.opposite j
          { other with instruction := CSYNC_INSTRUCTION_NONE } := by
  by_cases hm : cur.md5 = none ∧ other.md5 ≠ none
  · refine ⟨{ cur with instruction := CSYNC_INSTRUCTION_NONE, md5 := other.md5 }, rfl, rfl, ?_⟩
    rcases ho with ho | ho <;> simp [merge_changed_or_new, ho, heq, hm]
  · refine ⟨{ cur with instruction := CSYNC_INSTRUCTION_NONE }, rfl, rfl, ?_⟩
    rcases ho with ho | ho <;> simp [merge_changed_or_new, ho, heq, hm]


/-- One visit of the local pass over identical trees keeps the invariant. -/
theorem local_pass_step (ext : csync_externals) (L R : c_rbtree_t)
    (hL : (L.map (fun st => st.phash)).Nodup) (hR : (R.map (fun st => st.phash)).Nodup)
    (hkeys : ∀ h, h ∈ L.map (fun st => st.phash) → h ∈ R.map (fun st => st.phash))
    (heq : ∀ l ∈ L, ∀ r ∈ R, l.phash = r.phash → l.size = r.size ∧ l.modtime = r.modtime)
    (k : Nat) (c : CSYNC) (hk : k < L.length) (hI : local_pass_inv L R k c) :
    local_pass_inv L R (k + 1) (_csync_merge_algorithm_visitor ext c k).2 := by
  obtain ⟨hc, hLs, hRs, hLi, hRi⟩ := hI
  have hLp := map_phash_of_map_key hLs
  have hRp := map_phash_of_map_key hRs
  have hlen : c.local_tree.length = L.length := by simpa using congrArg List.length hLs
  have hkc : k < c.local_tree.length := by omega
  obtain ⟨cur, hcur⟩ : ∃ cur, c.local_tree[k]? = some cur :=
    ⟨c.local_tree[k], List.getElem?_eq_getElem hkc⟩
  have hLk : L[k]? = some L[k] := List.getElem?_eq_getElem hk
  have hcurI : cur.instruction = CSYNC_INSTRUCTION_NEW := (hLi k cur hcur).2 (le_refl k)
  have hkey : cur.key_size_modtime = L[k].key_size_modtime := by
    have := congrArg (fun l => l[k]?) hLs
    simpa [hcur, hLk] using this
  have hph : cur.phash = L[k].phash := congrArg Prod.fst hkey
  have hmemR : cur.phash ∈ c.remote_tree.map (fun st => st.phash) := by
    rw [hRp]
    apply hkeys
    rw [hph]
    exact List.mem_map.mpr ⟨L[k], List.getElem_mem hk, rfl⟩
  obtain ⟨j, other, hfind⟩ := c_rbtree_find_of_mem hmemR
  obtain ⟨hother, hop⟩ := c_rbtree_find_some hfind
  have hnotin : cur.phash ∉ (L.take k).map (fun st => st.phash) := by
    rw [hph]
    exact phash_not_mem_take hL hLk
  have hoI : other.instruction = CSYNC_INSTRUCTION_NEW :=
    (hRi j other hother).2 (by rw [hop]; exact hnotin)
  have hsz : other.size = cur.size ∧ other.modtime = cur.modtime := by
    have h1 : other.key_size_modtime ∈ R.map csync_file_stat_t.key_size_modtime := by
      rw [← hRs]
      exact List.mem_map.mpr ⟨other, List.getElem?_mem hother, rfl⟩
    obtain ⟨r, hr, hrk⟩ := List.mem_map.mp h1
    simp only [csync_file_stat_t.key_size_modtime, Prod.mk.injEq] at hrk hkey
    have := heq L[k] (List.getElem_mem hk) r hr (by omega)
    constructor
    · omega
    · omega
  have hnode : merge_find_node ext c cur = some (j, other) := by
    rw [merge_find_node_local hc]; exact hfind
  have hcur' : (c.tree c.current)[k]? = some cur := by rw [hc]; exact hcur
  rw [merge_visitor_changed_or_new hcur' (Or.inr hcurI) hnode]
  obtain ⟨cur2, hk2, hi2, hres⟩ := merge_changed_or_new_equal c k cur j other (Or.inl hoI) hsz
  rw [hres, hc]
  have hloc : ((c.set_node LOCAL_REPLICA k cur2).set_node LOCAL_REPLICA.opposite j
      { other with instruction := CSYNC_INSTRUCTION_NONE }).local_tree =
      c.local_tree.set k cur2 := rfl
  have hrem : ((c.set_node LOCAL_REPLICA k cur2).set_node LOCAL_REPLICA.opposite j
      { other with instruction := CSYNC_INSTRUCTION_NONE }).remote_tree =
      c.remote_tree.set j { other with instruction := CSYNC_INSTRUCTION_NONE } := rfl
  refine ⟨?_, ?_, ?_, ?_, ?_⟩
  · simp [hc]
  · rw [hloc, map_key_set hcur hk2]
    exact hLs
  · have hkeep : ({ other with instruction := CSYNC_INSTRUCTION_NONE } :
        csync_file_stat_t).key_size_modtime = other.key_size_modtime := rfl
    rw [hrem, map_key_set hother hkeep]
    exact hRs
  · intro i st hst
    rw [hloc] at hst
    by_cases hki : k = i
    · subst hki
      rw [List.getElem?_set_self hkc] at hst
      cases hst
      exact ⟨fun _ => hi2, fun h => by omega⟩
    · rw [List.getElem?_set_ne hki] at hst
      have := hLi i st hst
      exact ⟨fun h => this.1 (by omega), fun h => this.2 (by omega)⟩
  · intro j' st hst
    rw [hrem] at hst
    have hmem := mem_take_succ_phash hLk
    have hjl : j < c.remote_tree.length := (List.getElem?_eq_some.mp hother).1
    by_cases hjj : j = j'
    · subst hjj
      rw [List.getElem?_set_self hjl] at hst
      cases hst
      refine ⟨fun _ => rfl, fun h => ?_⟩
      exact absurd ((hmem _).mpr (Or.inr (by rw [← hph, ← hop]))) h
    · rw [List.getElem?_set_ne hjj] at hst
      have hne : st.phash ≠ L[k].phash := by
        intro h
        have hRnd : (c.remote_tree.map (fun st => st.phash)).Nodup := by rw [hRp]; exact hR
        exact hjj (node_eq_of_phash_eq hRnd hother hst (by rw [hop, hph, h]))
      have := hRi j' st hst
      constructor
      · intro h
        rcases (hmem _).mp h with h | h
        · exact this.1 h
        · exact absurd h hne
      · intro h
        exact this.2 (fun h' => h ((hmem _).mpr (Or.inl h')))


/-- A visit of the remote pass, once every record is NONE and every remote key
is a local key, changes nothing. -/
theorem remote_pass_step (ext : csync_externals) (L R : c_rbtree_t)
    (hkeys : ∀ h, h ∈ R.map (fun st => st.phash) → h ∈ L.map (fun st => st.phash))
    (c : CSYNC) (hI : remote_pass_inv L R c) (k : Nat) :
    (_csync_merge_algorithm_visitor ext c k).2 = c := by
  obtain ⟨hc, _, hRn, hLp, hRp⟩ := hI
  cases hcur : (c.tree c.current)[k]? with
  | none => simp [_csync_merge_algorithm_visitor, hcur]
  | some cur =>
    have hcur' : c.remote_tree[k]? = some cur := by rw [hc] at hcur; exact hcur
    have hmem : cur ∈ c.remote_tree := List.getElem?_mem hcur'
    have hn : cur.instruction = CSYNC_INSTRUCTION_NONE := hRn cur hmem
    have hkey : cur.phash ∈ c.local_tree.map (fun st => st.phash) := by
      rw [hLp]
      apply hkeys
      rw [← hRp]
      exact List.mem_map.mpr ⟨cur, hmem, rfl⟩
    obtain ⟨j, other, hfind⟩ := c_rbtree_find_of_mem hkey
    have hnode : merge_find_node ext c cur = some (j, other) := by
      simp [merge_find_node, hc, CSYNC.tree, csync_replica_e.opposite, hfind]
    simp [_csync_merge_algorithm_visitor, hcur, hnode, hn]


end lemmas

/-! ## The decision table -/

/-- C1: the decision table for unchanged, changed and new records. Let `cur`
be the record at the visited node. (a) With no peer node, NONE becomes REMOVE,
EVAL becomes NEW and NEW stays as it is. With a peer node: (b) a peer with
instruction NONE turns EVAL and NEW into SYNC, (c) a peer with instruction
IGNORE turns EVAL and NEW into IGNORE, (d) a NONE record is left unchanged. In
every case the opposite tree, hence the peer, is not modified, and the visitor
returns 0. -/
theorem merge_decision_table (ext : csync_externals) (ctx : CSYNC) (obj : Nat)
    (cur : csync_file_stat_t) (hcur : (ctx.tree ctx.current)[obj]? = some cur) :
    (merge_find_node ext ctx cur = none →
      (cur.instruction = CSYNC_INSTRUCTION_NONE →
        ((_csync_merge_algorithm_visitor ext ctx obj).2.tree ctx.current)[obj]? =
            some { cur with instruction := CSYNC_INSTRUCTION_REMOVE } ∧
        (_csync_merge_algorithm_visitor ext ctx obj).2.tree ctx.current.opposite =
            ctx.tree ctx.current.opposite) ∧
      (cur.instruction = CSYNC_INSTRUCTION_EVAL →
        ((_csync_merge_algorithm_visitor ext ctx obj).2.tree ctx.current)[obj]? =
            some { cur with instruction := CSYNC_INSTRUCTION_NEW } ∧
        (_csync_merge_algorithm_visitor ext ctx obj).2.tree ctx.current.opposite =
            ctx.tree ctx.current.opposite) ∧
      (cur.instruction = CSYNC_INSTRUCTION_NEW →
        ((_csync_merge_algorithm_visitor ext ctx obj).2.tree ctx.current)[obj]? = some cur ∧
        (_csync_merge_algorithm_visitor ext ctx obj).2.tree ctx.current.opposite =
            ctx.tree ctx.current.opposite)) ∧
    (∀ j other, merge_find_node ext ctx cur = some (j, other) →
      (other.instruction = CSYNC_INSTRUCTION_NONE →
        cur.instruction = CSYNC_INSTRUCTION_EVAL ∨ cur.instruction = CSYNC_INSTRUCTION_NEW →
        ((_csync_merge_algorithm_visitor ext ctx obj).2.tree ctx.current)[obj]? =
            some { cur with instruction := CSYNC_INSTRUCTION_SYNC } ∧
        (_csync_merge_algorithm_visitor ext ctx obj).2.tree ctx.current.opposite =
            ctx.tree ctx.current.opposite) ∧
      (other.instruction = CSYNC_INSTRUCTION_IGNORE →
        cur.instruction = CSYNC_INSTRUCTION_EVAL ∨ cur.instruction = CSYNC_INSTRUCTION_NEW →
        ((_csync_merge_algorithm_visitor ext ctx obj).2.tree ctx.current)[obj]? =
            some { cur with instruction := CSYNC_INSTRUCTION_IGNORE } ∧
        (_csync_merge_algorithm_visitor ext ctx obj).2.tree ctx.current.opposite =
            ctx.tree ctx.current.opposite) ∧
      (cur.instruction = CSYNC_INSTRUCTION_NONE →
        (_csync_merge_algorithm_visitor ext ctx obj).2 = ctx)) ∧
    (cur.instruction = CSYNC_INSTRUCTION_NONE ∨ cur.instruction = CSYNC_INSTRUCTION_EVAL ∨
        cur.instruction = CSYNC_INSTRUCTION_NEW →
      (_csync_merge_algorithm_visitor ext ctx obj).1 = 0) := by
  have hlt : obj < (ctx.tree ctx.current).length := (List.getElem?_eq_some.mp hcur).1
  refine ⟨?_, ?_, ?_⟩
  · intro hnode
    refine ⟨?_, ?_, ?_⟩ <;> intro hi <;>
      simp [_csync_merge_algorithm_visitor, hcur, hnode, hi, hlt]
  · intro j other hnode
    refine ⟨?_, ?_, ?_⟩
    · intro ho hi
      rcases hi with hi | hi <;>
        simp [_csync_merge_algorithm_visitor, hcur, hnode, hi, ho, merge_changed_or_new, hlt]
    · intro ho hi
      rcases hi with hi | hi <;>
        simp [_csync_merge_algorithm_visitor, hcur, hnode, hi, ho, merge_changed_or_new, hlt]
    · intro hi
      simp [_csync_merge_algorithm_visitor, hcur, hnode, hi]
  · intro hi
    unfold _csync_merge_algorithm_visitor
    simp only [hcur]
    rcases hi with hi | hi | hi <;> split <;> simp [hi]

/-- C1 at sample inputs: an unchanged local record without peer becomes REMOVE,
and a changed local record whose peer is unchanged becomes SYNC while the peer
stays as it is. -/
theorem merge_decision_table_witness :
    (((ctx0 LOCAL_REPLICA false [st0 1 "a" CSYNC_INSTRUCTION_NONE] []).tree LOCAL_REPLICA)[0]? =
        some (st0 1 "a" CSYNC_INSTRUCTION_NONE) ∧
      merge_find_node ext0 (ctx0 LOCAL_REPLICA false [st0 1 "a" CSYNC_INSTRUCTION_NONE] [])
        (st0 1 "a" CSYNC_INSTRUCTION_NONE) = none ∧
      ((_csync_merge_algorithm_visitor ext0
        (ctx0 LOCAL_REPLICA false [st0 1 "a" CSYNC_INSTRUCTION_NONE] []) 0).2.tree
          LOCAL_REPLICA)[0]? = some (st0 1 "a" CSYNC_INSTRUCTION_REMOVE) ∧
      (_csync_merge_algorithm_visitor ext0
        (ctx0 LOCAL_REPLICA false [st0 1 "a" CSYNC_INSTRUCTION_NONE] []) 0).2.tree
          REMOTE_REPLICA = []) ∧
    (merge_find_node ext0
        (ctx0 LOCAL_REPLICA false [st0 1 "a" CSYNC_INSTRUCTION_EVAL]
          [st0 1 "a" CSYNC_INSTRUCTION_NONE])
        (st0 1 "a" CSYNC_INSTRUCTION_EVAL) = some (0, st0 1 "a" CSYNC_INSTRUCTION_NONE) ∧
      ((_csync_merge_algorithm_visitor ext0
        (ctx0 LOCAL_REPLICA false [st0 1 "a" CSYNC_INSTRUCTION_EVAL]
          [st0 1 "a" CSYNC_INSTRUCTION_NONE]) 0).2.tree
          LOCAL_REPLICA)[0]? = some (st0 1 "a" CSYNC_INSTRUCTION_SYNC) ∧
      (_csync_merge_algorithm_visitor ext0
        (ctx0 LOCAL_REPLICA false [st0 1 "a" CSYNC_INSTRUCTION_EVAL]
          [st0 1 "a" CSYNC_INSTRUCTION_NONE]) 0).2.tree
          REMOTE_REPLICA = [st0 1 "a" CSYNC_INSTRUCTION_NONE]) :=
  ⟨⟨by decide, by decide,
    ((merge_decision_table ext0 (ctx0 LOCAL_REPLICA false [st0 1 "a" CSYNC_INSTRUCTION_NONE] []) 0
      (st0 1 "a" CSYNC_INSTRUCTION_NONE) (by decide)).1 (by decide)).1 rfl⟩,
   ⟨by decide,
    ((merge_decision_table ext0
      (ctx0 LOCAL_REPLICA false [st0 1 "a" CSYNC_INSTRUCTION_EVAL]
        [st0 1 "a" CSYNC_INSTRUCTION_NONE]) 0
      (st0 1 "a" CSYNC_INSTRUCTION_EVAL) (by decide)).2.1 0 (st0 1 "a" CSYNC_INSTRUCTION_NONE)
        (by decide)).1 rfl (Or.inl rfl)⟩⟩

/-! ## The conflict rule -/

/-- C2, as the code has it: when `cur` and its peer are both changed or new
and agree in size and modtime, the visit sets both instructions to NONE; `cur`
receives the peer's md5 when it has none itself, and nothing else of `cur`
changes; of the peer only the instruction changes, so an md5 that only `cur`
has is not copied to the peer. -/
theorem merge_equal_both_none (ext : csync_externals) (ctx : CSYNC) (obj : Nat)
    (cur : csync_file_stat_t) (j : Nat) (other : csync_file_stat_t)
    (hcur : (ctx.tree ctx.current)[obj]? = some cur)
    (hi : cur.instruction = CSYNC_INSTRUCTION_EVAL ∨ cur.instruction = CSYNC_INSTRUCTION_NEW)
    (hnode : merge_find_node ext ctx cur = some (j, other))
    (ho : other.instruction = CSYNC_INSTRUCTION_EVAL ∨ other.instruction = CSYNC_INSTRUCTION_NEW)
    (hsize : cur.size = other.size) (hmod : cur.modtime = other.modtime) :
    ((_csync_merge_algorithm_visitor ext ctx obj).2.tree ctx.current)[obj]? =
        some { cur with instruction := CSYNC_INSTRUCTION_NONE,
                        md5 := if cur.md5 = none then other.md5 else cur.md5 } ∧
    ((_csync_merge_algorithm_visitor ext ctx obj).2.tree ctx.current.opposite)[j]? =
        some { other with instruction := CSYNC_INSTRUCTION_NONE } := by
  have hlt : obj < (ctx.tree ctx.current).length := (List.getElem?_eq_some.mp hcur).1
  have hj : j < (ctx.tree ctx.current.opposite).length :=
    (List.getElem?_eq_some.mp (merge_find_node_some hnode)).1
  rw [merge_visitor_changed_or_new hcur hi hnode]
  rcases ho with ho | ho
  · cases hm : cur.md5 <;> cases hm2 : other.md5 <;>
      simp [merge_changed_or_new, ho, hsize, hmod, hlt, hj, hm, hm2]
  · cases hm : cur.md5 <;> cases hm2 : other.md5 <;>
      simp [merge_changed_or_new, ho, hsize, hmod, hlt, hj, hm, hm2]

/-- C2 at a sample input: the local record has no md5, its equal remote peer
has md5 "m"; after the visit both are NONE and the local record carries "m". -/
theorem merge_equal_both_none_witness :
    ((_csync_merge_algorithm_visitor ext0
        (ctx0 LOCAL_REPLICA false [st0 1 "a" CSYNC_INSTRUCTION_NEW]
          [{ st0 1 "a" CSYNC_INSTRUCTION_EVAL with md5 := some "m" }]) 0).2.tree
            LOCAL_REPLICA)[0]? =
        some { st0 1 "a" CSYNC_INSTRUCTION_NONE with md5 := some "m" } ∧
    ((_csync_merge_algorithm_visitor ext0
        (ctx0 LOCAL_REPLICA false [st0 1 "a" CSYNC_INSTRUCTION_NEW]
          [{ st0 1 "a" CSYNC_INSTRUCTION_EVAL with md5 := some "m" }]) 0).2.tree
            REMOTE_REPLICA)[0]? =
        some { st0 1 "a" CSYNC_INSTRUCTION_NONE with md5 := some "m" } :=
  merge_equal_both_none ext0
    (ctx0 LOCAL_REPLICA false [st0 1 "a" CSYNC_INSTRUCTION_NEW]
      [{ st0 1 "a" CSYNC_INSTRUCTION_EVAL with md5 := some "m" }]) 0
    (st0 1 "a" CSYNC_INSTRUCTION_NEW) 0 { st0 1 "a" CSYNC_INSTRUCTION_EVAL with md5 := some "m" }
    (by decide) (Or.inr rfl) (by decide) (Or.inl rfl) rfl rfl

/-- C2 as stated fails: the local record is NEW with md5 "m", its remote peer
is NEW with the same size and modtime and no md5. The visit sets both to NONE,
but the peer, which lacks the md5 the record has, still has none afterwards. -/
theorem merge_equal_md5_not_copied_to_peer :
    merge_find_node ext0
        (ctx0 LOCAL_REPLICA false [{ st0 1 "a" CSYNC_INSTRUCTION_NEW with md5 := some "m" }]
          [st0 1 "a" CSYNC_INSTRUCTION_NEW])
        { st0 1 "a" CSYNC_INSTRUCTION_NEW with md5 := some "m" } =
      some (0, st0 1 "a" CSYNC_INSTRUCTION_NEW) ∧
    (((_csync_merge_algorithm_visitor ext0
        (ctx0 LOCAL_REPLICA false [{ st0 1 "a" CSYNC_INSTRUCTION_NEW with md5 := some "m" }]
          [st0 1 "a" CSYNC_INSTRUCTION_NEW]) 0).2.tree REMOTE_REPLICA)[0]?).map
        (fun st => st.md5) ≠ some (some "m") ∧
    (((_csync_merge_algorithm_visitor ext0
        (ctx0 LOCAL_REPLICA false [{ st0 1 "a" CSYNC_INSTRUCTION_NEW with md5 := some "m" }]
          [st0 1 "a" CSYNC_INSTRUCTION_NEW]) 0).2.tree REMOTE_REPLICA)[0]?).map
        (fun st => st.md5) = some none := by
  decide

/-- C3: with conflict copies, when `cur` and its peer are both changed or new
and differ in size or modtime, the record of the remote replica gets CONFLICT
and the record of the local replica gets NONE, whichever of the two replicas
is the current one. -/
theorem merge_conflict_copy (ext : csync_externals) (ctx : CSYNC) (obj : Nat)
    (cur : csync_file_stat_t) (j : Nat) (other : csync_file_stat_t)
    (hcur : (ctx.tree ctx.current)[obj]? = some cur)
    (hi : cur.instruction = CSYNC_INSTRUCTION_EVAL ∨ cur.instruction = CSYNC_INSTRUCTION_NEW)
    (hnode : merge_find_node ext ctx cur = some (j, other))
    (ho : other.instruction = CSYNC_INSTRUCTION_EVAL ∨ other.instruction = CSYNC_INSTRUCTION_NEW)
    (hcc : ctx.with_conflict_copys = true)
    (hdiff : cur.size ≠ other.size ∨ cur.modtime ≠ other.modtime) :
    (ctx.current = REMOTE_REPLICA →
      ((_csync_merge_algorithm_visitor ext ctx obj).2.tree REMOTE_REPLICA)[obj]? =
          some { cur with instruction := CSYNC_INSTRUCTION_CONFLICT } ∧
      ((_csync_merge_algorithm_visitor ext ctx obj).2.tree LOCAL_REPLICA)[j]? =
          some { other with instruction := CSYNC_INSTRUCTION_NONE }) ∧
    (ctx.current = LOCAL_REPLICA →
      ((_csync_merge_algorithm_visitor ext ctx obj).2.tree REMOTE_REPLICA)[j]? =
          some { other with instruction := CSYNC_INSTRUCTION_CONFLICT } ∧
      ((_csync_merge_algorithm_visitor ext ctx obj).2.tree LOCAL_REPLICA)[obj]? =
          some { cur with instruction := CSYNC_INSTRUCTION_NONE }) := by
  have hlt : obj < (ctx.tree ctx.current).length := (List.getElem?_eq_some.mp hcur).1
  have hj : j < (ctx.tree ctx.current.opposite).length :=
    (List.getElem?_eq_some.mp (merge_find_node_some hnode)).1
  have hne : ¬ (other.size = cur.size ∧ other.modtime = cur.modtime) := by
    rintro ⟨h1, h2⟩
    rcases hdiff with h | h
    · exact h h1.symm
    · exact h h2.symm
  rw [merge_visitor_changed_or_new hcur hi hnode]
  constructor
  · intro hc
    rw [hc] at hlt hj
    simp only [csync_replica_e.opposite] at hj
    rcases ho with ho | ho <;>
      simp [merge_changed_or_new, ho, hne, hc, hcc, tree_set_node, csync_replica_e.opposite,
        hlt, hj]
  · intro hc
    rw [hc] at hlt hj
    simp only [csync_replica_e.opposite] at hj
    rcases ho with ho | ho <;>
      simp [merge_changed_or_new, ho, hne, hc, hcc, tree_set_node, csync_replica_e.opposite,
        hlt, hj]

/-- C3 at sample inputs, once with the remote and once with the local replica
as the current one: the remote record ends as CONFLICT, the local one as NONE. -/
theorem merge_conflict_copy_witness :
    (((_csync_merge_algorithm_visitor ext0
        (ctx0 REMOTE_REPLICA true [st0 1 "a" CSYNC_INSTRUCTION_NEW]
          [st1 1 "a" CSYNC_INSTRUCTION_EVAL]) 0).2.tree REMOTE_REPLICA)[0]? =
        some (st1 1 "a" CSYNC_INSTRUCTION_CONFLICT) ∧
      ((_csync_merge_algorithm_visitor ext0
        (ctx0 REMOTE_REPLICA true [st0 1 "a" CSYNC_INSTRUCTION_NEW]
          [st1 1 "a" CSYNC_INSTRUCTION_EVAL]) 0).2.tree LOCAL_REPLICA)[0]? =
        some (st0 1 "a" CSYNC_INSTRUCTION_NONE)) ∧
    (((_csync_merge_algorithm_visitor ext0
        (ctx0 LOCAL_REPLICA true [st0 1 "a" CSYNC_INSTRUCTION_NEW]
          [st1 1 "a" CSYNC_INSTRUCTION_EVAL]) 0).2.tree REMOTE_REPLICA)[0]? =
        some (st1 1 "a" CSYNC_INSTRUCTION_CONFLICT) ∧
      ((_csync_merge_algorithm_visitor ext0
        (ctx0 LOCAL_REPLICA true [st0 1 "a" CSYNC_INSTRUCTION_NEW]
          [st1 1 "a" CSYNC_INSTRUCTION_EVAL]) 0).2.tree LOCAL_REPLICA)[0]? =
        some (st0 1 "a" CSYNC_INSTRUCTION_NONE)) :=
  ⟨(merge_conflict_copy ext0
      (ctx0 REMOTE_REPLICA true [st0 1 "a" CSYNC_INSTRUCTION_NEW]
        [st1 1 "a" CSYNC_INSTRUCTION_EVAL]) 0
      (st1 1 "a" CSYNC_INSTRUCTION_EVAL) 0 (st0 1 "a" CSYNC_INSTRUCTION_NEW)
      (by decide) (Or.inl rfl) (by decide) (Or.inr rfl) rfl (Or.inr (by decide))).1 rfl,
   (merge_conflict_copy ext0
      (ctx0 LOCAL_REPLICA true [st0 1 "a" CSYNC_INSTRUCTION_NEW]
        [st1 1 "a" CSYNC_INSTRUCTION_EVAL]) 0
      (st0 1 "a" CSYNC_INSTRUCTION_NEW) 0 (st1 1 "a" CSYNC_INSTRUCTION_EVAL)
      (by decide) (Or.inr rfl) (by decide) (Or.inl rfl) rfl (Or.inr (by decide))).2 rfl⟩

/-- C4, as the code has it: without conflict copies, when `cur` and its peer
are both changed or new and differ in size or modtime, the record of the
remote replica gets SYNC and the record of the local replica gets NONE: a
visit with the local replica as the current one sets `cur` to NONE and the
remote peer to SYNC, a visit with the remote replica as the current one sets
`cur` to SYNC and the local peer to NONE. -/
theorem merge_last_writer_wins (ext : csync_externals) (ctx : CSYNC) (obj : Nat)
    (cur : csync_file_stat_t) (j : Nat) (other : csync_file_stat_t)
    (hcur : (ctx.tree ctx.current)[obj]? = some cur)
    (hi : cur.instruction = CSYNC_INSTRUCTION_EVAL ∨ cur.instruction = CSYNC_INSTRUCTION_NEW)
    (hnode : merge_find_node ext ctx cur = some (j, other))
    (ho : other.instruction = CSYNC_INSTRUCTION_EVAL ∨ other.instruction = CSYNC_INSTRUCTION_NEW)
    (hcc : ctx.with_conflict_copys = false)
    (hdiff : cur.size ≠ other.size ∨ cur.modtime ≠ other.modtime) :
    (ctx.current = LOCAL_REPLICA →
      ((_csync_merge_algorithm_visitor ext ctx obj).2.tree LOCAL_REPLICA)[obj]? =
          some { cur with instruction := CSYNC_INSTRUCTION_NONE } ∧
      ((_csync_merge_algorithm_visitor ext ctx obj).2.tree REMOTE_REPLICA)[j]? =
          some { other with instruction := CSYNC_INSTRUCTION_SYNC }) ∧
    (ctx.current = REMOTE_REPLICA →
      ((_csync_merge_algorithm_visitor ext ctx obj).2.tree REMOTE_REPLICA)[obj]? =
          some { cur with instruction := CSYNC_INSTRUCTION_SYNC } ∧
      ((_csync_merge_algorithm_visitor ext ctx obj).2.tree LOCAL_REPLICA)[j]? =
          some { other with instruction := CSYNC_INSTRUCTION_NONE }) := by
  have hlt : obj < (ctx.tree ctx.current).length := (List.getElem?_eq_some.mp hcur).1
  have hj : j < (ctx.tree ctx.current.opposite).length :=
    (List.getElem?_eq_some.mp (merge_find_node_some hnode)).1
  have hne : ¬ (other.size = cur.size ∧ other.modtime = cur.modtime) := by
    rintro ⟨h1, h2⟩
    rcases hdiff with h | h
    · exact h h1.symm
    · exact h h2.symm
  rw [merge_visitor_changed_or_new hcur hi hnode]
  constructor
  · intro hc
    rw [hc] at hlt hj
    simp only [csync_replica_e.opposite] at hj
    rcases ho with ho | ho <;>
      simp [merge_changed_or_new, ho, hne, hc, hcc, tree_set_node, csync_replica_e.opposite,
        hlt, hj]
  · intro hc
    rw [hc] at hlt hj
    simp only [csync_replica_e.opposite] at hj
    rcases ho with ho | ho <;>
      simp [merge_changed_or_new, ho, hne, hc, hcc, tree_set_node, csync_replica_e.opposite,
        hlt, hj]

/-- C4 at sample inputs, once for each current replica. -/
theorem merge_last_writer_wins_witness :
    (((_csync_merge_algorithm_visitor ext0
        (ctx0 LOCAL_REPLICA false [st0 1 "a" CSYNC_INSTRUCTION_NEW]
          [st1 1 "a" CSYNC_INSTRUCTION_EVAL]) 0).2.tree LOCAL_REPLICA)[0]? =
        some (st0 1 "a" CSYNC_INSTRUCTION_NONE) ∧
      ((_csync_merge_algorithm_visitor ext0
        (ctx0 LOCAL_REPLICA false [st0 1 "a" CSYNC_INSTRUCTION_NEW]
          [st1 1 "a" CSYNC_INSTRUCTION_EVAL]) 0).2.tree REMOTE_REPLICA)[0]? =
        some (st1 1 "a" CSYNC_INSTRUCTION_SYNC)) ∧
    (((_csync_merge_algorithm_visitor ext0
        (ctx0 REMOTE_REPLICA false [st0 1 "a" CSYNC_INSTRUCTION_NEW]
          [st1 1 "a" CSYNC_INSTRUCTION_EVAL]) 0).2.tree REMOTE_REPLICA)[0]? =
        some (st1 1 "a" CSYNC_INSTRUCTION_SYNC) ∧
      ((_csync_merge_algorithm_visitor ext0
        (ctx0 REMOTE_REPLICA false [st0 1 "a" CSYNC_INSTRUCTION_NEW]
          [st1 1 "a" CSYNC_INSTRUCTION_EVAL]) 0).2.tree LOCAL_REPLICA)[0]? =
        some (st0 1 "a" CSYNC_INSTRUCTION_NONE)) :=
  ⟨(merge_last_writer_wins ext0
      (ctx0 LOCAL_REPLICA false [st0 1 "a" CSYNC_INSTRUCTION_NEW]
        [st1 1 "a" CSYNC_INSTRUCTION_EVAL]) 0
      (st0 1 "a" CSYNC_INSTRUCTION_NEW) 0 (st1 1 "a" CSYNC_INSTRUCTION_EVAL)
      (by decide) (Or.inr rfl) (by decide) (Or.inl rfl) rfl (Or.inr (by decide))).1 rfl,
   (merge_last_writer_wins ext0
      (ctx0 REMOTE_REPLICA false [st0 1 "a" CSYNC_INSTRUCTION_NEW]
        [st1 1 "a" CSYNC_INSTRUCTION_EVAL]) 0
      (st1 1 "a" CSYNC_INSTRUCTION_EVAL) 0 (st0 1 "a" CSYNC_INSTRUCTION_NEW)
      (by decide) (Or.inl rfl) (by decide) (Or.inr rfl) rfl (Or.inr (by decide))).2 rfl⟩

/-- C4 as stated fails: without conflict copies, a visit with the local replica
as the current one, of a NEW local record whose NEW remote peer has another
modtime, does not set the local record to SYNC and the remote peer to NONE: the
local record ends as NONE and the remote peer as SYNC. -/
theorem merge_last_writer_wins_local_counterexample :
    merge_find_node ext0
        (ctx0 LOCAL_REPLICA false [st0 1 "a" CSYNC_INSTRUCTION_NEW]
          [st1 1 "a" CSYNC_INSTRUCTION_NEW])
        (st0 1 "a" CSYNC_INSTRUCTION_NEW) = some (0, st1 1 "a" CSYNC_INSTRUCTION_NEW) ∧
    ¬ (((_csync_merge_algorithm_visitor ext0
          (ctx0 LOCAL_REPLICA false [st0 1 "a" CSYNC_INSTRUCTION_NEW]
            [st1 1 "a" CSYNC_INSTRUCTION_NEW]) 0).2.tree LOCAL_REPLICA)[0]? =
          some (st0 1 "a" CSYNC_INSTRUCTION_SYNC) ∧
        ((_csync_merge_algorithm_visitor ext0
          (ctx0 LOCAL_REPLICA false [st0 1 "a" CSYNC_INSTRUCTION_NEW]
            [st1 1 "a" CSYNC_INSTRUCTION_NEW]) 0).2.tree REMOTE_REPLICA)[0]? =
          some (st1 1 "a" CSYNC_INSTRUCTION_NONE)) ∧
    (_csync_merge_algorithm_visitor ext0
        (ctx0 LOCAL_REPLICA false [st0 1 "a" CSYNC_INSTRUCTION_NEW]
          [st1 1 "a" CSYNC_INSTRUCTION_NEW]) 0).2 =
      ctx0 LOCAL_REPLICA false [st0 1 "a" CSYNC_INSTRUCTION_NONE]
        [st1 1 "a" CSYNC_INSTRUCTION_SYNC] := by
  decide

/-- C5, as the code has it: when `cur` and its peer are both changed or new
and have the same size, they are treated as equal (both NONE) when their
modtimes are the same; when the modtimes differ, by however little, they are
in conflict: the record of the remote replica gets SYNC, or CONFLICT with
conflict copies, and the record of the local replica gets NONE.
`ACCEPTED_TIME_DIFF` plays no part. -/
theorem merge_modtime_exact (ext : csync_externals) (ctx : CSYNC) (obj : Nat)
    (cur : csync_file_stat_t) (j : Nat) (other : csync_file_stat_t)
    (hcur : (ctx.tree ctx.current)[obj]? = some cur)
    (hi : cur.instruction = CSYNC_INSTRUCTION_EVAL ∨ cur.instruction = CSYNC_INSTRUCTION_NEW)
    (hnode : merge_find_node ext ctx cur = some (j, other))
    (ho : other.instruction = CSYNC_INSTRUCTION_EVAL ∨ other.instruction = CSYNC_INSTRUCTION_NEW)
    (hsize : cur.size = other.size) :
    (cur.modtime = other.modtime →
      (((_csync_merge_algorithm_visitor ext ctx obj).2.tree ctx.current)[obj]?).map
          (fun st => st.instruction) = some CSYNC_INSTRUCTION_NONE ∧
      (((_csync_merge_algorithm_visitor ext ctx obj).2.tree ctx.current.opposite)[j]?).map
          (fun st => st.instruction) = some CSYNC_INSTRUCTION_NONE) ∧
    (cur.modtime ≠ other.modtime →
      (((_csync_merge_algorithm_visitor ext ctx obj).2.tree ctx.current)[obj]?).map
          (fun st => st.instruction) =
        some (if ctx.current = REMOTE_REPLICA then
                (if ctx.with_conflict_copys then CSYNC_INSTRUCTION_CONFLICT
                 else CSYNC_INSTRUCTION_SYNC)
              else CSYNC_INSTRUCTION_NONE) ∧
      (((_csync_merge_algorithm_visitor ext ctx obj).2.tree ctx.current.opposite)[j]?).map
          (fun st => st.instruction) =
        some (if ctx.current = REMOTE_REPLICA then CSYNC_INSTRUCTION_NONE
              else (if ctx.with_conflict_copys then CSYNC_INSTRUCTION_CONFLICT
                    else CSYNC_INSTRUCTION_SYNC))) := by
  have hlt : obj < (ctx.tree ctx.current).length := (List.getElem?_eq_some.mp hcur).1
  have hj : j < (ctx.tree ctx.current.opposite).length :=
    (List.getElem?_eq_some.mp (merge_find_node_some hnode)).1
  rw [merge_visitor_changed_or_new hcur hi hnode]
  constructor
  · intro hmod
    rcases ho with ho | ho <;>
      by_cases hm : cur.md5 = none ∧ ¬ other.md5 = none <;>
      simp [merge_changed_or_new, ho, hsize, hmod, hlt, hj, hm]
  · intro hmod
    have hne : ¬ (other.size = cur.size ∧ other.modtime = cur.modtime) :=
      fun h => hmod h.2.symm
    by_cases hc : ctx.current = REMOTE_REPLICA
    · rcases ho with ho | ho <;> cases hcc : ctx.with_conflict_copys <;>
        simp [merge_changed_or_new, ho, hne, if_pos hc, hcc, hlt, hj]
    · rcases ho with ho | ho <;> cases hcc : ctx.with_conflict_copys <;>
        simp [merge_changed_or_new, ho, hne, if_neg hc, hcc, hlt, hj]

/-- C5 at a sample input: same size, same modtime, both records end as NONE. -/
theorem merge_modtime_exact_witness :
    (((_csync_merge_algorithm_visitor ext0
        (ctx0 LOCAL_REPLICA false [st0 1 "a" CSYNC_INSTRUCTION_NEW]
          [st0 1 "a" CSYNC_INSTRUCTION_EVAL]) 0).2.tree LOCAL_REPLICA)[0]?).map
          (fun st => st.instruction) = some CSYNC_INSTRUCTION_NONE ∧
    (((_csync_merge_algorithm_visitor ext0
        (ctx0 LOCAL_REPLICA false [st0 1 "a" CSYNC_INSTRUCTION_NEW]
          [st0 1 "a" CSYNC_INSTRUCTION_EVAL]) 0).2.tree REMOTE_REPLICA)[0]?).map
          (fun st => st.instruction) = some CSYNC_INSTRUCTION_NONE :=
  (merge_modtime_exact ext0
      (ctx0 LOCAL_REPLICA false [st0 1 "a" CSYNC_INSTRUCTION_NEW]
        [st0 1 "a" CSYNC_INSTRUCTION_EVAL]) 0
      (st0 1 "a" CSYNC_INSTRUCTION_NEW) 0 (st0 1 "a" CSYNC_INSTRUCTION_EVAL)
      (by decide) (Or.inr rfl) (by decide) (Or.inl rfl) rfl).1 rfl

/-- C5 as stated fails: a NEW local record and its NEW remote peer have the
same size and modtimes 2 seconds apart, which is within `ACCEPTED_TIME_DIFF`.
The visit does not set both to NONE: the remote record ends as SYNC. -/
theorem merge_modtime_tolerance_counterexample :
    (st0 1 "a" CSYNC_INSTRUCTION_NEW).size = (st1 1 "a" CSYNC_INSTRUCTION_NEW).size ∧
    (((st0 1 "a" CSYNC_INSTRUCTION_NEW).modtime -
        (st1 1 "a" CSYNC_INSTRUCTION_NEW).modtime).natAbs : Int) ≤ ACCEPTED_TIME_DIFF ∧
    merge_find_node ext0
        (ctx0 LOCAL_REPLICA false [st0 1 "a" CSYNC_INSTRUCTION_NEW]
          [st1 1 "a" CSYNC_INSTRUCTION_NEW])
        (st0 1 "a" CSYNC_INSTRUCTION_NEW) = some (0, st1 1 "a" CSYNC_INSTRUCTION_NEW) ∧
    ¬ ((((_csync_merge_algorithm_visitor ext0
          (ctx0 LOCAL_REPLICA false [st0 1 "a" CSYNC_INSTRUCTION_NEW]
            [st1 1 "a" CSYNC_INSTRUCTION_NEW]) 0).2.tree LOCAL_REPLICA)[0]?).map
            (fun st => st.instruction) = some CSYNC_INSTRUCTION_NONE ∧
        (((_csync_merge_algorithm_visitor ext0
          (ctx0 LOCAL_REPLICA false [st0 1 "a" CSYNC_INSTRUCTION_NEW]
            [st1 1 "a" CSYNC_INSTRUCTION_NEW]) 0).2.tree REMOTE_REPLICA)[0]?).map
            (fun st => st.instruction) = some CSYNC_INSTRUCTION_NONE) ∧
    (((_csync_merge_algorithm_visitor ext0
        (ctx0 LOCAL_REPLICA false [st0 1 "a" CSYNC_INSTRUCTION_NEW]
          [st1 1 "a" CSYNC_INSTRUCTION_NEW]) 0).2.tree REMOTE_REPLICA)[0]?).map
          (fun st => st.instruction) = some CSYNC_INSTRUCTION_SYNC := by
  decide

/-! ## Renames -/

/-- C6: rename propagation. `cur` is a RENAME record of the local replica
without a peer under its own phash; the journal row found by `cur->inode` has
an old path whose hash finds the node `j` of the remote tree. When that peer
has instruction NONE, or `cur` is a directory, the visit sets the peer to
RENAME with destpath `cur->path` and `cur` to NONE. -/
theorem merge_rename_propagated (ext : csync_externals) (ctx : CSYNC) (obj : Nat)
    (cur : csync_file_stat_t) (tmp : csync_statedb_stat_t) (p : String)
    (j : Nat) (other : csync_file_stat_t)
    (hl : ctx.current = LOCAL_REPLICA)
    (hcur : (ctx.tree LOCAL_REPLICA)[obj]? = some cur)
    (hi : cur.instruction = CSYNC_INSTRUCTION_RENAME)
    (hnone : c_rbtree_find (ctx.tree REMOTE_REPLICA) cur.phash = none)
    (htmp : ext.csync_statedb_get_stat_by_inode cur.inode = some tmp)
    (hp : tmp.path = some p)
    (hnode : c_rbtree_find (ctx.tree REMOTE_REPLICA) (ext.c_jhash64 p) = some (j, other))
    (h : other.instruction = CSYNC_INSTRUCTION_NONE ∨ cur.type = CSYNC_FTW_TYPE_DIR) :
    ((_csync_merge_algorithm_visitor ext ctx obj).2.tree REMOTE_REPLICA)[j]? =
        some { other with instruction := CSYNC_INSTRUCTION_RENAME, destpath := some cur.path } ∧
    ((_csync_merge_algorithm_visitor ext ctx obj).2.tree LOCAL_REPLICA)[obj]? =
        some { cur with instruction := CSYNC_INSTRUCTION_NONE } := by
  have hlt : obj < (ctx.tree LOCAL_REPLICA).length := (List.getElem?_eq_some.mp hcur).1
  have hj : j < (ctx.tree REMOTE_REPLICA).length :=
    (List.getElem?_eq_some.mp (c_rbtree_find_some hnode).1).1
  have hfind : merge_find_node ext ctx cur = none := by
    rw [merge_find_node_local hl]; exact hnone
  simp only [CSYNC.tree] at hnone hnode hcur hlt hj
  simp [_csync_merge_algorithm_visitor, hl, hcur, hi, hfind, htmp, hp, hnode, h, tree_set_node,
    csync_replica_e.opposite, hlt, hj, CSYNC.tree, CSYNC.set_node]

/-- C6 at a sample input: the local file "bb" (inode 7) is a rename of "a",
which the remote replica still holds unchanged. -/
theorem merge_rename_propagated_witness :
    ((_csync_merge_algorithm_visitor ext0
        (ctx0 LOCAL_REPLICA false [st0 2 "bb" CSYNC_INSTRUCTION_RENAME]
          [st0 1 "a" CSYNC_INSTRUCTION_NONE]) 0).2.tree REMOTE_REPLICA)[0]? =
        some { st0 1 "a" CSYNC_INSTRUCTION_RENAME with destpath := some "bb" } ∧
    ((_csync_merge_algorithm_visitor ext0
        (ctx0 LOCAL_REPLICA false [st0 2 "bb" CSYNC_INSTRUCTION_RENAME]
          [st0 1 "a" CSYNC_INSTRUCTION_NONE]) 0).2.tree LOCAL_REPLICA)[0]? =
        some (st0 2 "bb" CSYNC_INSTRUCTION_NONE) :=
  merge_rename_propagated ext0
    (ctx0 LOCAL_REPLICA false [st0 2 "bb" CSYNC_INSTRUCTION_RENAME]
      [st0 1 "a" CSYNC_INSTRUCTION_NONE]) 0
    (st0 2 "bb" CSYNC_INSTRUCTION_RENAME) ⟨some "a"⟩ "a" 0 (st0 1 "a" CSYNC_INSTRUCTION_NONE)
    rfl (by decide) rfl (by decide) (by decide) rfl (by decide) (Or.inl rfl)

/-- C7: rename superseded by a content change. `cur` is a RENAME record of the
local replica without a peer under its own phash; the journal row found by
`cur->inode` has an old path whose hash finds the node `j` of the remote tree.
When that peer has an instruction other than NONE and `cur` is not a
directory, the visit sets the peer to SYNC and `cur` to NONE. -/
theorem merge_rename_superseded (ext : csync_externals) (ctx : CSYNC) (obj : Nat)
    (cur : csync_file_stat_t) (tmp : csync_statedb_stat_t) (p : String)
    (j : Nat) (other : csync_file_stat_t)
    (hl : ctx.current = LOCAL_REPLICA)
    (hcur : (ctx.tree LOCAL_REPLICA)[obj]? = some cur)
    (hi : cur.instruction = CSYNC_INSTRUCTION_RENAME)
    (hnone : c_rbtree_find (ctx.tree REMOTE_REPLICA) cur.phash = none)
    (htmp : ext.csync_statedb_get_stat_by_inode cur.inode = some tmp)
    (hp : tmp.path = some p)
    (hnode : c_rbtree_find (ctx.tree REMOTE_REPLICA) (ext.c_jhash64 p) = some (j, other))
    (ho : other.instruction ≠ CSYNC_INSTRUCTION_NONE)
    (ht : cur.type ≠ CSYNC_FTW_TYPE_DIR) :
    ((_csync_merge_algorithm_visitor ext ctx obj).2.tree REMOTE_REPLICA)[j]? =
        some { other with instruction := CSYNC_INSTRUCTION_SYNC } ∧
    ((_csync_merge_algorithm_visitor ext ctx obj).2.tree LOCAL_REPLICA)[obj]? =
        some { cur with instruction := CSYNC_INSTRUCTION_NONE } := by
  have hlt : obj < (ctx.tree LOCAL_REPLICA).length := (List.getElem?_eq_some.mp hcur).1
  have hj : j < (ctx.tree REMOTE_REPLICA).length :=
    (List.getElem?_eq_some.mp (c_rbtree_find_some hnode).1).1
  have hfind : merge_find_node ext ctx cur = none := by
    rw [merge_find_node_local hl]; exact hnone
  simp only [CSYNC.tree] at hnone hnode hcur hlt hj
  simp [_csync_merge_algorithm_visitor, hl, hcur, hi, hfind, htmp, hp, hnode, ho, ht,
    tree_set_node, csync_replica_e.opposite, hlt, hj, CSYNC.tree, CSYNC.set_node]

/-- C7 at a sample input: the local file "bb" (inode 7) is a rename of "a",
which has changed on the remote replica. -/
theorem merge_rename_superseded_witness :
    ((_csync_merge_algorithm_visitor ext0
        (ctx0 LOCAL_REPLICA false [st0 2 "bb" CSYNC_INSTRUCTION_RENAME]
          [st1 1 "a" CSYNC_INSTRUCTION_EVAL]) 0).2.tree REMOTE_REPLICA)[0]? =
        some (st1 1 "a" CSYNC_INSTRUCTION_SYNC) ∧
    ((_csync_merge_algorithm_visitor ext0
        (ctx0 LOCAL_REPLICA false [st0 2 "bb" CSYNC_INSTRUCTION_RENAME]
          [st1 1 "a" CSYNC_INSTRUCTION_EVAL]) 0).2.tree LOCAL_REPLICA)[0]? =
        some (st0 2 "bb" CSYNC_INSTRUCTION_NONE) :=
  merge_rename_superseded ext0
    (ctx0 LOCAL_REPLICA false [st0 2 "bb" CSYNC_INSTRUCTION_RENAME]
      [st1 1 "a" CSYNC_INSTRUCTION_EVAL]) 0
    (st0 2 "bb" CSYNC_INSTRUCTION_RENAME) ⟨some "a"⟩ "a" 0 (st1 1 "a" CSYNC_INSTRUCTION_EVAL)
    rfl (by decide) rfl (by decide) (by decide) rfl (by decide) (by decide) (by decide)

/-- The part of the downgrade the code performs: a RENAME record of the local
replica without a peer under its own phash, whose journal row exists but leads
to no node of the remote tree, becomes NEW. -/
theorem merge_rename_downgraded (ext : csync_externals) (ctx : CSYNC) (obj : Nat)
    (cur : csync_file_stat_t) (tmp : csync_statedb_stat_t)
    (hl : ctx.current = LOCAL_REPLICA)
    (hcur : (ctx.tree LOCAL_REPLICA)[obj]? = some cur)
    (hi : cur.instruction = CSYNC_INSTRUCTION_RENAME)
    (hnone : c_rbtree_find (ctx.tree REMOTE_REPLICA) cur.phash = none)
    (htmp : ext.csync_statedb_get_stat_by_inode cur.inode = some tmp)
    (hp : tmp.path = none ∨
      ∃ p, tmp.path = some p ∧ c_rbtree_find (ctx.tree REMOTE_REPLICA) (ext.c_jhash64 p) = none) :
    ((_csync_merge_algorithm_visitor ext ctx obj).2.tree LOCAL_REPLICA)[obj]? =
        some { cur with instruction := CSYNC_INSTRUCTION_NEW } := by
  have hlt : obj < (ctx.tree LOCAL_REPLICA).length := (List.getElem?_eq_some.mp hcur).1
  have hfind : merge_find_node ext ctx cur = none := by
    rw [merge_find_node_local hl]; exact hnone
  simp only [CSYNC.tree] at hnone hp hcur hlt
  rcases hp with hp | ⟨p, hp, hnode⟩
  · simp [_csync_merge_algorithm_visitor, hl, hcur, hi, hfind, htmp, hp, tree_set_node, hlt,
      CSYNC.tree, csync_replica_e.opposite, CSYNC.set_node]
  · simp [_csync_merge_algorithm_visitor, hl, hcur, hi, hfind, htmp, hp, hnode, tree_set_node,
      hlt, CSYNC.tree, csync_replica_e.opposite, CSYNC.set_node]

/-- C8 at the input where the code departs from it: a RENAME record of the
local replica (inode 9) has no peer under its own phash and the journal has no
row for its inode. The visit does not set it to NEW: the context is left as it
is and the record keeps RENAME. -/
theorem merge_rename_without_journal_row :
    merge_find_node ext0
        (ctx0 LOCAL_REPLICA false [st2 2 "bb" CSYNC_INSTRUCTION_RENAME] [])
        (st2 2 "bb" CSYNC_INSTRUCTION_RENAME) = none ∧
    ext0.csync_statedb_get_stat_by_inode (st2 2 "bb" CSYNC_INSTRUCTION_RENAME).inode = none ∧
    (_csync_merge_algorithm_visitor ext0
        (ctx0 LOCAL_REPLICA false [st2 2 "bb" CSYNC_INSTRUCTION_RENAME] []) 0).2 =
      ctx0 LOCAL_REPLICA false [st2 2 "bb" CSYNC_INSTRUCTION_RENAME] [] ∧
    (((_csync_merge_algorithm_visitor ext0
        (ctx0 LOCAL_REPLICA false [st2 2 "bb" CSYNC_INSTRUCTION_RENAME] []) 0).2.tree
          LOCAL_REPLICA)[0]?).map (fun st => st.instruction) ≠ some CSYNC_INSTRUCTION_NEW := by
  decide

/-! ## The two passes of `csync_reconcile` -/

/-- C9: reconciliation of identical trees. When the two trees hold records for
the same keys (each key once per tree), every record is NEW, and the two
records of a key agree in size and modtime, `csync_reconcile` returns 0 and
leaves trees with the same keys in which every record is NONE. -/
theorem reconcile_identical_trees (ext : csync_externals) (ctx : CSYNC)
    (hL : (ctx.local_tree.map (fun st => st.phash)).Nodup)
    (hR : (ctx.remote_tree.map (fun st => st.phash)).Nodup)
    (hkeys : ∀ h, h ∈ ctx.local_tree.map (fun st => st.phash) ↔
      h ∈ ctx.remote_tree.map (fun st => st.phash))
    (hLnew : ∀ st ∈ ctx.local_tree, st.instruction = CSYNC_INSTRUCTION_NEW)
    (hRnew : ∀ st ∈ ctx.remote_tree, st.instruction = CSYNC_INSTRUCTION_NEW)
    (heq : ∀ l ∈ ctx.local_tree, ∀ r ∈ ctx.remote_tree, l.phash = r.phash →
      l.size = r.size ∧ l.modtime = r.modtime) :
    ∃ ctx' : CSYNC, csync_reconcile ext (some ctx) = (0, some ctx') ∧
      (∀ st ∈ ctx'.local_tree, st.instruction = CSYNC_INSTRUCTION_NONE) ∧
      (∀ st ∈ ctx'.remote_tree, st.instruction = CSYNC_INSTRUCTION_NONE) ∧
      ctx'.local_tree.map (fun st => st.phash) = ctx.local_tree.map (fun st => st.phash) ∧
      ctx'.remote_tree.map (fun st => st.phash) = ctx.remote_tree.map (fun st => st.phash) := by
  have h0 : local_pass_inv ctx.local_tree ctx.remote_tree 0
      { ctx with error_code := CSYNC_ERR_NONE, current := LOCAL_REPLICA,
                 replica := ctx.local_type } :=
    ⟨rfl, rfl, rfl,
      fun i st h => ⟨fun h' => absurd h' (Nat.not_lt_zero i),
        fun _ => hLnew st (List.getElem?_mem h)⟩,
      fun j st h => ⟨fun h' => by simp at h', fun _ => hRnew st (List.getElem?_mem h)⟩⟩
  have p1 := c_rbtree_walk_induct ext.c_rbtree_walk_negative (_csync_merge_algorithm_visitor ext) (merge_visitor_rc ext)
    (local_pass_inv ctx.local_tree ctx.remote_tree) ctx.local_tree _
    (fun k c hk hI => local_pass_step ext ctx.local_tree ctx.remote_tree hL hR
      (fun h => (hkeys h).mp) heq k c hk hI) h0
  obtain ⟨rc1, hc1, hLs, hRs, hLi, hRi⟩ := p1
  have hLp := map_phash_of_map_key hLs
  have hRp := map_phash_of_map_key hRs
  generalize hw1 : c_rbtree_walk ext.c_rbtree_walk_negative ctx.local_tree
      { ctx with error_code := CSYNC_ERR_NONE, current := LOCAL_REPLICA,
                 replica := ctx.local_type } (_csync_merge_algorithm_visitor ext) = r1
    at rc1 hc1 hLs hRs hLi hRi hLp hRp
  have hLnone : ∀ st ∈ r1.2.local_tree, st.instruction = CSYNC_INSTRUCTION_NONE := by
    intro st hst
    obtain ⟨i, hi, rfl⟩ := List.mem_iff_getElem.mp hst
    have hlen : r1.2.local_tree.length = ctx.local_tree.length := by
      simpa using congrArg List.length hLs
    exact (hLi i _ (List.getElem?_eq_getElem hi)).1 (by omega)
  have hRnone : ∀ st ∈ r1.2.remote_tree, st.instruction = CSYNC_INSTRUCTION_NONE := by
    intro st hst
    obtain ⟨j, hj, rfl⟩ := List.mem_iff_getElem.mp hst
    refine (hRi j _ (List.getElem?_eq_getElem hj)).1 ?_
    rw [List.take_length]
    apply (hkeys _).mpr
    rw [← hRp]
    exact List.mem_map.mpr ⟨_, hst, rfl⟩
  have h1 : remote_pass_inv ctx.local_tree ctx.remote_tree
      { r1.2 with current := REMOTE_REPLICA, replica := r1.2.remote_type } :=
    ⟨rfl, hLnone, hRnone, hLp, hRp⟩
  have p2 := c_rbtree_walk_induct ext.c_rbtree_walk_negative (_csync_merge_algorithm_visitor ext) (merge_visitor_rc ext)
    (fun _ c => c = { r1.2 with current := REMOTE_REPLICA, replica := r1.2.remote_type })
    r1.2.remote_tree { r1.2 with current := REMOTE_REPLICA, replica := r1.2.remote_type }
    (fun k c _ h => by
      subst h
      exact remote_pass_step ext ctx.local_tree ctx.remote_tree (fun h => (hkeys h).mpr) _ h1 k)
    rfl
  obtain ⟨rc2, hfix⟩ := p2
  refine ⟨{ r1.2 with current := REMOTE_REPLICA, replica := r1.2.remote_type,
                      status := r1.2.status ||| CSYNC_STATUS_RECONCILE }, ?_,
    hLnone, hRnone, hLp, hRp⟩
  simp only [csync_reconcile, csync_reconcile_updates, CSYNC.tree]
  rw [hw1]
  simp only [rc1, lt_self_iff_false, if_false]
  rw [Prod.ext_iff]
  simp only [CSYNC.tree] at rc2 hfix
  simp [rc2, hfix]


/-- C9 at a sample input: two files, present on both replicas with the same
size and modtime, all four records NEW. `csync_reconcile` returns 0, sets the
RECONCILE bit and leaves all four records NONE. -/
theorem reconcile_identical_trees_witness :
    csync_reconcile ext0
        (some (ctx0 LOCAL_REPLICA false
          [st0 1 "a" CSYNC_INSTRUCTION_NEW, st0 2 "bb" CSYNC_INSTRUCTION_NEW]
          [st0 1 "a" CSYNC_INSTRUCTION_NEW, st0 2 "bb" CSYNC_INSTRUCTION_NEW])) =
      (0, some { ctx0 REMOTE_REPLICA false
          [st0 1 "a" CSYNC_INSTRUCTION_NONE, st0 2 "bb" CSYNC_INSTRUCTION_NONE]
          [st0 1 "a" CSYNC_INSTRUCTION_NONE, st0 2 "bb" CSYNC_INSTRUCTION_NONE] with
          status := 7 }) ∧
    ∃ ctx' : CSYNC,
      csync_reconcile ext0
        (some (ctx0 LOCAL_REPLICA false
          [st0 1 "a" CSYNC_INSTRUCTION_NEW, st0 2 "bb" CSYNC_INSTRUCTION_NEW]
          [st0 1 "a" CSYNC_INSTRUCTION_NEW, st0 2 "bb" CSYNC_INSTRUCTION_NEW])) =
        (0, some ctx') ∧
      (∀ st ∈ ctx'.local_tree, st.instruction = CSYNC_INSTRUCTION_NONE) ∧
      (∀ st ∈ ctx'.remote_tree, st.instruction = CSYNC_INSTRUCTION_NONE) ∧
      ctx'.local_tree.map (fun st => st.phash) = [1, 2] ∧
      ctx'.remote_tree.map (fun st => st.phash) = [1, 2] :=
  ⟨by decide,
    reconcile_identical_trees ext0
      (ctx0 LOCAL_REPLICA false
        [st0 1 "a" CSYNC_INSTRUCTION_NEW, st0 2 "bb" CSYNC_INSTRUCTION_NEW]
        [st0 1 "a" CSYNC_INSTRUCTION_NEW, st0 2 "bb" CSYNC_INSTRUCTION_NEW])
      (by decide) (by decide) (fun _ => Iff.rfl) (by decide) (by decide) (by decide)⟩


/-- C10: the pass with the remote replica as the current one does not revert
decisions. Each visit of that pass leaves every local record whose instruction
is NONE as it is, and leaves the visited remote record as it is when its
instruction is SYNC, CONFLICT or RENAME. Hence over the whole pass: a local
record that is NONE when the pass starts, and a remote record that is SYNC,
CONFLICT or RENAME when the pass starts, are the same record, instruction and
destpath included, when the pass ends. -/
theorem reconcile_remote_pass_keeps_decisions (ext : csync_externals) (ctx : CSYNC)
    (hc : ctx.current = REMOTE_REPLICA) :
    (∀ (obj i : Nat) (st : csync_file_stat_t),
      (ctx.tree LOCAL_REPLICA)[i]? = some st → st.instruction = CSYNC_INSTRUCTION_NONE →
      ((_csync_merge_algorithm_visitor ext ctx obj).2.tree LOCAL_REPLICA)[i]? = some st) ∧
    (∀ (obj : Nat) (cur : csync_file_stat_t),
      (ctx.tree REMOTE_REPLICA)[obj]? = some cur →
      cur.instruction = CSYNC_INSTRUCTION_SYNC ∨ cur.instruction = CSYNC_INSTRUCTION_CONFLICT ∨
        cur.instruction = CSYNC_INSTRUCTION_RENAME →
      ((_csync_merge_algorithm_visitor ext ctx obj).2.tree REMOTE_REPLICA)[obj]? = some cur) ∧
    (∀ (i : Nat) (st : csync_file_stat_t),
      (ctx.tree LOCAL_REPLICA)[i]? = some st → st.instruction = CSYNC_INSTRUCTION_NONE →
      ((csync_reconcile_updates ext ctx).2.tree LOCAL_REPLICA)[i]? = some st) ∧
    (∀ (i : Nat) (st : csync_file_stat_t),
      (ctx.tree REMOTE_REPLICA)[i]? = some st →
      st.instruction = CSYNC_INSTRUCTION_SYNC ∨ st.instruction = CSYNC_INSTRUCTION_CONFLICT ∨
        st.instruction = CSYNC_INSTRUCTION_RENAME →
      ((csync_reconcile_updates ext ctx).2.tree REMOTE_REPLICA)[i]? = some st) := by
  refine ⟨?_, ?_, ?_, ?_⟩
  · intro obj i st hst hn
    exact merge_visitor_remote_keeps_local_none hc hst hn
  · intro obj cur hcur hd
    rw [merge_visitor_remote_decided hc hcur hd]
    exact hcur
  · intro i st hst hn
    have := c_rbtree_walk_induct ext.c_rbtree_walk_negative (_csync_merge_algorithm_visitor ext) (merge_visitor_rc ext)
      (fun _ c => c.current = REMOTE_REPLICA ∧ (c.tree LOCAL_REPLICA)[i]? = some st)
      (ctx.tree ctx.current) ctx
      (fun k c _ h => ⟨by rw [merge_visitor_current]; exact h.1,
        merge_visitor_remote_keeps_local_none h.1 h.2 hn⟩)
      ⟨hc, hst⟩
    exact this.2.2
  · intro i st hst hd
    have := c_rbtree_walk_induct ext.c_rbtree_walk_negative (_csync_merge_algorithm_visitor ext) (merge_visitor_rc ext)
      (fun _ c => c.current = REMOTE_REPLICA ∧ (c.tree REMOTE_REPLICA)[i]? = some st)
      (ctx.tree ctx.current) ctx
      (fun k c _ h => by
        refine ⟨by rw [merge_visitor_current]; exact h.1, ?_⟩
        by_cases hik : i = k
        · subst hik
          rw [merge_visitor_remote_decided h.1 h.2 hd]
          exact h.2
        · have := merge_visitor_current_tree ext c k i hik
          rw [h.1] at this
          rw [this]
          exact h.2)
      ⟨hc, hst⟩
    exact this.2.2

/-- C10 at a sample input: the local record is NONE and the remote record is
SYNC when the remote pass starts, and both are the same when it ends. -/
theorem reconcile_remote_pass_keeps_decisions_witness :
    ((csync_reconcile_updates ext0
        (ctx0 REMOTE_REPLICA false [st0 1 "a" CSYNC_INSTRUCTION_NONE]
          [st1 1 "a" CSYNC_INSTRUCTION_SYNC])).2.tree LOCAL_REPLICA)[0]? =
        some (st0 1 "a" CSYNC_INSTRUCTION_NONE) ∧
    ((csync_reconcile_updates ext0
        (ctx0 REMOTE_REPLICA false [st0 1 "a" CSYNC_INSTRUCTION_NONE]
          [st1 1 "a" CSYNC_INSTRUCTION_SYNC])).2.tree REMOTE_REPLICA)[0]? =
        some (st1 1 "a" CSYNC_INSTRUCTION_SYNC) :=
  ⟨(reconcile_remote_pass_keeps_decisions ext0
      (ctx0 REMOTE_REPLICA false [st0 1 "a" CSYNC_INSTRUCTION_NONE]
        [st1 1 "a" CSYNC_INSTRUCTION_SYNC]) rfl).2.2.1 0 (st0 1 "a" CSYNC_INSTRUCTION_NONE)
      (by decide) rfl,
   (reconcile_remote_pass_keeps_decisions ext0
      (ctx0 REMOTE_REPLICA false [st0 1 "a" CSYNC_INSTRUCTION_NONE]
        [st1 1 "a" CSYNC_INSTRUCTION_SYNC]) rfl).2.2.2 0 (st1 1 "a" CSYNC_INSTRUCTION_SYNC)
      (by decide) (Or.inl rfl)⟩

/-! ## Basic facts about the chunked uploader -/

section hbf_lemmas

/-- The sum of a constant function over the counts below `m`. -/
theorem sum_map_range_const (m : Nat) (g : Nat → Int) (b : Int) (h : ∀ c < m, g c = b) :
    ((List.range m).map g).sum = (m : Int) * b := by
  induction m with
  | zero => simp
  | succ k ih =>
    rw [List.range_succ, List.map_append, List.sum_append, ih (fun c hc => h c (by omega)),
      List.map_singleton, List.sum_singleton, h k (by omega)]
    push_cast
    ring

/-- The sizes of the blocks that `hbf_splitlist` builds add up to what is
split: `n` blocks of size `b`, the last one cut to the remainder `r` when
there is one. -/
theorem hbf_splitlist_block_sizes_sum (n : Nat) (b r : Int) (hn : 0 < n) :
    (((List.range n).map (hbf_splitlist_block (n : Int) b r)).map (fun blk => blk.size)).sum =
      if r > 0 then ((n : Int) - 1) * b + r else (n : Int) * b := by
  rw [List.map_map]
  obtain ⟨k, rfl⟩ : ∃ k, n = k + 1 := ⟨n - 1, by omega⟩
  rw [List.range_succ, List.map_append, List.sum_append]
  have h1 : ((List.range k).map ((fun blk => blk.size) ∘
      hbf_splitlist_block ((k + 1 : Nat) : Int) b r)).sum = (k : Int) * b := by
    apply sum_map_range_const
    intro c hc
    have hck : c ≠ k := by omega
    simp [hbf_splitlist_block, hck]
  rw [h1]
  by_cases hr : r > 0
  · simp [hbf_splitlist_block, hr]
  · simp [hbf_splitlist_block, hr]
    ring

/-- The result of `hbf_splitlist` when the count of blocks it computes is `n`,
a count above 0: no result when `n` is above `INT_MAX`, and else the transfer
with `n` blocks. -/
theorem hbf_splitlist_of_count (t : hbf_transfer_t) (fd : Int) (sb : hbf_stat_t) (id : Int)
    (n : Nat) (b r : Int) (hfd : 0 < fd) (hblk : t.block_size ≠ 0) (hn : 0 < n)
    (hcount : (if sb.st_size = 0 then 1 else
      if sb.st_size - Int.tdiv sb.st_size t.block_size * t.block_size > 0 then
        Int.tdiv sb.st_size t.block_size + 1
      else Int.tdiv sb.st_size t.block_size) = (n : Int))
    (hb : (if sb.st_size = 0 then 0 else t.block_size) = b)
    (hr : sb.st_size - Int.tdiv sb.st_size t.block_size * t.block_size = r) :
    hbf_splitlist (some t) fd (some sb) id =
      if INT_MAX < (n : Int) then none
      else some (HBF_SUCCESS, some { t with
        fd := fd, stat_size := sb.st_size, modtime := sb.st_mtime,
        block_arr := (List.range n).map (hbf_splitlist_block (n : Int) b r),
        block_cnt := n, transfer_id := id, start_id := 0,
        calc_size := (((List.range n).map (hbf_splitlist_block (n : Int) b r)).map
          (fun blk => blk.size)).sum }) := by
  have hne : (n : Int) ≠ 0 := by omega
  have hnn : ¬ (n : Int) < 0 := by omega
  subst hr
  subst hb
  unfold hbf_splitlist
  simp only [not_le.mpr hfd, if_false, hblk]
  rw [hcount]
  simp only [ne_eq, hne, not_false_eq_true, if_true, hnn, false_or, Int.toNat_ofNat]

/-- What `hbf_splitlist` yields for a valid descriptor and a size of at least
0, with a positive block size: `n` blocks, where `n` is the quotient of size
and block size, plus one when there is a remainder, and 1 for size 0; no
result when `n` is above `INT_MAX`. -/
theorem hbf_splitlist_eq (t : hbf_transfer_t) (fd : Int) (sb : hbf_stat_t) (id : Int)
    (hfd : 0 < fd) (hsize : 0 ≤ sb.st_size) (hblk : 0 < t.block_size) :
    ∃ (n : Nat) (b r : Int),
      0 < n ∧ 0 ≤ r ∧ r < t.block_size ∧
      (sb.st_size = 0 → n = 1 ∧ b = 0 ∧ r = 0) ∧
      (0 < sb.st_size → b = t.block_size) ∧
      sb.st_size = (if r > 0 then ((n : Int) - 1) * b + r else (n : Int) * b) ∧
      hbf_splitlist (some t) fd (some sb) id =
        if INT_MAX < (n : Int) then none
        else some (HBF_SUCCESS, some { t with
          fd := fd, stat_size := sb.st_size, modtime := sb.st_mtime,
          block_arr := (List.range n).map (hbf_splitlist_block (n : Int) b r),
          block_cnt := n, transfer_id := id, start_id := 0,
          calc_size := (((List.range n).map (hbf_splitlist_block (n : Int) b r)).map
            (fun blk => blk.size)).sum }) := by
  have hq : Int.tdiv sb.st_size t.block_size = sb.st_size / t.block_size :=
    Int.tdiv_eq_ediv hsize (le_of_lt hblk)
  have hq0 : 0 ≤ sb.st_size / t.block_size := Int.ediv_nonneg hsize (le_of_lt hblk)
  have hrem : sb.st_size - sb.st_size / t.block_size * t.block_size =
      sb.st_size % t.block_size := by
    have := Int.emod_add_ediv sb.st_size t.block_size
    linarith [mul_comm (sb.st_size / t.block_size) t.block_size]
  have hr0 : 0 ≤ sb.st_size % t.block_size := Int.emod_nonneg _ (ne_of_gt hblk)
  have hr1 : sb.st_size % t.block_size < t.block_size := Int.emod_lt_of_pos _ hblk
  have hdecomp := Int.emod_add_ediv sb.st_size t.block_size
  by_cases hz : sb.st_size = 0
  · refine ⟨1, 0, 0, by omega, le_refl 0, hblk, fun _ => ⟨rfl, rfl, rfl⟩,
      fun h => absurd hz (ne_of_gt h), by simp [hz], ?_⟩
    exact hbf_splitlist_of_count t fd sb id 1 0 0 hfd (ne_of_gt hblk) (by omega)
      (by simp [hz]) (by simp [hz]) (by simp [hz])
  · have hpos : 0 < sb.st_size := lt_of_le_of_ne hsize (Ne.symm hz)
    by_cases hr : sb.st_size % t.block_size > 0
    · have hn : ((sb.st_size / t.block_size + 1).toNat : Int) =
          sb.st_size / t.block_size + 1 := Int.toNat_of_nonneg (by omega)
      refine ⟨(sb.st_size / t.block_size + 1).toNat, t.block_size, sb.st_size % t.block_size,
        by omega, hr0, hr1, fun h => absurd h hz, fun _ => rfl, ?_, ?_⟩
      · rw [hn, if_pos hr]
        linarith [mul_comm (sb.st_size / t.block_size) t.block_size]
      · exact hbf_splitlist_of_count t fd sb id _ _ _ hfd (ne_of_gt hblk) (by omega)
          (by rw [if_neg hz, hq, hrem, if_pos hr, hn]) (by rw [if_neg hz])
          (by rw [hq, hrem])
    · have hr' : sb.st_size % t.block_size = 0 := by omega
      have hqpos : 0 < sb.st_size / t.block_size := by
        rcases lt_or_eq_of_le hq0 with h | h
        · exact h
        · rw [← h, hr'] at hdecomp
          simp at hdecomp
          exact absurd hdecomp.symm hz
      have hn : ((sb.st_size / t.block_size).toNat : Int) = sb.st_size / t.block_size :=
        Int.toNat_of_nonneg hq0
      refine ⟨(sb.st_size / t.block_size).toNat, t.block_size, 0,
        by omega, le_refl 0, hblk, fun h => absurd h hz, fun _ => rfl, ?_, ?_⟩
      · rw [hn]
        simp
        rw [hr'] at hdecomp
        linarith [mul_comm (sb.st_size / t.block_size) t.block_size]
      · exact hbf_splitlist_of_count t fd sb id _ _ _ hfd (ne_of_gt hblk) (by omega)
          (by rw [if_neg hz, hq, hrem, if_neg hr, hn]) (by rw [if_neg hz])
          (by rw [hq, hrem, hr'])

/-- The count of blocks of a positive size is the size divided by the block
size, rounded up. -/
theorem hbf_splitlist_count_ceil (n : Nat) (size blk r : Int) (hblk : 0 < blk)
    (hr1 : r < blk)
    (hsum : size = (if r > 0 then ((n : Int) - 1) * blk + r else (n : Int) * blk)) :
    (n : Int) = Int.ceil ((size : ℚ) / (blk : ℚ)) := by
  symm
  rw [Int.ceil_eq_iff]
  have hblkq : (0 : ℚ) < (blk : ℚ) := by exact_mod_cast hblk
  have key : ((n : Int) - 1) * blk < size ∧ size ≤ (n : Int) * blk := by
    by_cases hr : r > 0
    · rw [if_pos hr] at hsum
      constructor
      · linarith
      · nlinarith
    · rw [if_neg hr] at hsum
      constructor
      · nlinarith
      · linarith
  constructor
  · rw [lt_div_iff₀ hblkq]
    exact_mod_cast key.1
  · rw [div_le_iff₀ hblkq]
    exact_mod_cast key.2

/-- The entry `i` of the block list that `hbf_splitlist` builds. -/
theorem hbf_splitlist_block_arr_getElem? (n : Nat) (b r : Int) (i : Nat) (blk : hbf_block_t)
    (h : ((List.range n).map (hbf_splitlist_block (n : Int) b r))[i]? = some blk) :
    i < n ∧ blk = hbf_splitlist_block (n : Int) b r i := by
  rw [List.getElem?_map] at h
  have hi : i < n := by
    by_contra hlt
    rw [List.getElem?_eq_none (by simpa using Nat.le_of_not_lt hlt)] at h
    simp at h
  rw [List.getElem?_range hi] at h
  simp at h
  exact ⟨hi, h.symm⟩

/-- The etag stored for a header value that is wrapped in double quotes. -/
theorem dav_request_etag_quoted (inner : List Char) :
    dav_request_etag (String.mk ('"' :: (inner ++ ['"']))) = some (String.mk inner) := by
  have h1 : (String.mk ('"' :: (inner ++ ['"']))).data.getLast? = some '"' := by
    simp [List.getLast?_cons, List.getLast?_append]
  have h2 : (dav_request_etag_len (String.mk ('"' :: (inner ++ ['"'])))).toNat =
      inner.length := by
    simp only [dav_request_etag_len, String.length, List.length_cons, List.length_append,
      List.length_nil]
    omega
  have h3 : ¬ dav_request_etag_len (String.mk ('"' :: (inner ++ ['"']))) < 0 := by
    simp only [dav_request_etag_len, String.length, List.length_cons, List.length_append,
      List.length_nil]
    omega
  unfold dav_request_etag
  rw [if_pos ⟨by simp, h1⟩, if_neg h3, h2]
  simp

/-- A string of at least 2 characters that begins and ends with a double
quote is a string wrapped in double quotes. -/
theorem quoted_of_head_getLast (etag : String) (hlen : 2 ≤ etag.length)
    (hhead : etag.data.head? = some '"') (hlast : etag.data.getLast? = some '"') :
    ∃ inner : List Char, etag = String.mk ('"' :: (inner ++ ['"'])) := by
  obtain ⟨data⟩ := etag
  simp only [String.length] at hlen
  cases data with
  | nil => simp at hlen
  | cons c rest =>
    simp at hhead
    subst hhead
    have hne : rest ≠ [] := by
      intro h; subst h; simp at hlen
    have hl : rest.getLast? = some '"' := by
      cases rest with
      | nil => exact absurd rfl hne
      | cons b l => simpa using hlast
    refine ⟨rest.dropLast, ?_⟩
    congr 2
    have := List.dropLast_append_getLast? '"' hl
    exact this.symm

/-- The copy of the etag has a result for every header value but the one that
consists of a single double quote. -/
theorem dav_request_etag_eq_none (etag : String) :
    dav_request_etag etag = none ↔ etag = "\"" := by
  constructor
  · intro h
    unfold dav_request_etag at h
    split at h
    · rename_i hq
      split at h
      · rename_i hlen
        obtain ⟨data⟩ := etag
        simp only [dav_request_etag_len, String.length] at hlen
        cases data with
        | nil => simp at hq
        | cons c rest =>
          cases rest with
          | nil =>
            simp at hq
            subst hq
            rfl
          | cons d rest2 =>
            simp only [List.length_cons] at hlen
            omega
      · exact absurd h (by simp)
    · exact absurd h (by simp)
  · rintro rfl
    decide

/-- The block `dav_request` leaves for a 2xx answer with a non-empty etag of
which the copy has a result. -/
theorem dav_request_with_etag (blk : hbf_block_t) (response : ne_response)
    (etag stored : String)
    (hres : response.res = NE_OK) (hklass : response.klass = 2)
    (hetag : response.etag = some etag) (hne : etag ≠ "")
    (hstored : dav_request_etag etag = some stored) :
    ∃ blk' : hbf_block_t,
      dav_request true (some blk) response = some (HBF_SUCCESS, some blk') ∧
      blk'.state = HBF_TRANSFER_SUCCESS ∧ blk'.etag = some stored := by
  simp [dav_request, hres, hklass, hetag, hne, hstored]

/-- The loop does nothing once the state is not HBF_TRANSFER_SUCCESS. -/
theorem hbf_transfer_blocks_stop (env : hbf_env) (l : List Nat) (run : hbf_run)
    (h : run.state ≠ HBF_TRANSFER_SUCCESS) : hbf_transfer_blocks env l run = some run := by
  cases l with
  | nil => rfl
  | cons c rest => simp [hbf_transfer_blocks, h]

/-- The loop over a list of counts in two parts. -/
theorem hbf_transfer_blocks_append (env : hbf_env) (l1 l2 : List Nat) (run : hbf_run) :
    hbf_transfer_blocks env (l1 ++ l2) run =
      (hbf_transfer_blocks env l1 run).bind (hbf_transfer_blocks env l2) := by
  induction l1 generalizing run with
  | nil => rfl
  | cons c rest ih =>
    by_cases h : run.state = HBF_TRANSFER_SUCCESS
    · simp only [List.cons_append, hbf_transfer_blocks, h, if_true]
      cases hbf_transfer_block env c run with
      | none => rfl
      | some r => exact ih r
    · simp [hbf_transfer_blocks, h, hbf_transfer_blocks_stop env l2 run h]

/-- When `dav_request` has a result for a block and a request that are there,
the block it leaves is there; what it does not touch, and the code it
records. -/
theorem dav_request_some (blk : hbf_block_t) (response : ne_response)
    (r : Hbf_State × Option hbf_block_t)
    (h : dav_request true (some blk) response = some r) :
    ∃ blk' : hbf_block_t, r.2 = some blk' ∧
      blk'.http_result_code = response.code ∧
      blk'.seq_number = blk.seq_number ∧ blk'.start = blk.start ∧ blk'.size = blk.size := by
  unfold dav_request at h
  simp only [not_true_eq_false, if_false] at h
  split at h
  · exact absurd h (by simp)
  · rename_i r0 hr0
    simp only [Option.some.injEq] at h
    subst h
    refine ⟨_, rfl, rfl, ?_⟩
    dsimp only
    repeat' split at hr0
    all_goals cases hr0
    all_goals exact ⟨rfl, rfl, rfl⟩

/-- One turn of the loop that gets as far as the request: the state is
HBF_TRANSFER_SUCCESS, the block of the turn is there, the validation (made
when there are several blocks, from the second turn on) passes, and the
request is created. The request is dispatched and the outcome of
`dav_request` decides: without a result of `dav_request` the turn has none; on
HBF_TRANSFER_SUCCESS or HBF_SUCCESS that state is kept, on any other state the
transfer is marked as failed at this block. -/
theorem hbf_transfer_block_request (env : hbf_env) (cnt : Nat) (run : hbf_run)
    (hstate : run.state = HBF_TRANSFER_SUCCESS)
    (hwf : run.transfer.block_arr.length = run.transfer.block_cnt)
    (hN : 0 < run.transfer.block_cnt)
    (hval : run.transfer.block_cnt > 1 ∧ cnt > 0 →
      validate_source_file (some run.transfer) (env.fstat_before cnt) = HBF_SUCCESS)
    (hcreate : env.ne_request_create cnt = true) :
    ∃ (blk : hbf_block_t) (request : hbf_request),
      run.transfer.block_arr[(cnt + run.transfer.start_id) % run.transfer.block_cnt]? =
        some blk ∧
      request.block_id = (cnt + run.transfer.start_id) % run.transfer.block_cnt ∧
      request.url = get_transfer_url (some run.transfer) request.block_id ∧
      request.url ≠ none ∧
      request.oc_chunked = decide (run.transfer.block_cnt > 1) ∧
      request.body_start = blk.start ∧ request.body_size = blk.size ∧
      (dav_request true (some blk) (env.ne_request_dispatch cnt request) = none →
        hbf_transfer_block env cnt run = none) ∧
      (∀ (s : Hbf_State) (blk' : hbf_block_t),
        dav_request true (some blk) (env.ne_request_dispatch cnt request) =
          some (s, some blk') →
        hbf_transfer_block env cnt run =
          some (if s ≠ HBF_TRANSFER_SUCCESS ∧ s ≠ HBF_SUCCESS then
            { state := HBF_FAIL,
              transfer := { run.transfer with
                block_arr := run.transfer.block_arr.set request.block_id blk',
                error_string := some (env.ne_get_error cnt),
                start_id := request.block_id,
                status_code := blk'.http_result_code },
              sent := run.sent ++ [request] }
          else
            { state := s,
              transfer := { run.transfer with
                block_arr := run.transfer.block_arr.set request.block_id blk' },
              sent := run.sent ++ [request] })) := by
  have hid : (cnt + run.transfer.start_id) % run.transfer.block_cnt < run.transfer.block_cnt :=
    Nat.mod_lt _ hN
  have hlt : (cnt + run.transfer.start_id) % run.transfer.block_cnt <
      run.transfer.block_arr.length := by omega
  obtain ⟨blk, hblk⟩ : ∃ blk, run.transfer.block_arr[(cnt + run.transfer.start_id) %
      run.transfer.block_cnt]? = some blk := ⟨_, List.getElem?_eq_getElem hlt⟩
  have hurl : get_transfer_url (some run.transfer)
      ((cnt + run.transfer.start_id) % run.transfer.block_cnt) ≠ none := by
    simp only [get_transfer_url, ge_iff_le, not_le.mpr hid, if_false, hblk]
    split <;> simp
  have hstate2 : (if run.transfer.block_cnt > 1 ∧ cnt > 0 then
      validate_source_file (some run.transfer) (env.fstat_before cnt)
      else HBF_TRANSFER_SUCCESS) = HBF_TRANSFER_SUCCESS ∨
      (if run.transfer.block_cnt > 1 ∧ cnt > 0 then
      validate_source_file (some run.transfer) (env.fstat_before cnt)
      else HBF_TRANSFER_SUCCESS) = HBF_SUCCESS := by
    by_cases hc : run.transfer.block_cnt > 1 ∧ cnt > 0
    · rw [if_pos hc]; exact Or.inr (hval hc)
    · rw [if_neg hc]; exact Or.inl rfl
  refine ⟨blk,
    { block_id := (cnt + run.transfer.start_id) % run.transfer.block_cnt,
      url := get_transfer_url (some run.transfer)
        ((cnt + run.transfer.start_id) % run.transfer.block_cnt),
      oc_chunked := decide (run.transfer.block_cnt > 1),
      body_start := blk.start, body_size := blk.size },
    hblk, rfl, rfl, hurl, rfl, rfl, rfl, ?_, ?_⟩
  · intro hdav
    unfold hbf_transfer_block
    simp only [hstate, hblk, hurl, hcreate, Nat.mod_mod, hstate2, reduceCtorEq, if_false,
      if_true, and_false, true_and, ne_eq, not_false_eq_true]
    rw [hdav]
  · intro s blk' hdav
    unfold hbf_transfer_block
    simp only [hstate, hblk, hurl, hcreate, Nat.mod_mod, hstate2, reduceCtorEq, if_false,
      if_true, and_false, true_and, ne_eq, not_false_eq_true]
    rw [hdav]
    dsimp only [Option.getD]
    split <;> rfl

/-- Induction over the loop of `hbf_transfer`: a property indexed by the count,
which holds with state HBF_TRANSFER_SUCCESS only and is kept by every turn,
each of which has a result, holds when the loop ends, and the loop has a
result. -/
theorem hbf_transfer_blocks_induct (env : hbf_env) (I : Nat → hbf_run → Prop) (n : Nat) :
    ∀ (s : Nat) (run : hbf_run),
      (∀ k r, s ≤ k → k < s + n → I k r →
        r.state = HBF_TRANSFER_SUCCESS ∧
        ∃ r', hbf_transfer_block env k r = some r' ∧ I (k + 1) r') →
      I s run →
      ∃ r', hbf_transfer_blocks env (List.range' s n) run = some r' ∧ I (s + n) r' := by
  induction n with
  | zero => intro s run _ h0; exact ⟨run, rfl, h0⟩
  | succ m ih =>
    intro s run hstep h0
    obtain ⟨hst, r1, hr1, h1⟩ := hstep s run (le_refl s) (by omega) h0
    obtain ⟨r', hr', hI⟩ := ih (s + 1) r1
      (fun k r hk hk2 => hstep k r (by omega) (by omega)) h1
    refine ⟨r', ?_, ?_⟩
    · simp only [List.range'_succ, hbf_transfer_blocks, hst, if_true, hr1]
      exact hr'
    · have e : s + (m + 1) = s + 1 + m := by omega
      rw [e]
      exact hI

/-- The validation passes when the descriptor is valid and `fstat` yields the
modtime and size that were captured. -/
theorem validate_source_file_unchanged (t : hbf_transfer_t) (sb : hbf_stat_t) (hfd : 0 < t.fd)
    (hm : sb.st_mtime = t.modtime) (hs : sb.st_size = t.stat_size) :
    validate_source_file (some t) (some sb) = HBF_SUCCESS := by
  simp [validate_source_file, not_le.mpr hfd, hm, hs]

/-- A 2xx answer without etag: the block is transferred and the transfer goes
on. -/
theorem dav_request_no_etag (blk : hbf_block_t) (response : ne_response)
    (hres : response.res = NE_OK) (hklass : response.klass = 2)
    (hetag : response.etag = none ∨ response.etag = some "") :
    ∃ blk' : hbf_block_t,
      dav_request true (some blk) response = some (HBF_TRANSFER_SUCCESS, some blk') ∧
      blk'.state = HBF_TRANSFER_SUCCESS := by
  rcases hetag with h | h <;> simp [dav_request, hres, hklass, h]

/-- The ring order visits no block twice. -/
theorem ring_order_nodup (N s : Nat) :
    ((List.range N).map (fun c => (c + s) % N)).Nodup := by
  apply List.Nodup.map_on _ (List.nodup_range N)
  intro a ha b hb hab
  have ha' : a < N := List.mem_range.mp ha
  have hb' : b < N := List.mem_range.mp hb
  have h1 : a ≡ b [MOD N] := Nat.ModEq.add_right_cancel' s hab
  have h2 : a % N = b % N := h1
  rwa [Nat.mod_eq_of_lt ha', Nat.mod_eq_of_lt hb'] at h2

/-- The ring order visits every block. -/
theorem ring_order_mem (N s b : Nat) (hs : s < N) (hb : b < N) :
    b ∈ (List.range N).map (fun c => (c + s) % N) := by
  refine List.mem_map.mpr ⟨(b + N - s) % N, List.mem_range.mpr (Nat.mod_lt _ (by omega)), ?_⟩
  show ((b + N - s) % N + s) % N = b
  rw [Nat.mod_add_mod]
  have : b + N - s + s = b + N := by omega
  rw [this, Nat.add_mod_right, Nat.mod_eq_of_lt hb]

/-- What a turn of the loop leaves alone: the block count, the descriptor,
the captured modtime and size, the url and the id, and the number of entries
of the block list; the `start_id` too when the state stays
HBF_TRANSFER_SUCCESS. -/
theorem hbf_transfer_block_keeps (env : hbf_env) (cnt : Nat) (run r : hbf_run)
    (h : hbf_transfer_block env cnt run = some r) :
    r.transfer.block_cnt = run.transfer.block_cnt ∧
    r.transfer.fd = run.transfer.fd ∧
    r.transfer.modtime = run.transfer.modtime ∧
    r.transfer.stat_size = run.transfer.stat_size ∧
    r.transfer.block_arr.length = run.transfer.block_arr.length ∧
    (r.state = HBF_TRANSFER_SUCCESS → r.transfer.start_id = run.transfer.start_id) := by
  unfold hbf_transfer_block at h
  dsimp only at h
  repeat' split at h
  all_goals cases h
  all_goals simp

/-- The same for any number of turns. -/
theorem hbf_transfer_blocks_keeps (env : hbf_env) (l : List Nat) (run r : hbf_run)
    (h : hbf_transfer_blocks env l run = some r) :
    r.transfer.block_cnt = run.transfer.block_cnt ∧
    r.transfer.fd = run.transfer.fd ∧
    r.transfer.modtime = run.transfer.modtime ∧
    r.transfer.stat_size = run.transfer.stat_size ∧
    r.transfer.block_arr.length = run.transfer.block_arr.length ∧
    (r.state = HBF_TRANSFER_SUCCESS → r.transfer.start_id = run.transfer.start_id) := by
  induction l generalizing run with
  | nil =>
    simp only [hbf_transfer_blocks, Option.some.injEq] at h
    subst h
    simp
  | cons c rest ih =>
    by_cases hs : run.state = HBF_TRANSFER_SUCCESS
    · simp only [hbf_transfer_blocks, hs, if_true] at h
      cases hb : hbf_transfer_block env c run with
      | none => rw [hb] at h; exact absurd h (by simp)
      | some r1 =>
        rw [hb] at h
        dsimp only at h
        obtain ⟨a1, a2, a3, a4, a5, a6⟩ := ih r1 h
        obtain ⟨b1, b2, b3, b4, b5, b6⟩ := hbf_transfer_block_keeps env c run r1 hb
        refine ⟨a1.trans b1, a2.trans b2, a3.trans b3, a4.trans b4, a5.trans b5, ?_⟩
        intro hfin
        have hmid : r1.state = HBF_TRANSFER_SUCCESS := by
          by_contra hne
          rw [hbf_transfer_blocks_stop env rest _ hne] at h
          simp only [Option.some.injEq] at h
          subst h
          exact hne hfin
        exact (a6 hfin).trans (b6 hmid)
    · simp only [hbf_transfer_blocks, hs, if_false, Option.some.injEq] at h
      subst h
      simp

/-- The run of `hbf_transfer` seen from the turn for the count `c`, when the
turns before it have left the state HBF_TRANSFER_SUCCESS: the turn for `c` is
made, the loop goes on from what it leaves, and the end follows. -/
theorem hbf_transfer_at (env : hbf_env) (t : hbf_transfer_t) (c : Nat) (run : hbf_run)
    (hc : c < t.block_cnt)
    (hreach : hbf_transfer_upto env t c = some run)
    (hstate : run.state = HBF_TRANSFER_SUCCESS) :
    hbf_transfer env true (some t) true =
      ((hbf_transfer_block env c run).bind
        (hbf_transfer_blocks env (List.range' (c + 1) (t.block_cnt - (c + 1))))).map
          (hbf_transfer_finish env) := by
  have hsplit : List.range t.block_cnt =
      List.range c ++ (c :: List.range' (c + 1) (t.block_cnt - (c + 1))) := by
    rw [List.range_eq_range', List.range_eq_range', ← List.range'_succ]
    have h := List.range'_append_1 0 c (t.block_cnt - (c + 1) + 1)
    rw [Nat.zero_add] at h
    rw [h]
    congr 1
    omega
  simp only [hbf_transfer, not_true_eq_false, if_false, reduceCtorEq]
  rw [hsplit, hbf_transfer_blocks_append]
  unfold hbf_transfer_upto at hreach
  rw [hreach]
  simp only [Option.some_bind, hbf_transfer_blocks, hstate, if_true]
  cases hbf_transfer_block env c run <;> rfl

/-- The validation looks at the descriptor and at the captured modtime and
size only. -/
theorem validate_source_file_congr (t t' : hbf_transfer_t) (sb : Option hbf_stat_t)
    (h1 : t'.fd = t.fd) (h2 : t'.modtime = t.modtime) (h3 : t'.stat_size = t.stat_size) :
    validate_source_file (some t') sb = validate_source_file (some t) sb := by
  simp [validate_source_file, h1, h2, h3]

/-- A turn of the loop sends at most one request, after those sent before;
it sends exactly one when it leaves the state HBF_TRANSFER_SUCCESS. -/
theorem hbf_transfer_block_sent (env : hbf_env) (cnt : Nat) (run r : hbf_run)
    (h : hbf_transfer_block env cnt run = some r) :
    run.sent <+: r.sent ∧
    (r.state = HBF_TRANSFER_SUCCESS → r.sent.length = run.sent.length + 1) := by
  unfold hbf_transfer_block at h
  dsimp only at h
  repeat' split at h
  all_goals cases h
  all_goals simp_all

/-- The loop only adds to the requests sent. -/
theorem hbf_transfer_blocks_sent (env : hbf_env) (l : List Nat) (run r : hbf_run)
    (h : hbf_transfer_blocks env l run = some r) :
    run.sent <+: r.sent := by
  induction l generalizing run with
  | nil =>
    simp only [hbf_transfer_blocks, Option.some.injEq] at h
    subst h
    exact List.prefix_refl _
  | cons c rest ih =>
    by_cases hs : run.state = HBF_TRANSFER_SUCCESS
    · simp only [hbf_transfer_blocks, hs, if_true] at h
      cases hb : hbf_transfer_block env c run with
      | none => rw [hb] at h; exact absurd h (by simp)
      | some r1 =>
        rw [hb] at h
        exact List.IsPrefix.trans (hbf_transfer_block_sent env c run r1 hb).1 (ih r1 h)
    · simp only [hbf_transfer_blocks, hs, if_false, Option.some.injEq] at h
      subst h
      exact List.prefix_refl _

/-- The loop variables after one more turn. -/
theorem hbf_transfer_upto_succ (env : hbf_env) (t : hbf_transfer_t) (c : Nat) (run : hbf_run)
    (hreach : hbf_transfer_upto env t c = some run)
    (hstate : run.state = HBF_TRANSFER_SUCCESS) :
    hbf_transfer_upto env t (c + 1) = hbf_transfer_block env c run := by
  unfold hbf_transfer_upto at hreach ⊢
  rw [List.range_succ, hbf_transfer_blocks_append, hreach]
  simp only [Option.some_bind, hbf_transfer_blocks, hstate, if_true]
  cases hbf_transfer_block env c run <;> rfl

/-- When the state after the turns for 0, ..., c - 1 is HBF_TRANSFER_SUCCESS,
each of them has sent one request. -/
theorem hbf_transfer_upto_reach (env : hbf_env) (t : hbf_transfer_t) (c : Nat) :
    ∀ run : hbf_run, hbf_transfer_upto env t c = some run →
      run.state = HBF_TRANSFER_SUCCESS → run.sent.length = c := by
  induction c with
  | zero =>
    intro run hreach _
    simp only [hbf_transfer_upto, List.range_zero, hbf_transfer_blocks,
      Option.some.injEq] at hreach
    subst hreach
    rfl
  | succ m ih =>
    intro run hreach hstate
    have hsplit : hbf_transfer_upto env t (m + 1) =
        (hbf_transfer_upto env t m).bind (hbf_transfer_blocks env [m]) := by
      unfold hbf_transfer_upto
      rw [List.range_succ, hbf_transfer_blocks_append]
    rw [hsplit] at hreach
    cases hm : hbf_transfer_upto env t m with
    | none => rw [hm] at hreach; exact absurd hreach (by simp)
    | some rm =>
      rw [hm] at hreach
      simp only [Option.some_bind] at hreach
      by_cases hs : rm.state = HBF_TRANSFER_SUCCESS
      · simp only [hbf_transfer_blocks, hs, if_true] at hreach
        cases hb : hbf_transfer_block env m rm with
        | none => rw [hb] at hreach; exact absurd hreach (by simp)
        | some r1 =>
          rw [hb] at hreach
          simp only [Option.some.injEq] at hreach
          subst hreach
          rw [(hbf_transfer_block_sent env m rm r1 hb).2 hstate, ih rm hm hs]
      · rw [hbf_transfer_blocks_stop env _ _ hs] at hreach
        simp only [Option.some.injEq] at hreach
        subst hreach
        exact absurd hstate hs

/-- What the turns for 0, ..., c - 1 leave alone. -/
theorem hbf_transfer_upto_keeps (env : hbf_env) (t : hbf_transfer_t) (c : Nat) (run : hbf_run)
    (h : hbf_transfer_upto env t c = some run) :
    run.transfer.block_cnt = t.block_cnt ∧
    run.transfer.fd = t.fd ∧
    run.transfer.modtime = t.modtime ∧
    run.transfer.stat_size = t.stat_size ∧
    run.transfer.block_arr.length = t.block_arr.length ∧
    (run.state = HBF_TRANSFER_SUCCESS → run.transfer.start_id = t.start_id) :=
  hbf_transfer_blocks_keeps env (List.range c)
    { state := HBF_TRANSFER_SUCCESS, transfer := t, sent := [] } run h

/-- The turn for the count `c` of a run that has reached it, when the
validation passes and the request is created: the request for the block
(c + start_id) mod N is dispatched and the outcome of `dav_request` decides. -/
theorem hbf_transfer_turn (env : hbf_env) (t : hbf_transfer_t) (c : Nat) (run : hbf_run)
    (hwf : t.block_arr.length = t.block_cnt) (hc : c < t.block_cnt)
    (hreach : hbf_transfer_upto env t c = some run)
    (hstate : run.state = HBF_TRANSFER_SUCCESS)
    (hval : t.block_cnt > 1 ∧ c > 0 →
      validate_source_file (some t) (env.fstat_before c) = HBF_SUCCESS)
    (hcreate : env.ne_request_create c = true) :
    ∃ (blk : hbf_block_t) (request : hbf_request),
      run.transfer.block_arr[(c + t.start_id) % t.block_cnt]? = some blk ∧
      request.block_id = (c + t.start_id) % t.block_cnt ∧
      request.body_start = blk.start ∧ request.body_size = blk.size ∧
      (dav_request true (some blk) (env.ne_request_dispatch c request) = none →
        hbf_transfer_block env c run = none) ∧
      (∀ (s : Hbf_State) (blk' : hbf_block_t),
        dav_request true (some blk) (env.ne_request_dispatch c request) =
          some (s, some blk') →
        hbf_transfer_block env c run =
          some (if s ≠ HBF_TRANSFER_SUCCESS ∧ s ≠ HBF_SUCCESS then
            { state := HBF_FAIL,
              transfer := { run.transfer with
                block_arr := run.transfer.block_arr.set request.block_id blk',
                error_string := some (env.ne_get_error c),
                start_id := request.block_id,
                status_code := blk'.http_result_code },
              sent := run.sent ++ [request] }
          else
            { state := s,
              transfer := { run.transfer with
                block_arr := run.transfer.block_arr.set request.block_id blk' },
              sent := run.sent ++ [request] })) := by
  obtain ⟨k1, k2, k3, k4, k5, k6⟩ := hbf_transfer_upto_keeps env t c run hreach
  have k6' := k6 hstate
  have hval' : run.transfer.block_cnt > 1 ∧ c > 0 →
      validate_source_file (some run.transfer) (env.fstat_before c) = HBF_SUCCESS := by
    intro h
    rw [validate_source_file_congr t _ _ k2 k3 k4]
    exact hval (by rw [← k1]; exact h)
  obtain ⟨blk, request, h1, h2, _, _, _, h6, h7, h8, h9⟩ :=
    hbf_transfer_block_request env c run hstate
      (by rw [k5, k1]; exact hwf) (by rw [k1]; omega) hval' hcreate
  rw [k6', k1] at h1 h2
  exact ⟨blk, request, h1, h2, h6, h7, h8, h9⟩

/-- The turn for a count `c` of at least 1 of a transfer with several blocks,
when the validation does not pass: the state is what the validation yields
and nothing is sent. -/
theorem hbf_transfer_block_not_valid (env : hbf_env) (c : Nat) (run : hbf_run)
    (hN : run.transfer.block_cnt > 1) (hc : c > 0)
    (hval : validate_source_file (some run.transfer) (env.fstat_before c) ≠ HBF_SUCCESS)
    (hval2 : validate_source_file (some run.transfer) (env.fstat_before c) ≠
      HBF_TRANSFER_SUCCESS) :
    hbf_transfer_block env c run =
      some { run with
        state := validate_source_file (some run.transfer) (env.fstat_before c) } := by
  unfold hbf_transfer_block
  simp [hN, hc, hval, hval2]

/-- The failures `dav_request` knows: the state it returns for each and the
block it leaves. -/
theorem dav_request_failure (blk : hbf_block_t) (response : ne_response) (kind : Hbf_State)
    (h : (response.res = NE_OK ∧ response.klass ≠ 2 ∧ kind = HBF_FAIL) ∨
      (response.res = NE_AUTH ∧ kind = HBF_AUTH_FAIL) ∨
      (response.res = NE_PROXYAUTH ∧ kind = HBF_PROXY_AUTH_FAIL) ∨
      (response.res = NE_CONNECT ∧ kind = HBF_CONNECT_FAIL) ∨
      (response.res = NE_TIMEOUT ∧ kind = HBF_TIMEOUT_FAIL) ∨
      (response.res = NE_ERROR ∧ kind = HBF_FAIL)) :
    ∃ blk' : hbf_block_t,
      dav_request true (some blk) response = some (kind, some blk') ∧
      kind ≠ HBF_TRANSFER_SUCCESS ∧ kind ≠ HBF_SUCCESS ∧
      blk'.state = HBF_TRANSFER_FAILED ∧
      blk'.http_result_code = response.code ∧
      (∀ reason, response.reason_phrase = some reason → blk'.http_error_msg = some reason) := by
  rcases h with ⟨h1, h2, rfl⟩ | ⟨h1, rfl⟩ | ⟨h1, rfl⟩ | ⟨h1, rfl⟩ | ⟨h1, rfl⟩ | ⟨h1, rfl⟩ <;>
    refine ⟨_, by simp [dav_request, h1, NE_OK, NE_AUTH, NE_PROXYAUTH, NE_CONNECT, NE_TIMEOUT,
      NE_ERROR, *]; rfl, by decide, by decide, rfl, rfl, ?_⟩ <;>
    intro reason hr <;> simp [hr]

/-- The turn of `hbf_transfer` whose request fails in one of the ways
`dav_request` knows: what `dav_request` yields and records, and how
`hbf_transfer` ends. -/
theorem hbf_transfer_failure_turn (env : hbf_env) (t : hbf_transfer_t) (c : Nat)
    (run : hbf_run) (kind : Hbf_State)
    (hwf : t.block_arr.length = t.block_cnt) (hc : c < t.block_cnt)
    (hreach : hbf_transfer_upto env t c = some run)
    (hstate : run.state = HBF_TRANSFER_SUCCESS)
    (hval : t.block_cnt > 1 ∧ c > 0 →
      validate_source_file (some t) (env.fstat_before c) = HBF_SUCCESS)
    (hcreate : env.ne_request_create c = true)
    (hresp : ∀ request,
      ((env.ne_request_dispatch c request).res = NE_OK ∧
        (env.ne_request_dispatch c request).klass ≠ 2 ∧ kind = HBF_FAIL) ∨
      ((env.ne_request_dispatch c request).res = NE_AUTH ∧ kind = HBF_AUTH_FAIL) ∨
      ((env.ne_request_dispatch c request).res = NE_PROXYAUTH ∧ kind = HBF_PROXY_AUTH_FAIL) ∨
      ((env.ne_request_dispatch c request).res = NE_CONNECT ∧ kind = HBF_CONNECT_FAIL) ∨
      ((env.ne_request_dispatch c request).res = NE_TIMEOUT ∧ kind = HBF_TIMEOUT_FAIL) ∨
      ((env.ne_request_dispatch c request).res = NE_ERROR ∧ kind = HBF_FAIL)) :
    ∃ (blk blk' : hbf_block_t) (request : hbf_request) (t' : hbf_transfer_t),
      run.transfer.block_arr[(c + t.start_id) % t.block_cnt]? = some blk ∧
      request.block_id = (c + t.start_id) % t.block_cnt ∧
      dav_request true (some blk) (env.ne_request_dispatch c request) =
        some (kind, some blk') ∧
      blk'.state = HBF_TRANSFER_FAILED ∧
      blk'.http_result_code = (env.ne_request_dispatch c request).code ∧
      (∀ reason, (env.ne_request_dispatch c request).reason_phrase = some reason →
        blk'.http_error_msg = some reason) ∧
      hbf_transfer env true (some t) true =
        some { state := HBF_FAIL, transfer := some t', sent := run.sent ++ [request] } ∧
      t'.block_arr[(c + t.start_id) % t.block_cnt]? = some blk' ∧
      t'.start_id = (c + t.start_id) % t.block_cnt ∧
      t'.status_code = (env.ne_request_dispatch c request).code ∧
      t'.block_cnt = t.block_cnt ∧ t'.block_arr.length = t.block_cnt := by
  obtain ⟨k1, _, _, _, k5, _⟩ := hbf_transfer_upto_keeps env t c run hreach
  obtain ⟨blk, request, h1, h2, _, _, _, hstep⟩ :=
    hbf_transfer_turn env t c run hwf hc hreach hstate hval hcreate
  have hlt : (c + t.start_id) % t.block_cnt < run.transfer.block_arr.length := by
    rw [k5, hwf]
    exact Nat.mod_lt _ (by omega)
  obtain ⟨blk', hb, hk1, hk2, hb2, hb3, hb4⟩ :=
    dav_request_failure blk (env.ne_request_dispatch c request) kind (hresp request)
  have hstep' := hstep kind blk' hb
  rw [if_pos ⟨hk1, hk2⟩] at hstep'
  have hout := hbf_transfer_at env t c run hc hreach hstate
  rw [hstep', Option.some_bind, hbf_transfer_blocks_stop env _ _ (by simp)] at hout
  refine ⟨blk, blk', request,
    { run.transfer with
      block_arr := run.transfer.block_arr.set request.block_id blk',
      error_string := some (env.ne_get_error c),
      start_id := request.block_id,
      status_code := blk'.http_result_code },
    h1, h2, hb, hb2, hb3, hb4, by rw [hout]; rfl, ?_, h2, hb3, k1, ?_⟩
  · rw [h2]
    exact List.getElem?_set_self hlt
  · simp [k5, hwf]

/-- The first request of a run is the one for block `start_id` mod N. -/
theorem hbf_transfer_first_block (env : hbf_env) (t : hbf_transfer_t)
    (hwf : t.block_arr.length = t.block_cnt) (hN : 0 < t.block_cnt)
    (hcreate : env.ne_request_create 0 = true) :
    ∃ request : hbf_request, request.block_id = t.start_id % t.block_cnt ∧
      ∀ out, hbf_transfer env true (some t) true = some out → [request] <+: out.sent := by
  obtain ⟨blk, request, _, h2, _, _, hnone, hstep⟩ :=
    hbf_transfer_turn env t 0 { state := HBF_TRANSFER_SUCCESS, transfer := t, sent := [] }
      hwf hN rfl rfl (fun h => absurd h.2 (by decide)) hcreate
  refine ⟨request, by simpa using h2, ?_⟩
  intro out hout
  rw [hbf_transfer_at env t 0 _ hN rfl rfl] at hout
  cases hb : hbf_transfer_block env 0
      { state := HBF_TRANSFER_SUCCESS, transfer := t, sent := [] } with
  | none =>
    rw [hb] at hout
    exact absurd hout (by simp)
  | some r1 =>
    rw [hb, Option.some_bind] at hout
    have hs : r1.sent = [request] := by
      cases hdav : dav_request true (some blk) (env.ne_request_dispatch 0 request) with
      | none =>
        rw [hnone hdav] at hb
        exact absurd hb (by simp)
      | some r =>
        obtain ⟨blk', hr2, _⟩ := dav_request_some blk _ r hdav
        have hr : r = (r.1, some blk') := Prod.ext rfl hr2
        rw [hr] at hdav
        have := hstep r.1 blk' hdav
        rw [hb] at this
        simp only [Option.some.injEq] at this
        rw [this]
        split <;> rfl
    cases hrest : hbf_transfer_blocks env (List.range' (0 + 1) (t.block_cnt - (0 + 1))) r1 with
    | none =>
      rw [hrest] at hout
      exact absurd hout (by simp)
    | some rr =>
      rw [hrest] at hout
      simp only [Option.map_some', Option.some.injEq] at hout
      subst hout
      have hp := hbf_transfer_blocks_sent env _ r1 rr hrest
      rw [hs] at hp
      exact hp

end hbf_lemmas

/-! ## The block plan of `hbf_splitlist` -/

/-- C11: split completeness. For a valid descriptor, a source size of at least
0 and a positive block size: of the blocks that a successful `hbf_splitlist`
leaves, there are `block_cnt`; their sizes add up to the source size; block 0
starts at offset 0; each later block starts where the one before it ends,
which is a larger offset; block `i` has sequence number `i` and state
HBF_NOT_TRANSFERED; and a source of size 0 has exactly one block, of size 0.
The call is successful when the count of blocks, the size divided by the block
size and rounded up, is at most `INT_MAX`; for a larger count, which the `int`
counter of the loop cannot reach, it has no result. -/
theorem hbf_splitlist_complete (t : hbf_transfer_t) (fd : Int) (sb : hbf_stat_t) (id : Int)
    (hfd : 0 < fd) (hsize : 0 ≤ sb.st_size) (hblk : 0 < t.block_size) :
    (∀ t' : hbf_transfer_t,
      hbf_splitlist (some t) fd (some sb) id = some (HBF_SUCCESS, some t') →
      t'.block_arr.length = t'.block_cnt ∧
      (t'.block_arr.map (fun blk => blk.size)).sum = sb.st_size ∧
      (∀ blk, t'.block_arr[0]? = some blk → blk.start = 0) ∧
      (∀ (i : Nat) (blk next : hbf_block_t),
        t'.block_arr[i]? = some blk → t'.block_arr[i + 1]? = some next →
        next.start = blk.start + blk.size ∧ blk.start < next.start) ∧
      (∀ (i : Nat) (blk : hbf_block_t), t'.block_arr[i]? = some blk →
        blk.seq_number = i ∧ blk.state = HBF_NOT_TRANSFERED) ∧
      (sb.st_size = 0 → ∃ blk, t'.block_arr = [blk] ∧ blk.size = 0 ∧ blk.start = 0)) ∧
    (Int.ceil ((sb.st_size : ℚ) / (t.block_size : ℚ)) ≤ INT_MAX →
      ∃ t' : hbf_transfer_t,
        hbf_splitlist (some t) fd (some sb) id = some (HBF_SUCCESS, some t')) ∧
    (INT_MAX < Int.ceil ((sb.st_size : ℚ) / (t.block_size : ℚ)) →
      hbf_splitlist (some t) fd (some sb) id = none) := by
  obtain ⟨n, b, r, hn, hr0, hr1, hzero, hpos, hsum, heq⟩ :=
    hbf_splitlist_eq t fd sb id hfd hsize hblk
  have hceil : 0 < sb.st_size → (n : Int) = Int.ceil ((sb.st_size : ℚ) / (t.block_size : ℚ)) := by
    intro hp
    have hb := hpos hp
    subst hb
    exact hbf_splitlist_count_ceil n sb.st_size t.block_size r hblk hr1 hsum
  have hceil0 : sb.st_size = 0 →
      (n : Int) = 1 ∧ Int.ceil ((sb.st_size : ℚ) / (t.block_size : ℚ)) = 0 := by
    intro hz
    refine ⟨by rw [(hzero hz).1]; rfl, ?_⟩
    rw [hz]
    simp
  refine ⟨?_, ?_, ?_⟩
  · intro t' ht'
    rw [heq] at ht'
    split at ht'
    · exact absurd ht' (by simp)
    simp only [Option.some.injEq, Prod.mk.injEq, true_and] at ht'
    subst ht'
    refine ⟨by simp, ?_, ?_, ?_, ?_, ?_⟩
    · show (((List.range n).map (hbf_splitlist_block (n : Int) b r)).map
        (fun blk => blk.size)).sum = sb.st_size
      rw [hbf_splitlist_block_sizes_sum n b r hn, hsum]
    · intro blk h
      obtain ⟨_, rfl⟩ := hbf_splitlist_block_arr_getElem? n b r 0 blk h
      simp [hbf_splitlist_block]
    · intro i blk next h1 h2
      obtain ⟨_, rfl⟩ := hbf_splitlist_block_arr_getElem? n b r i blk h1
      obtain ⟨hi, rfl⟩ := hbf_splitlist_block_arr_getElem? n b r (i + 1) next h2
      have hb : b = t.block_size := by
        apply hpos
        rcases lt_or_eq_of_le hsize with h | h
        · exact h
        · have := (hzero h.symm).1
          omega
      have hlast : ¬ ((i : Int) = (n : Int) - 1) := by omega
      have hstart : (if i > 0 then (i : Int) * b else 0) = (i : Int) * b := by
        split
        · rfl
        · have : i = 0 := by omega
          simp [this]
      simp only [hbf_splitlist_block, hstart]
      have hsz : (if (i : Int) = (n : Int) - 1 ∧ r > 0 then r else b) = b := by
        rw [if_neg (fun h => hlast h.1)]
      rw [hsz]
      constructor
      · simp
        ring
      · simp
        rw [hb]
        nlinarith
    · intro i blk h
      obtain ⟨_, rfl⟩ := hbf_splitlist_block_arr_getElem? n b r i blk h
      exact ⟨rfl, rfl⟩
    · intro hz
      obtain ⟨h1, h2, h3⟩ := hzero hz
      subst h1 h2 h3
      exact ⟨_, rfl, by simp [hbf_splitlist_block], by simp [hbf_splitlist_block]⟩
  · intro hcnt
    have hle : ¬ INT_MAX < (n : Int) := by
      rcases lt_or_eq_of_le hsize with h | h
      · rw [hceil h]
        exact not_lt.mpr hcnt
      · rw [(hceil0 h.symm).1]
        decide
    rw [heq, if_neg hle]
    exact ⟨_, rfl⟩
  · intro hcnt
    have hlt : INT_MAX < (n : Int) := by
      rcases lt_or_eq_of_le hsize with h | h
      · rw [hceil h]
        exact hcnt
      · rw [(hceil0 h.symm).2] at hcnt
        exact absurd hcnt (by decide)
    rw [heq, if_pos hlt]

/-- C11 at a sample input: 25 bytes in blocks of 10 bytes are split into the
blocks [0, 10), [10, 20) and [20, 25). -/
theorem hbf_splitlist_complete_witness :
    (hbf_splitlist (some { hbf_init_transfer "u" with block_size := 10 }) 3
        (some ⟨25, 100⟩) 77).map
      (fun r => (r.1, r.2.map
        (fun t => t.block_arr.map (fun blk => (blk.seq_number, blk.start, blk.size))))) =
      some (HBF_SUCCESS, some [(0, 0, 10), (1, 10, 10), (2, 20, 5)]) ∧
    ∃ t' : hbf_transfer_t,
      hbf_splitlist (some { hbf_init_transfer "u" with block_size := 10 }) 3 (some ⟨25, 100⟩) 77 =
        some (HBF_SUCCESS, some t') ∧
      t'.block_arr.length = t'.block_cnt ∧
      (t'.block_arr.map (fun blk => blk.size)).sum = 25 ∧
      (∀ blk, t'.block_arr[0]? = some blk → blk.start = 0) ∧
      (∀ (i : Nat) (blk next : hbf_block_t),
        t'.block_arr[i]? = some blk → t'.block_arr[i + 1]? = some next →
        next.start = blk.start + blk.size ∧ blk.start < next.start) ∧
      (∀ (i : Nat) (blk : hbf_block_t), t'.block_arr[i]? = some blk →
        blk.seq_number = i ∧ blk.state = HBF_NOT_TRANSFERED) ∧
      ((25 : Int) = 0 → ∃ blk, t'.block_arr = [blk] ∧ blk.size = 0 ∧ blk.start = 0) := by
  refine ⟨by decide, ?_⟩
  have h := hbf_splitlist_complete { hbf_init_transfer "u" with block_size := 10 } 3
    ⟨25, 100⟩ 77 (by decide) (by decide) (by decide)
  obtain ⟨t', ht'⟩ := h.2.1 (by
    rw [Int.ceil_le]
    norm_num [INT_MAX])
  exact ⟨t', ht', h.1 t' ht'⟩

/-- C12, as the code has it. For a source size of at least 0 and a positive
block size for which the count of blocks, the size divided by the block size
and rounded up, is at most `INT_MAX`: with a valid descriptor `hbf_splitlist`
succeeds and sets `block_cnt` to 1 for size 0 and to that count for a positive
size. With a descriptor that is not positive, or without a transfer, it
returns HBF_PARAM_FAIL and the transfer is as it was. -/
theorem hbf_splitlist_block_cnt (t : hbf_transfer_t) (fd : Int) (sb : hbf_stat_t) (id : Int)
    (sbo : Option hbf_stat_t) (hsize : 0 ≤ sb.st_size) (hblk : 0 < t.block_size)
    (hcnt : Int.ceil ((sb.st_size : ℚ) / (t.block_size : ℚ)) ≤ INT_MAX) :
    (0 < fd → ∃ t' : hbf_transfer_t,
      hbf_splitlist (some t) fd (some sb) id = some (HBF_SUCCESS, some t') ∧
      (sb.st_size = 0 → t'.block_cnt = 1) ∧
      (0 < sb.st_size →
        (t'.block_cnt : Int) = Int.ceil ((sb.st_size : ℚ) / (t.block_size : ℚ)))) ∧
    (fd ≤ 0 → hbf_splitlist (some t) fd sbo id = some (HBF_PARAM_FAIL, some t)) ∧
    hbf_splitlist none fd sbo id = some (HBF_PARAM_FAIL, none) := by
  refine ⟨?_, ?_, rfl⟩
  · intro hfd
    obtain ⟨n, b, r, hn, hr0, hr1, hzero, hpos, hsum, heq⟩ :=
      hbf_splitlist_eq t fd sb id hfd hsize hblk
    have hceil : 0 < sb.st_size →
        (n : Int) = Int.ceil ((sb.st_size : ℚ) / (t.block_size : ℚ)) := by
      intro hp
      have hb := hpos hp
      subst hb
      exact hbf_splitlist_count_ceil n sb.st_size t.block_size r hblk hr1 hsum
    have hle : ¬ INT_MAX < (n : Int) := by
      rcases lt_or_eq_of_le hsize with h | h
      · rw [hceil h]
        exact not_lt.mpr hcnt
      · rw [(hzero h.symm).1]
        decide
    rw [if_neg hle] at heq
    exact ⟨_, heq, fun hz => (hzero hz).1, hceil⟩
  · intro hfd
    simp [hbf_splitlist, hfd]

/-- C12 at a sample input: 25 bytes in blocks of 10 bytes make 3 blocks. -/
theorem hbf_splitlist_block_cnt_witness :
    (hbf_splitlist (some { hbf_init_transfer "u" with block_size := 10 }) 3
        (some ⟨25, 100⟩) 77).map (fun r => r.2.map (fun t => t.block_cnt)) = some (some 3) ∧
    ∃ t' : hbf_transfer_t,
      hbf_splitlist (some { hbf_init_transfer "u" with block_size := 10 }) 3 (some ⟨25, 100⟩) 77 =
        some (HBF_SUCCESS, some t') ∧
      ((25 : Int) = 0 → t'.block_cnt = 1) ∧
      ((0 : Int) < 25 → (t'.block_cnt : Int) = Int.ceil (((25 : Int) : ℚ) / ((10 : Int) : ℚ))) :=
  ⟨by decide,
    (hbf_splitlist_block_cnt { hbf_init_transfer "u" with block_size := 10 } 3 ⟨25, 100⟩ 77 none
      (by decide) (by decide) (by
        rw [Int.ceil_le]
        norm_num [INT_MAX])).1 (by decide)⟩

/-- C12 as stated fails: a source of 4294967296 bytes with the block size 1
has 4294967296 blocks, more than `INT_MAX`. The `int` field `block_cnt` cannot
hold this count (an `int` takes the value 0 from it), and the call has no
result, since the `int` counter of the loop over the blocks overflows before
the loop ends. -/
theorem hbf_splitlist_block_cnt_overflow :
    Int.tdiv 4294967296 1 = 4294967296 ∧ INT_MAX < 4294967296 ∧
    int32 4294967296 = 0 ∧
    hbf_splitlist (some { hbf_init_transfer "u" with block_size := 1 }) 3
      (some ⟨4294967296, 100⟩) 77 = none := by
  decide

/-! ## The URL of a block -/

/-- C13: the url scheme. For a transfer with `block_cnt` blocks and an index
below `block_cnt`, `get_transfer_url` yields the base url when `block_cnt` is
1, and the base url followed by "-chunking-", the transfer id, "-", the block
count, "-" and the index, all three in decimal, when `block_cnt` is larger;
for an index that is not below `block_cnt` it yields no url. -/
theorem get_transfer_url_scheme (t : hbf_transfer_t) (i : Nat)
    (hwf : t.block_arr.length = t.block_cnt) :
    (i < t.block_cnt → t.block_cnt = 1 → get_transfer_url (some t) i = some t.url) ∧
    (i < t.block_cnt → 1 < t.block_cnt →
      get_transfer_url (some t) i =
        some (t.url ++ "-chunking-" ++ toString t.transfer_id ++ "-" ++
          toString t.block_cnt ++ "-" ++ toString i)) ∧
    (t.block_cnt ≤ i → get_transfer_url (some t) i = none) := by
  refine ⟨?_, ?_, ?_⟩
  · intro hi h1
    have hlt : i < t.block_arr.length := by omega
    simp [get_transfer_url, not_le.mpr hi, List.getElem?_eq_getElem hlt, h1]
    omega
  · intro hi h1
    have hlt : i < t.block_arr.length := by omega
    have hne : t.block_cnt ≠ 1 := by omega
    simp only [get_transfer_url, ge_iff_le, not_le.mpr hi, if_false,
      List.getElem?_eq_getElem hlt, hne]
    rfl
  · intro hi
    simp [get_transfer_url, hi]

/-- C13 at a sample input: block 2 of the 3 blocks of the transfer with id 77
to "u" goes to "u-chunking-77-3-2". -/
theorem get_transfer_url_scheme_witness :
    get_transfer_url
        ((hbf_splitlist (some { hbf_init_transfer "u" with block_size := 10 }) 3
          (some ⟨25, 100⟩) 77).bind (fun r => r.2)) 2 = some "u-chunking-77-3-2" ∧
    get_transfer_url
        (some { hbf_init_transfer "u" with
          block_cnt := 3, transfer_id := 77,
          block_arr := (List.range 3).map (hbf_splitlist_block 3 10 5) }) 2 =
      some ("u" ++ "-chunking-" ++ toString (77 : Int) ++ "-" ++ toString 3 ++ "-" ++
        toString 2) :=
  ⟨by decide,
    (get_transfer_url_scheme
      { hbf_init_transfer "u" with
        block_cnt := 3, transfer_id := 77,
        block_arr := (List.range 3).map (hbf_splitlist_block 3 10 5) } 2 (by decide)).2.1
      (by decide) (by decide)⟩

/-! ## The transfer loop -/

/-- The part of C15 that holds: when the request for block
k = (c + start_id) mod N fails in one of the ways `dav_request` knows,
`hbf_transfer` sends nothing after it, returns HBF_FAIL and leaves
`start_id` = k and `status_code` = the status code recorded for the block; and
a following `hbf_transfer` on the transfer that is left sends the request for
block k first. -/
theorem hbf_transfer_resume (env env2 : hbf_env) (t : hbf_transfer_t) (c : Nat)
    (run : hbf_run) (kind : Hbf_State)
    (hwf : t.block_arr.length = t.block_cnt) (hc : c < t.block_cnt)
    (hreach : hbf_transfer_upto env t c = some run)
    (hstate : run.state = HBF_TRANSFER_SUCCESS)
    (hval : t.block_cnt > 1 ∧ c > 0 →
      validate_source_file (some t) (env.fstat_before c) = HBF_SUCCESS)
    (hcreate : env.ne_request_create c = true)
    (hresp : ∀ request,
      ((env.ne_request_dispatch c request).res = NE_OK ∧
        (env.ne_request_dispatch c request).klass ≠ 2 ∧ kind = HBF_FAIL) ∨
      ((env.ne_request_dispatch c request).res = NE_AUTH ∧ kind = HBF_AUTH_FAIL) ∨
      ((env.ne_request_dispatch c request).res = NE_PROXYAUTH ∧ kind = HBF_PROXY_AUTH_FAIL) ∨
      ((env.ne_request_dispatch c request).res = NE_CONNECT ∧ kind = HBF_CONNECT_FAIL) ∨
      ((env.ne_request_dispatch c request).res = NE_TIMEOUT ∧ kind = HBF_TIMEOUT_FAIL) ∨
      ((env.ne_request_dispatch c request).res = NE_ERROR ∧ kind = HBF_FAIL))
    (hcreate2 : env2.ne_request_create 0 = true) :
    ∃ (blk' : hbf_block_t) (request : hbf_request) (t' : hbf_transfer_t),
      request.block_id = (c + t.start_id) % t.block_cnt ∧
      hbf_transfer env true (some t) true =
        some { state := HBF_FAIL, transfer := some t', sent := run.sent ++ [request] } ∧
      t'.block_arr[(c + t.start_id) % t.block_cnt]? = some blk' ∧
      t'.start_id = (c + t.start_id) % t.block_cnt ∧
      t'.status_code = blk'.http_result_code ∧
      ∃ again : hbf_request, again.block_id = (c + t.start_id) % t.block_cnt ∧
        ∀ out2, hbf_transfer env2 true (some t') true = some out2 →
          [again] <+: out2.sent := by
  obtain ⟨blk, blk', request, t', _, h2, _, _, h5, _, h7, h10, h11, h12, h13, h14⟩ :=
    hbf_transfer_failure_turn env t c run kind hwf hc hreach hstate hval hcreate hresp
  obtain ⟨again, ha, hpre⟩ := hbf_transfer_first_block env2 t' (by rw [h14, h13])
    (by rw [h13]; omega) hcreate2
  refine ⟨blk', request, t', h2, h7, h10, h11, by rw [h12, h5], again, ?_, hpre⟩
  rw [ha, h11, h13]
  exact Nat.mod_eq_of_lt (Nat.mod_lt _ (by omega))

/-- C15 at an input where the code departs from it: 3 blocks, `start_id` 0;
the dispatch of the first request ends with NE_LOOKUP (the host name is not
resolved), the other requests are answered 201. The transfer does not stop
at block 0: all three requests are sent, `hbf_transfer` returns
HBF_TRANSFER_SUCCESS, and block 0 is left in state HBF_NOT_TRANSFERED. -/
theorem hbf_transfer_lookup_failure :
    (hbf_transfer
        (hbf_env0 25 (some ⟨25, 100⟩)
          (fun c _ => if c = 0 then ⟨NE_LOOKUP, 0, 0, none, none⟩ else ne_created none))
        true (some (hbf_t0 25 10)) true).map (fun out => out.sent.map (fun r => r.block_id)) =
      some [0, 1, 2] ∧
    (hbf_transfer
        (hbf_env0 25 (some ⟨25, 100⟩)
          (fun c _ => if c = 0 then ⟨NE_LOOKUP, 0, 0, none, none⟩ else ne_created none))
        true (some (hbf_t0 25 10)) true).map (fun out => out.state) =
      some HBF_TRANSFER_SUCCESS ∧
    (hbf_transfer
        (hbf_env0 25 (some ⟨25, 100⟩)
          (fun c _ => if c = 0 then ⟨NE_LOOKUP, 0, 0, none, none⟩ else ne_created none))
        true (some (hbf_t0 25 10)) true).bind
      (fun out => out.transfer.map
        (fun t => (t.start_id, t.status_code, t.block_arr.map (fun blk => blk.state)))) =
      some (0, 200, [HBF_NOT_TRANSFERED, HBF_TRANSFER_SUCCESS, HBF_TRANSFER_SUCCESS]) := by
  decide

/-- The part of C17 that holds. A request that is dispatched and answered 2xx:
`dav_request` yields HBF_SUCCESS when the answer has a non-empty `ETag` header
other than a single double quote, and HBF_TRANSFER_SUCCESS when it has none or
an empty one, and leaves the block in state HBF_TRANSFER_SUCCESS; for the
`ETag` header that is a single double quote it has no result. For a run of
`hbf_transfer` that reaches the count `c`, passes the validation there and
gets its request created and answered 2xx: with such an etag the request for
block (c + start_id) mod N is the last one sent and `hbf_transfer` returns what
the final validation yields, which is HBF_SUCCESS when `fstat` yields the
captured modtime and size; without etag the loop goes on in state
HBF_TRANSFER_SUCCESS, and when the next count is below N, passes the
validation and gets its request created, the next request sent is the one for
block (c + 1 + start_id) mod N; with the single double quote `hbf_transfer`
has no result. -/
theorem hbf_transfer_answer_2xx (env : hbf_env) (t : hbf_transfer_t) (c : Nat)
    (run : hbf_run)
    (hwf : t.block_arr.length = t.block_cnt) (hc : c < t.block_cnt) (hfd : 0 < t.fd)
    (hreach : hbf_transfer_upto env t c = some run)
    (hstate : run.state = HBF_TRANSFER_SUCCESS)
    (hval : t.block_cnt > 1 ∧ c > 0 →
      validate_source_file (some t) (env.fstat_before c) = HBF_SUCCESS)
    (hcreate : env.ne_request_create c = true)
    (hresp : ∀ request, (env.ne_request_dispatch c request).res = NE_OK ∧
      (env.ne_request_dispatch c request).klass = 2) :
    (∀ (blk : hbf_block_t) (response : ne_response),
      response.res = NE_OK → response.klass = 2 →
      ((∃ etag, response.etag = some etag ∧ etag ≠ "" ∧ etag ≠ "\"") →
        ∃ blk' : hbf_block_t,
          dav_request true (some blk) response = some (HBF_SUCCESS, some blk') ∧
          blk'.state = HBF_TRANSFER_SUCCESS) ∧
      (response.etag = none ∨ response.etag = some "" →
        ∃ blk' : hbf_block_t,
          dav_request true (some blk) response = some (HBF_TRANSFER_SUCCESS, some blk') ∧
          blk'.state = HBF_TRANSFER_SUCCESS) ∧
      (response.etag = some "\"" → dav_request true (some blk) response = none)) ∧
    ((∀ request, ∃ etag, (env.ne_request_dispatch c request).etag = some etag ∧ etag ≠ "" ∧
        etag ≠ "\"") →
      ∃ (request : hbf_request) (t' : hbf_transfer_t) (blk' : hbf_block_t),
        request.block_id = (c + t.start_id) % t.block_cnt ∧
        hbf_transfer env true (some t) true =
          some { state := validate_source_file (some t) env.fstat_final,
                 transfer := some t', sent := run.sent ++ [request] } ∧
        t'.block_arr[(c + t.start_id) % t.block_cnt]? = some blk' ∧
        blk'.state = HBF_TRANSFER_SUCCESS ∧
        (∀ sb, env.fstat_final = some sb → sb.st_mtime = t.modtime →
          sb.st_size = t.stat_size →
          validate_source_file (some t) env.fstat_final = HBF_SUCCESS)) ∧
    ((∀ request, (env.ne_request_dispatch c request).etag = none ∨
        (env.ne_request_dispatch c request).etag = some "") →
      ∃ (request : hbf_request) (run1 : hbf_run),
        request.block_id = (c + t.start_id) % t.block_cnt ∧
        hbf_transfer_upto env t (c + 1) = some run1 ∧
        run1.state = HBF_TRANSFER_SUCCESS ∧ run1.sent = run.sent ++ [request] ∧
        (c + 1 < t.block_cnt →
          validate_source_file (some t) (env.fstat_before (c + 1)) = HBF_SUCCESS →
          env.ne_request_create (c + 1) = true →
          ∃ next : hbf_request,
            next.block_id = (c + 1 + t.start_id) % t.block_cnt ∧
            ∀ out, hbf_transfer env true (some t) true = some out →
              run.sent ++ [request, next] <+: out.sent)) ∧
    ((∀ request, (env.ne_request_dispatch c request).etag = some "\"") →
      hbf_transfer env true (some t) true = none) := by
  obtain ⟨k1, k2, k3, k4, k5, k6⟩ := hbf_transfer_upto_keeps env t c run hreach
  obtain ⟨blk, request, h1, h2, _, _, hnone, hstep⟩ :=
    hbf_transfer_turn env t c run hwf hc hreach hstate hval hcreate
  have hlt : (c + t.start_id) % t.block_cnt < run.transfer.block_arr.length := by
    rw [k5, hwf]
    exact Nat.mod_lt _ (by omega)
  have hquote : ∀ (b : hbf_block_t) (response : ne_response),
      response.res = NE_OK → response.klass = 2 → response.etag = some "\"" →
      dav_request true (some b) response = none := by
    intro b response hres hklass he
    have hq : dav_request_etag "\"" = none := (dav_request_etag_eq_none _).mpr rfl
    have hne : ("\"" : String) ≠ "" := by decide
    simp [dav_request, hres, hklass, he, hne, hq]
  refine ⟨?_, ?_, ?_, ?_⟩
  · intro b response hres hklass
    refine ⟨?_, ?_, hquote b response hres hklass⟩
    · rintro ⟨etag, he, hne, hq⟩
      cases hst : dav_request_etag etag with
      | none => exact absurd ((dav_request_etag_eq_none etag).mp hst) hq
      | some stored =>
        obtain ⟨b', hb, hb2, _⟩ :=
          dav_request_with_etag b response etag stored hres hklass he hne hst
        exact ⟨b', hb, hb2⟩
    · intro he
      exact dav_request_no_etag b response hres hklass he
  · intro hetag
    obtain ⟨etag, he, hne, hq⟩ := hetag request
    cases hst : dav_request_etag etag with
    | none => exact absurd ((dav_request_etag_eq_none etag).mp hst) hq
    | some stored =>
      obtain ⟨blk', hb, hb2, _⟩ := dav_request_with_etag blk
        (env.ne_request_dispatch c request) etag stored (hresp request).1 (hresp request).2
        he hne hst
      have hstep' := hstep _ _ hb
      simp only [ne_eq, reduceCtorEq, not_false_eq_true, not_true_eq_false, and_false,
        if_false] at hstep'
      have hout := hbf_transfer_at env t c run hc hreach hstate
      rw [hstep', Option.some_bind, hbf_transfer_blocks_stop env _ _ (by simp)] at hout
      refine ⟨request,
        { run.transfer with block_arr := run.transfer.block_arr.set request.block_id blk' },
        blk', h2, ?_, ?_, hb2, ?_⟩
      · have hv : validate_source_file
            (some { run.transfer with
              block_arr := run.transfer.block_arr.set request.block_id blk' })
            env.fstat_final = validate_source_file (some t) env.fstat_final :=
          validate_source_file_congr t _ _ k2 k3 k4
        rw [hout]
        simp only [Option.map_some', hbf_transfer_finish, if_true, hv]
      · rw [h2]
        exact List.getElem?_set_self hlt
      · intro sb hsb hm hsz
        rw [hsb]
        exact validate_source_file_unchanged t sb hfd hm hsz
  · intro hetag
    obtain ⟨blk', hb, hb2⟩ := dav_request_no_etag blk (env.ne_request_dispatch c request)
      (hresp request).1 (hresp request).2 (hetag request)
    have hstep' := hstep _ _ hb
    simp only [ne_eq, not_true_eq_false, false_and, if_false] at hstep'
    have hnext := hbf_transfer_upto_succ env t c run hreach hstate
    rw [hstep'] at hnext
    refine ⟨request,
      { state := HBF_TRANSFER_SUCCESS,
        transfer := { run.transfer with
          block_arr := run.transfer.block_arr.set request.block_id blk' },
        sent := run.sent ++ [request] }, h2, hnext, rfl, rfl, ?_⟩
    intro hc1 hval1 hcreate1
    obtain ⟨blk1, next, _, g2, _, _, gnone, gstep⟩ :=
      hbf_transfer_turn env t (c + 1) _ hwf hc1 hnext rfl (fun _ => hval1) hcreate1
    refine ⟨next, g2, ?_⟩
    intro out hout
    rw [hbf_transfer_at env t (c + 1) _ hc1 hnext rfl] at hout
    cases hb1 : hbf_transfer_block env (c + 1)
        { state := HBF_TRANSFER_SUCCESS,
          transfer := { run.transfer with
            block_arr := run.transfer.block_arr.set request.block_id blk' },
          sent := run.sent ++ [request] } with
    | none =>
      rw [hb1] at hout
      exact absurd hout (by simp)
    | some r1 =>
      rw [hb1, Option.some_bind] at hout
      have hs : r1.sent = run.sent ++ [request, next] := by
        cases hdav : dav_request true (some blk1)
            (env.ne_request_dispatch (c + 1) next) with
        | none =>
          rw [gnone hdav] at hb1
          exact absurd hb1 (by simp)
        | some r =>
          obtain ⟨b', hr2, _⟩ := dav_request_some blk1 _ r hdav
          have hr : r = (r.1, some b') := Prod.ext rfl hr2
          rw [hr] at hdav
          have := gstep r.1 b' hdav
          rw [hb1] at this
          simp only [Option.some.injEq] at this
          rw [this]
          split <;> simp
      cases hrest : hbf_transfer_blocks env
          (List.range' (c + 1 + 1) (t.block_cnt - (c + 1 + 1))) r1 with
      | none =>
        rw [hrest] at hout
        exact absurd hout (by simp)
      | some rr =>
        rw [hrest] at hout
        simp only [Option.map_some', Option.some.injEq] at hout
        subst hout
        have hp := hbf_transfer_blocks_sent env _ r1 rr hrest
        rw [hs] at hp
        exact hp
  · intro hetag
    have hdav := hquote blk (env.ne_request_dispatch c request) (hresp request).1
      (hresp request).2 (hetag request)
    rw [hbf_transfer_at env t c run hc hreach hstate, hnone hdav]
    rfl

/-- The part of C17 that holds, at a sample input: 3 blocks; the server
answers the first request with 201 and the etag "abc" in double quotes. The
transfer ends with HBF_SUCCESS after the one request for block 0. -/
theorem hbf_transfer_answer_2xx_witness :
    (hbf_transfer (hbf_env0 25 (some ⟨25, 100⟩) (fun _ _ => ne_created (some "\"abc\"")))
        true (some (hbf_t0 25 10)) true).map
      (fun out => (out.state, out.sent.map (fun r => r.block_id))) =
      some (HBF_SUCCESS, [0]) := by
  obtain ⟨_, h, _⟩ := hbf_transfer_answer_2xx
    (hbf_env0 25 (some ⟨25, 100⟩) (fun _ _ => ne_created (some "\"abc\""))) (hbf_t0 25 10) 0
    { state := HBF_TRANSFER_SUCCESS, transfer := hbf_t0 25 10, sent := [] }
    (by decide) (by decide) (by decide) rfl rfl (fun h => absurd h.2 (by decide)) rfl
    (fun _ => ⟨rfl, rfl⟩)
  obtain ⟨request, t', blk', hid, hout, _, _, hs⟩ :=
    h (fun _ => ⟨"\"abc\"", rfl, by decide, by decide⟩)
  rw [hout]
  simp only [Option.map_some', Option.some.injEq, Prod.mk.injEq, List.nil_append,
    List.map_cons, List.map_nil]
  exact ⟨hs ⟨25, 100⟩ rfl rfl rfl, by rw [hid]; rfl⟩

/-- C17 at an input where the code departs from it: 3 blocks; the server
answers the first request with 201 and an `ETag` header that is a single
double quote, which is not empty. `dav_request` does not yield HBF_SUCCESS and
`hbf_transfer` does not return: the length computed for the copy of the etag
is -1 and the copy has no result. With the etag "abc" in double quotes the
same run ends with HBF_SUCCESS after the request for block 0. -/
theorem hbf_transfer_answer_lone_quote :
    (ne_created (some "\"")).klass = 2 ∧ (ne_created (some "\"")).etag ≠ some "" ∧
    dav_request true ((hbf_t0 25 10).block_arr[0]?) (ne_created (some "\"")) = none ∧
    hbf_transfer (hbf_env0 25 (some ⟨25, 100⟩) (fun _ _ => ne_created (some "\"")))
      true (some (hbf_t0 25 10)) true = none ∧
    (hbf_transfer (hbf_env0 25 (some ⟨25, 100⟩) (fun _ _ => ne_created (some "\"abc\"")))
      true (some (hbf_t0 25 10)) true).map (fun out => out.state) = some HBF_SUCCESS := by
  decide

/-- C19: etag parsing. For a 2xx answer whose `ETag` header has at least 2
characters and begins and ends with a double quote, the etag stored on the
block is the header value without exactly its first and its last character;
for a non-empty header value that does not both begin and end with a double
quote it is the header value. -/
theorem dav_request_stores_etag (blk : hbf_block_t) (response : ne_response) (etag : String)
    (hres : response.res = NE_OK) (hklass : response.klass = 2)
    (hetag : response.etag = some etag) :
    (2 ≤ etag.length → etag.data.head? = some '"' → etag.data.getLast? = some '"' →
      ∃ stored : String,
        (dav_request true (some blk) response).bind
          (fun r => r.2.bind (fun b => b.etag)) = some stored ∧
        etag.data = '"' :: (stored.data ++ ['"'])) ∧
    (etag ≠ "" → ¬ (etag.data.head? = some '"' ∧ etag.data.getLast? = some '"') →
      (dav_request true (some blk) response).bind
        (fun r => r.2.bind (fun b => b.etag)) = some etag) := by
  constructor
  · intro hlen hhead hlast
    have hne : etag ≠ "" := by
      intro h
      subst h
      simp at hlen
    obtain ⟨inner, rfl⟩ := quoted_of_head_getLast etag hlen hhead hlast
    obtain ⟨blk', heq, _, he⟩ := dav_request_with_etag blk response _ (String.mk inner)
      hres hklass hetag hne (dav_request_etag_quoted inner)
    refine ⟨String.mk inner, ?_, rfl⟩
    rw [heq]
    simpa using he
  · intro hne hq
    obtain ⟨blk', heq, _, he⟩ := dav_request_with_etag blk response etag etag hres hklass
      hetag hne (by simp [dav_request_etag, hq])
    rw [heq]
    simpa using he

/-- C19 at a sample input: the etag "abc" in double quotes is stored as "abc",
and so is the etag "abc" without quotes. -/
theorem dav_request_stores_etag_witness :
    (∃ stored, (dav_request true (some (hbf_splitlist_block 1 5 0 0))
          (ne_created (some "\"abc\""))).bind (fun r => r.2.bind (fun b => b.etag)) =
          some stored ∧
        ("\"abc\"" : String).data = '"' :: (stored.data ++ ['"'])) ∧
    (dav_request true (some (hbf_splitlist_block 1 5 0 0))
          (ne_created (some "abc"))).bind (fun r => r.2.bind (fun b => b.etag)) = some "abc" :=
  ⟨(dav_request_stores_etag (hbf_splitlist_block 1 5 0 0) (ne_created (some "\"abc\""))
      "\"abc\"" rfl rfl rfl).1 (by decide) (by decide) (by decide),
   (dav_request_stores_etag (hbf_splitlist_block 1 5 0 0) (ne_created (some "abc"))
      "abc" rfl rfl rfl).2 (by decide) (by decide)⟩

/-- Evaluation of the copy of the etag on a quoted and on a bare ETag value. -/
theorem dav_request_etag_samples :
    dav_request_etag "\"abc\"" = some "abc" ∧ dav_request_etag "\"\"" = some "" ∧
    dav_request_etag "abc" = some "abc" ∧ dav_request_etag "\"abc" = some "\"abc" ∧
    dav_request_etag "\"" = none := by decide

/-! ## The journal and the commit -/

/-- What `_merge_and_write_statedb` does to the journal when the state
database is open, the merge and the write succeed, and the merge leaves the
count of writes alone: the journal is written exactly if `status` is at least
`CSYNC_STATUS_DONE`. -/
theorem merge_and_write_statedb_written (ext : csync_commit_externals) (ctx : CSYNC)
    (hdb : ctx.statedb_db = true)
    (hmerge : 0 ≤ (ext.csync_merge_file_trees ctx).1)
    (hkeep : (ext.csync_merge_file_trees ctx).2.statedb_written = ctx.statedb_written)
    (hwrite : ext.csync_statedb_write (ext.csync_merge_file_trees ctx).2 = 0) :
    (_merge_and_write_statedb ext ctx).2.statedb_written =
      ctx.statedb_written + (if ctx.status ≥ CSYNC_STATUS_DONE then 1 else 0) := by
  unfold _merge_and_write_statedb
  by_cases hs : ctx.status ≥ CSYNC_STATUS_DONE
  · simp [hdb, hs, not_lt.mpr hmerge, hwrite, hkeep]
  · simp [hdb, hs]

/-- The count of journal writes after `csync_commit` is the one after its call
of `_merge_and_write_statedb`. -/
theorem csync_commit_statedb_written (ext : csync_commit_externals) (ctx : CSYNC) :
    (csync_commit ext ctx).2.statedb_written =
      (_merge_and_write_statedb ext
        { ctx with
          status := if ctx.error_code = CSYNC_ERR_NONE then CSYNC_STATUS_DONE else ctx.status,
          error_code := CSYNC_ERR_NONE }).2.statedb_written := by
  unfold csync_commit csync_is_statedb_disabled
  simp only []
  generalize _merge_and_write_statedb ext _ = m
  simp only [apply_ite Prod.snd, apply_ite CSYNC.statedb_written, ite_self]

/-- C20: the journal does not survive a failed cycle on every sequence of
calls. Let `csync_update` fail because the lock cannot be taken, on a context
with an open state database, and let the merge and the write of the journal
succeed. Then `csync_update` returns -1 with the error `CSYNC_ERR_LOCK` and the
status unchanged; a `csync_commit` right after it leaves the journal alone as
long as the status is below `CSYNC_STATUS_DONE`; but after one call of
`csync_get_status`, which returns the status and clears the error code, the
`csync_commit` writes the journal. -/
theorem csync_commit_after_failed_update (uext : csync_update_externals)
    (cext : csync_commit_externals) (ctx : CSYNC)
    (hasprintf : 0 ≤ uext.asprintf_lock) (hlock : uext.csync_lock < 0)
    (hdb : ctx.statedb_db = true)
    (hmerge : ∀ c, 0 ≤ (cext.csync_merge_file_trees c).1)
    (hkeep : ∀ c, (cext.csync_merge_file_trees c).2.statedb_written = c.statedb_written)
    (hwrite : ∀ c, cext.csync_statedb_write c = 0) :
    ∃ failed : CSYNC,
      csync_update uext (some ctx) = (-1, some failed) ∧
      failed.error_code = CSYNC_ERR_LOCK ∧ failed.status = ctx.status ∧
      (ctx.status < CSYNC_STATUS_DONE →
        (csync_commit cext failed).2.statedb_written = ctx.statedb_written) ∧
      ∃ asked : CSYNC,
        csync_get_status (some failed) = ((ctx.status : Int), some asked) ∧
        (csync_commit cext asked).2.statedb_written = ctx.statedb_written + 1 := by
  refine ⟨{ ctx with error_code := CSYNC_ERR_LOCK }, ?_, rfl, rfl, ?_, ?_⟩
  · simp [csync_update, not_lt.mpr hasprintf, hlock]
  · intro hs
    rw [csync_commit_statedb_written, merge_and_write_statedb_written _ _ (by simpa using hdb)
      (hmerge _) (hkeep _) (hwrite _)]
    simp [not_le.mpr hs]
  · refine ⟨{ ctx with error_code := CSYNC_ERR_NONE }, by simp [csync_get_status], ?_⟩
    rw [csync_commit_statedb_written, merge_and_write_statedb_written _ _ (by simpa using hdb)
      (hmerge _) (hkeep _) (hwrite _)]
    simp

theorem csync_commit_after_failed_update_witness :
    ∃ failed : CSYNC,
      csync_update update_ext_locked (some ctx_init) = (-1, some failed) ∧
      failed.error_code = CSYNC_ERR_LOCK ∧ failed.status = ctx_init.status ∧
      (ctx_init.status < CSYNC_STATUS_DONE →
        (csync_commit commit_ext0 failed).2.statedb_written = ctx_init.statedb_written) ∧
      ∃ asked : CSYNC,
        csync_get_status (some failed) = ((ctx_init.status : Int), some asked) ∧
        (csync_commit commit_ext0 asked).2.statedb_written = ctx_init.statedb_written + 1 :=
  csync_commit_after_failed_update update_ext_locked commit_ext0 ctx_init (by decide) (by decide)
    rfl (fun _ => le_refl 0) (fun _ => rfl) (fun _ => rfl)

/-- The sample run behind C20, evaluated: the update fails on the lock, the
status is asked for, the commit writes the journal once and returns 0. -/
theorem csync_commit_after_failed_update_run :
    (csync_update update_ext_locked (some ctx_init)).1 = -1 ∧
    ((csync_update update_ext_locked (some ctx_init)).2.map
      (fun c => (c.error_code, c.status, c.statedb_written))) =
        some (CSYNC_ERR_LOCK, CSYNC_STATUS_INIT, 0) ∧
    ((csync_update update_ext_locked (some ctx_init)).2.map
      (fun c => (csync_commit commit_ext0 c).2.statedb_written)) = some 0 ∧
    ((csync_get_status (csync_update update_ext_locked (some ctx_init)).2).2.map
      (fun c => ((csync_commit commit_ext0 c).1, (csync_commit commit_ext0 c).2.statedb_written))) =
        some (0, 1) := by
  decide

/-! ## Basic facts about the cycle, the walks and the lock file -/

section cycle_lemmas

/-- When `_merge_and_write_statedb` writes the journal: the state database is
succeed. -/
theorem merge_and_write_statedb_count (ext : csync_commit_externals) (ctx : CSYNC)
    (hkeep : (ext.csync_merge_file_trees ctx).2.statedb_written = ctx.statedb_written) :
    (_merge_and_write_statedb ext ctx).2.statedb_written =
      ctx.statedb_written +
        (if ctx.statedb_db = true ∧ ctx.status ≥ CSYNC_STATUS_DONE ∧
            0 ≤ (ext.csync_merge_file_trees ctx).1 ∧
            ext.csync_statedb_write (ext.csync_merge_file_trees ctx).2 = 0 then 1 else 0) := by
  unfold _merge_and_write_statedb
  by_cases hdb : ctx.statedb_db = true
  · by_cases hs : ctx.status ≥ CSYNC_STATUS_DONE
    · by_cases hm : (ext.csync_merge_file_trees ctx).1 < 0
      · simp [hdb, hs, hm, hkeep, not_le.mpr hm]
      · by_cases hw : ext.csync_statedb_write (ext.csync_merge_file_trees ctx).2 = 0
        · simp [hdb, hs, hm, hw, hkeep, not_lt.mp hm]
        · simp [hdb, hs, hm, hw, hkeep]
    · simp [hdb, hs]
  · simp [hdb]

/-- The trees, the status and the error code after `csync_commit`: the trees
are empty in every case, and a return code that is not negative comes with
the status `CSYNC_STATUS_INIT` and the error code `CSYNC_ERR_NONE`. -/
theorem csync_commit_leaves (ext : csync_commit_externals) (ctx : CSYNC) :
    (csync_commit ext ctx).2.local_tree = [] ∧ (csync_commit ext ctx).2.remote_tree = [] ∧
    (0 ≤ (csync_commit ext ctx).1 →
      (csync_commit ext ctx).2.status = CSYNC_STATUS_INIT ∧
      (csync_commit ext ctx).2.error_code = CSYNC_ERR_NONE) := by
  have ite_P : ∀ (P : Int × CSYNC → Prop) (c : Prop) [Decidable c] (a b : Int × CSYNC),
      (c → P a) → (¬ c → P b) → P (if c then a else b) := by
    intro P c _ a b ha hb
    by_cases h : c
    · rw [if_pos h]; exact ha h
    · rw [if_neg h]; exact hb h
  unfold csync_commit csync_is_statedb_disabled
  simp only []
  generalize _merge_and_write_statedb ext _ = m
  refine ⟨?_, ?_, ?_⟩
  · simp only [apply_ite Prod.snd, apply_ite CSYNC.local_tree, ite_self]
  · simp only [apply_ite Prod.snd, apply_ite CSYNC.remote_tree, ite_self]
  · apply ite_P (fun x => 0 ≤ x.1 → x.2.status = CSYNC_STATUS_INIT ∧
      x.2.error_code = CSYNC_ERR_NONE)
    · intro h1 h2
      exact absurd h2 (not_le.mpr h1.2)
    · intro _
      apply ite_P (fun x => 0 ≤ x.1 → x.2.status = CSYNC_STATUS_INIT ∧
        x.2.error_code = CSYNC_ERR_NONE)
      · intro _ h2
        exact absurd (show (0 : Int) ≤ -1 from h2) (by decide)
      · intro _
        apply ite_P (fun x => 0 ≤ x.1 → x.2.status = CSYNC_STATUS_INIT ∧
          x.2.error_code = CSYNC_ERR_NONE)
        · intro _ h2
          exact absurd (show (0 : Int) ≤ -1 from h2) (by decide)
        · intro _
          apply ite_P (fun x => 0 ≤ x.1 → x.2.status = CSYNC_STATUS_INIT ∧
            x.2.error_code = CSYNC_ERR_NONE)
          · intro _ h2
            exact absurd (show (0 : Int) ≤ -1 from h2) (by decide)
          · intro _
            apply ite_P (fun x => 0 ≤ x.1 → x.2.status = CSYNC_STATUS_INIT ∧
              x.2.error_code = CSYNC_ERR_NONE)
            · intro _ h2
              exact absurd (show (0 : Int) ≤ -1 from h2) (by decide)
            · intro _ _
              exact ⟨rfl, rfl⟩

/-- A write through a node pointer leaves the status, the error code and the
abort flag alone. -/
theorem set_node_frame (ctx : CSYNC) (r : csync_replica_e) (i : Nat) (st : csync_file_stat_t) :
    (ctx.set_node r i st).status = ctx.status ∧
    (ctx.set_node r i st).error_code = ctx.error_code ∧
    (ctx.set_node r i st).abort = ctx.abort := by
  cases r <;> exact ⟨rfl, rfl, rfl⟩

theorem merge_changed_or_new_frame (ctx : CSYNC) (obj : Nat) (cur : csync_file_stat_t)
    (j : Nat) (other : csync_file_stat_t) :
    (merge_changed_or_new ctx obj cur j other).status = ctx.status ∧
    (merge_changed_or_new ctx obj cur j other).error_code = ctx.error_code ∧
    (merge_changed_or_new ctx obj cur j other).abort = ctx.abort := by
  unfold merge_changed_or_new
  repeat' (first | exact ⟨rfl, rfl, rfl⟩ | split | dsimp only)
  all_goals simp only [set_node_frame, and_self]

/-- A visit of the merge algorithm leaves the status, the error code and the
abort flag alone. -/
theorem merge_visitor_frame (ext : csync_externals) (ctx : CSYNC) (obj : Nat) :
    (_csync_merge_algorithm_visitor ext ctx obj).2.status = ctx.status ∧
    (_csync_merge_algorithm_visitor ext ctx obj).2.error_code = ctx.error_code ∧
    (_csync_merge_algorithm_visitor ext ctx obj).2.abort = ctx.abort := by
  unfold _csync_merge_algorithm_visitor
  repeat' (first | exact ⟨rfl, rfl, rfl⟩ | split | dsimp only)
  all_goals simp only [set_node_frame, merge_changed_or_new_frame, and_self]

/-- The walk of `csync_reconcile_updates` returns 0 and leaves the status, the
error code, the abort flag and `ctx->current` alone. -/
theorem csync_reconcile_updates_frame (ext : csync_externals) (ctx : CSYNC) :
    (csync_reconcile_updates ext ctx).1 = 0 ∧
    (csync_reconcile_updates ext ctx).2.status = ctx.status ∧
    (csync_reconcile_updates ext ctx).2.error_code = ctx.error_code ∧
    (csync_reconcile_updates ext ctx).2.abort = ctx.abort := by
  unfold csync_reconcile_updates
  exact c_rbtree_walk_induct ext.c_rbtree_walk_negative (_csync_merge_algorithm_visitor ext) (merge_visitor_rc ext)
    (fun _ c => c.status = ctx.status ∧ c.error_code = ctx.error_code ∧ c.abort = ctx.abort)
    (ctx.tree ctx.current) ctx
    (fun k c _ h => by
      obtain ⟨h1, h2, h3⟩ := merge_visitor_frame ext c k
      exact ⟨h1.trans h.1, h2.trans h.2.1, h3.trans h.2.2⟩)
    ⟨rfl, rfl, rfl⟩

/-- On a context that is there, `csync_reconcile` returns 0, adds the
RECONCILE bit to the status, and leaves the abort flag alone and no error. -/
theorem csync_reconcile_succeeds (ext : csync_externals) (ctx : CSYNC) :
    ∃ ctx' : CSYNC, csync_reconcile ext (some ctx) = (0, some ctx') ∧
      ctx'.status = ctx.status ||| CSYNC_STATUS_RECONCILE ∧
      ctx'.error_code = CSYNC_ERR_NONE ∧ ctx'.abort = ctx.abort := by
  unfold csync_reconcile
  simp only []
  obtain ⟨r1, s1, e1, a1⟩ := csync_reconcile_updates_frame ext
    { ctx with error_code := CSYNC_ERR_NONE, current := LOCAL_REPLICA, replica := ctx.local_type }
  rw [if_neg (by rw [r1]; decide)]
  obtain ⟨r2, s2, e2, a2⟩ := csync_reconcile_updates_frame ext
    { (csync_reconcile_updates ext
        { ctx with error_code := CSYNC_ERR_NONE, current := LOCAL_REPLICA,
                   replica := ctx.local_type }).2 with
      current := REMOTE_REPLICA,
      replica := (csync_reconcile_updates ext
        { ctx with error_code := CSYNC_ERR_NONE, current := LOCAL_REPLICA,
                   replica := ctx.local_type }).2.remote_type }
  rw [if_neg (by rw [r2]; decide)]
  refine ⟨_, rfl, ?_, ?_, ?_⟩
  · show _ ||| _ = _
    rw [s2]
    show (csync_reconcile_updates ext _).2.status ||| _ = _
    rw [s1]
  · show (csync_reconcile_updates ext _).2.error_code = _
    rw [e2]
    show (csync_reconcile_updates ext _).2.error_code = _
    rw [e1]
  · show (csync_reconcile_updates ext _).2.abort = _
    rw [a2]
    show (csync_reconcile_updates ext _).2.abort = _
    rw [a1]

theorem csync_update_fail_status (ext : csync_update_externals) (ctx : CSYNC) :
    (csync_update_fail ext ctx).status = ctx.status ∧
    (csync_update_fail ext ctx).abort = ctx.abort := by
  unfold csync_update_fail
  split <;> exact ⟨rfl, rfl⟩

theorem csync_propagate_fail_status (ext : csync_propagate_externals) (ctx : CSYNC) :
    (csync_propagate_fail ext ctx).status = ctx.status := by
  unfold csync_propagate_fail
  split <;> rfl

/-- The two outcomes of `csync_update` when the walks leave the status alone:
0 with the UPDATE bit added to the status, or -1 with the status as it was. -/
theorem csync_update_status (ext : csync_update_externals) (ctx : CSYNC)
    (hftw : ∀ c, (ext.csync_ftw c).2.status = c.status) :
    ∃ ctx' : CSYNC,
      (csync_update ext (some ctx) = (0, some ctx') ∧
        ctx'.status = ctx.status ||| CSYNC_STATUS_UPDATE) ∨
      (csync_update ext (some ctx) = (-1, some ctx') ∧ ctx'.status = ctx.status) := by
  unfold csync_update
  simp only []
  by_cases h1 : ext.asprintf_lock < 0
  · rw [if_pos h1]
    exact ⟨_, Or.inr ⟨rfl, rfl⟩⟩
  rw [if_neg h1]
  by_cases h2 : ext.csync_lock < 0
  · rw [if_pos h2]
    exact ⟨_, Or.inr ⟨rfl, rfl⟩⟩
  rw [if_neg h2]
  by_cases h3 : (ext.csync_ftw
      { ctx with error_code := CSYNC_ERR_NONE, current := LOCAL_REPLICA,
                 replica := ctx.local_type }).1 < 0
  · rw [if_pos h3]
    exact ⟨_, Or.inr ⟨rfl, by rw [(csync_update_fail_status _ _).1, hftw]⟩⟩
  rw [if_neg h3]
  by_cases h4 : ¬ (ext.csync_ftw
      { ctx with error_code := CSYNC_ERR_NONE, current := LOCAL_REPLICA,
                 replica := ctx.local_type }).2.local_only_mode = true
  · rw [if_pos h4]
    split
    · exact ⟨_, Or.inr ⟨rfl, by rw [(csync_update_fail_status _ _).1, hftw]; exact hftw _⟩⟩
    · refine ⟨_, Or.inl ⟨rfl, ?_⟩⟩
      show (ext.csync_ftw _).2.status ||| _ = _
      rw [hftw]
      show (ext.csync_ftw _).2.status ||| _ = _
      rw [hftw]
  · rw [if_neg h4]
    refine ⟨_, Or.inl ⟨rfl, ?_⟩⟩
    show (ext.csync_ftw _).2.status ||| _ = _
    rw [hftw]

/-- The two outcomes of `csync_propagate` when its collaborators leave the
status alone: 0 with the PROPAGATE bit added, or -1 with the status as it was. -/
theorem csync_propagate_status (ext : csync_propagate_externals) (ctx : CSYNC)
    (hdirs : ∀ c, (ext.csync_propagate_rename_dirs c).2.status = c.status)
    (hfiles : ∀ c, (ext.csync_propagate_files c).2.status = c.status) :
    ∃ ctx' : CSYNC,
      (csync_propagate ext (some ctx) = (0, some ctx') ∧
        ctx'.status = ctx.status ||| CSYNC_STATUS_PROPAGATE) ∨
      (csync_propagate ext (some ctx) = (-1, some ctx') ∧ ctx'.status = ctx.status) := by
  unfold csync_propagate
  simp only []
  split
  · exact ⟨_, Or.inr ⟨rfl, by rw [csync_propagate_fail_status, hdirs]⟩⟩
  · split
    · exact ⟨_, Or.inr ⟨rfl, by rw [csync_propagate_fail_status, hfiles]; exact hdirs _⟩⟩
    · split
      · refine ⟨_, Or.inr ⟨rfl, ?_⟩⟩
        rw [csync_propagate_fail_status, hfiles]
        show (ext.csync_propagate_files _).2.status = _
        rw [hfiles]
        exact hdirs _
      · refine ⟨_, Or.inl ⟨rfl, ?_⟩⟩
        show (ext.csync_propagate_files _).2.status ||| _ = _
        rw [hfiles]
        show (ext.csync_propagate_files _).2.status ||| _ = _
        rw [hfiles]
        show (ext.csync_propagate_rename_dirs _).2.status ||| _ = _
        rw [hdirs]

/-- The walker of the updater returns 0 and leaves the context as it is. -/
theorem csync_walker_eq (ext : csync_walker_externals) (ctx : CSYNC) (file : String)
    (fs : csync_vio_file_stat_t) (flag : csync_ftw_flags_e) :
    csync_walker ext ctx file fs flag = (0, ctx) := by
  unfold csync_walker csync_detect_update
  repeat' (first | rfl | split)

/-- The loop of a walk leaves the context alone when the walker and the
recursive call do. -/
theorem csync_ftw_entries_ctx (vio : csync_vio) (fn : csync_walker_fn)
    (descend : Option (String → csync_ftw_run → Int × csync_ftw_run)) (uri : String)
    (hfn : ∀ c f s g, (fn c f s g).2 = c)
    (hdesc : ∀ f, descend = some f → ∀ u r, (f u r).2.ctx = r.ctx) :
    ∀ (entries : List csync_vio_file_stat_t) (rc : Int) (run : csync_ftw_run),
      (csync_ftw_entries vio fn descend uri entries rc run).2.ctx = run.ctx := by
  intro entries
  induction entries with
  | nil => intro rc run; rfl
  | cons dirent rest ih =>
    intro rc run
    unfold csync_ftw_entries
    cases dirent.name with
    | none => rfl
    | some d_name =>
      dsimp only
      split
      · exact ih _ _
      · split
        · rfl
        · split
          · exact hfn _ _ _ _
          · split
            · rename_i f hf
              have hd : descend = some f := by
                split at hf
                · exact hf
                · exact absurd hf (by simp)
              split
              · rw [hdesc f hd]
                exact hfn _ _ _ _
              · rw [ih, hdesc f hd]
                exact hfn _ _ _ _
            · rw [ih]
              exact hfn _ _ _ _

theorem csync_ftw_dir_ctx (vio : csync_vio) (fn : csync_walker_fn)
    (descend : Option (String → csync_ftw_run → Int × csync_ftw_run)) (uri : String)
    (hfn : ∀ c f s g, (fn c f s g).2 = c)
    (hdesc : ∀ f, descend = some f → ∀ u r, (f u r).2.ctx = r.ctx) (run : csync_ftw_run) :
    (csync_ftw_dir vio fn descend uri run).2.ctx = run.ctx := by
  unfold csync_ftw_dir
  split
  · rfl
  · dsimp only
    split
    · split <;> rfl
    · rw [csync_ftw_entries_ctx vio fn descend uri hfn hdesc]

/-- A walk leaves the context alone when the walker does. -/
theorem csync_ftw_ctx (vio : csync_vio) (fn : csync_walker_fn)
    (hfn : ∀ c f s g, (fn c f s g).2 = c) (depth : Nat) :
    ∀ (uri : String) (run : csync_ftw_run), (csync_ftw vio fn uri depth run).2.ctx = run.ctx := by
  induction depth with
  | zero =>
    intro uri run
    unfold csync_ftw
    exact csync_ftw_dir_ctx vio fn none uri hfn (fun f hf => absurd hf (by simp)) run
  | succ d ih =>
    intro uri run
    unfold csync_ftw
    refine csync_ftw_dir_ctx vio fn _ uri hfn (fun f hf => ?_) run
    simp only [Option.some.injEq] at hf
    subst hf
    intro u r
    exact ih u r

/-- A walker that leaves the context alone and whose return code does not
depend on it: the loop of a walk does the same on every context. -/
theorem csync_ftw_entries_any_ctx (vio : csync_vio) (fn : csync_walker_fn)
    (descend : Option (String → csync_ftw_run → Int × csync_ftw_run)) (uri : String)
    (hfn : ∀ c c' f s g, fn c' f s g = ((fn c f s g).1, c'))
    (hdesc : ∀ f, descend = some f → ∀ u r c',
      f u { r with ctx := c' } = ((f u r).1, { (f u r).2 with ctx := c' })) :
    ∀ (entries : List csync_vio_file_stat_t) (rc : Int) (run : csync_ftw_run) (c' : CSYNC),
      csync_ftw_entries vio fn descend uri entries rc { run with ctx := c' } =
        ((csync_ftw_entries vio fn descend uri entries rc run).1,
          { (csync_ftw_entries vio fn descend uri entries rc run).2 with ctx := c' }) := by
  intro entries
  induction entries with
  | nil => intro rc run c'; rfl
  | cons dirent rest ih =>
    intro rc run c'
    unfold csync_ftw_entries
    cases dirent.name with
    | none => rfl
    | some d_name =>
      dsimp only
      have e1 := hfn run.ctx c' (uri ++ "/" ++ d_name)
        ((vio.stat (uri ++ "/" ++ d_name)).getD csync_vio_file_stat_new)
        (csync_ftw_flag (vio.stat (uri ++ "/" ++ d_name)))
      have e2 := hfn run.ctx run.ctx (uri ++ "/" ++ d_name)
        ((vio.stat (uri ++ "/" ++ d_name)).getD csync_vio_file_stat_new)
        (csync_ftw_flag (vio.stat (uri ++ "/" ++ d_name)))
      have e3 : (fn run.ctx (uri ++ "/" ++ d_name)
          ((vio.stat (uri ++ "/" ++ d_name)).getD csync_vio_file_stat_new)
          (csync_ftw_flag (vio.stat (uri ++ "/" ++ d_name)))).2 = run.ctx := by
        rw [e2]
      rw [e1, e3]
      dsimp only
      split
      · exact ih _ _ _
      · split
        · rfl
        · split
          · rfl
          · split
            · rename_i f hf
              have hd : descend = some f := by
                split at hf
                · exact hf
                · exact absurd hf (by simp)
              have e4 := hdesc f hd (uri ++ "/" ++ d_name)
                { run with walked := run.walked ++ [⟨d_name, uri ++ "/" ++ d_name,
                    csync_ftw_flag (vio.stat (uri ++ "/" ++ d_name)),
                    (fn run.ctx (uri ++ "/" ++ d_name)
                      ((vio.stat (uri ++ "/" ++ d_name)).getD csync_vio_file_stat_new)
                      (csync_ftw_flag (vio.stat (uri ++ "/" ++ d_name)))).1⟩] } c'
              dsimp only at e4
              rw [e4]
              dsimp only
              split
              · rfl
              · exact ih _ _ _
            · generalize run.walked ++ [_] = W
              exact ih _ ⟨run.ctx, run.opened, W⟩ c'

theorem csync_ftw_any_ctx (vio : csync_vio) (fn : csync_walker_fn)
    (hfn : ∀ c c' f s g, fn c' f s g = ((fn c f s g).1, c')) (depth : Nat) :
    ∀ (uri : String) (run : csync_ftw_run) (c' : CSYNC),
      csync_ftw vio fn uri depth { run with ctx := c' } =
        ((csync_ftw vio fn uri depth run).1,
          { (csync_ftw vio fn uri depth run).2 with ctx := c' }) := by
  have hdir : ∀ (descend : Option (String → csync_ftw_run → Int × csync_ftw_run)),
      (∀ f, descend = some f → ∀ u r c',
        f u { r with ctx := c' } = ((f u r).1, { (f u r).2 with ctx := c' })) →
      ∀ (uri : String) (run : csync_ftw_run) (c' : CSYNC),
        csync_ftw_dir vio fn descend uri { run with ctx := c' } =
          ((csync_ftw_dir vio fn descend uri run).1,
            { (csync_ftw_dir vio fn descend uri run).2 with ctx := c' }) := by
    intro descend hdesc uri run c'
    unfold csync_ftw_dir
    split
    · rfl
    · dsimp only
      split
      · split <;> rfl
      · exact csync_ftw_entries_any_ctx vio fn descend uri hfn hdesc _ _
          { run with opened := run.opened ++ [uri] } c'
  induction depth with
  | zero =>
    intro uri run c'
    unfold csync_ftw
    exact hdir none (fun f hf => absurd hf (by simp)) uri run c'
  | succ d ih =>
    intro uri run c'
    unfold csync_ftw
    refine hdir _ (fun f hf => ?_) uri run c'
    simp only [Option.some.injEq] at hf
    subst hf
    intro u r c''
    exact ih u r c''

/-- The walk that `csync_update` makes leaves the context as it is, and its
return code depends on the uri of the current replica only. -/
theorem csync_update_ftw_eq (vio : csync_vio) (ext : csync_walker_externals) (MAX_DEPTH : Nat) :
    ∃ walk : String → Int, ∀ ctx : CSYNC,
      csync_update_ftw vio ext MAX_DEPTH ctx =
        (walk (if ctx.current = LOCAL_REPLICA then ctx.local_uri else ctx.remote_uri), ctx) := by
  refine ⟨fun uri => (csync_ftw vio (csync_walker ext) uri MAX_DEPTH
    { ctx := ftw_run0.ctx, opened := [], walked := [] }).1, fun ctx => ?_⟩
  have h := fun uri => csync_ftw_any_ctx vio (csync_walker ext)
    (fun c c' f s g => by rw [csync_walker_eq, csync_walker_eq]) MAX_DEPTH uri
    { ctx := ftw_run0.ctx, opened := [], walked := [] } ctx
  unfold csync_update_ftw
  cases hcur : ctx.current <;> dsimp only at h ⊢ <;> rw [h] <;> simp

/-- With the walks of the updater, `csync_update` does on a context with the
abort flag set what it does on the context without it, and leaves the flag
set. -/
theorem csync_update_abort (vio : csync_vio) (ext : csync_walker_externals) (MAX_DEPTH : Nat)
    (asprintf_lock csync_lock : Int) (ctx : CSYNC) :
    csync_update (csync_update_with vio ext MAX_DEPTH asprintf_lock csync_lock)
        (some (csync_request_abort ctx)) =
      ((csync_update (csync_update_with vio ext MAX_DEPTH asprintf_lock csync_lock)
          (some ctx)).1,
        (csync_update (csync_update_with vio ext MAX_DEPTH asprintf_lock csync_lock)
          (some ctx)).2.map csync_request_abort) := by
  obtain ⟨walk, hwalk⟩ := csync_update_ftw_eq vio ext MAX_DEPTH
  simp only [csync_update, csync_update_with, hwalk, csync_request_abort, csync_update_fail]
  split_ifs <;> simp_all [csync_request_abort]

/-- The walk that `csync_update` makes leaves the status as it is. -/
theorem csync_update_ftw_status (vio : csync_vio) (ext : csync_walker_externals)
    (MAX_DEPTH : Nat) (ctx : CSYNC) :
    (csync_update_ftw vio ext MAX_DEPTH ctx).2.status = ctx.status := by
  obtain ⟨walk, h⟩ := csync_update_ftw_eq vio ext MAX_DEPTH
  rw [h]

/-- With the walks of the updater, what `csync_update` returns does not depend
on the status of the context. -/
theorem csync_update_any_status (vio : csync_vio) (ext : csync_walker_externals)
    (MAX_DEPTH : Nat) (asprintf_lock csync_lock : Int) (ctx : CSYNC) (status : Nat) :
    (csync_update (csync_update_with vio ext MAX_DEPTH asprintf_lock csync_lock)
      (some { ctx with status := status })).1 =
    (csync_update (csync_update_with vio ext MAX_DEPTH asprintf_lock csync_lock)
      (some ctx)).1 := by
  obtain ⟨walk, hwalk⟩ := csync_update_ftw_eq vio ext MAX_DEPTH
  simp only [csync_update, csync_update_with, hwalk, csync_update_fail]
  split_ifs <;> simp_all

/-- A walk whose visitor may fail, whatever the tree library does then: an
invariant of the visits holds for the nodes visited, which are the nodes
before some `k`; when the walk has not come to the end of the nodes, the last
visit returned a negative value; and when no visit returns a negative value,
the walk comes to the end and returns 0. -/
theorem c_rbtree_walk_nodes_any (negative : Int → Option Int)
    (visitor : CSYNC → Nat → Int × CSYNC) (I : Nat → CSYNC → Prop) (n : Nat) :
    ∀ (s : Nat) (ctx : CSYNC),
      (∀ k c, s ≤ k → k < s + n → I k c → I (k + 1) (visitor c k).2) → I s ctx →
      ∃ k, s ≤ k ∧ k ≤ s + n ∧
        I k (c_rbtree_walk_nodes negative visitor (List.range' s n) ctx).2 ∧
        (k = s + n ∨ (s < k ∧ ∃ c, I (k - 1) c ∧ (visitor c (k - 1)).1 < 0)) ∧
        ((∀ j c, s ≤ j → j < s + n → I j c → ¬ (visitor c j).1 < 0) →
          (c_rbtree_walk_nodes negative visitor (List.range' s n) ctx).1 = 0 ∧ k = s + n) := by
  induction n with
  | zero =>
    intro s ctx _ h0
    exact ⟨s, le_refl s, le_refl s, h0, Or.inl rfl, fun _ => ⟨rfl, rfl⟩⟩
  | succ m ih =>
    intro s ctx hstep h0
    have h1 : I (s + 1) (visitor ctx s).2 := hstep s ctx (le_refl s) (by omega) h0
    obtain ⟨k, hk1, hk2, hI, hdis, hall⟩ := ih (s + 1) (visitor ctx s).2
      (fun k c hk hk2 => hstep k c (by omega) (by omega)) h1
    have hdis' : k = s + (m + 1) ∨ (s < k ∧ ∃ c, I (k - 1) c ∧ (visitor c (k - 1)).1 < 0) := by
      rcases hdis with h | ⟨h, hc⟩
      · exact Or.inl (by omega)
      · exact Or.inr ⟨by omega, hc⟩
    simp only [List.range'_succ, c_rbtree_walk_nodes]
    by_cases hneg : (visitor ctx s).1 < 0
    · rw [if_pos hneg]
      cases negative (visitor ctx s).1 with
      | some rc =>
        exact ⟨s + 1, by omega, by omega, h1, Or.inr ⟨by omega, ctx, h0, hneg⟩,
          fun hq => absurd hneg (hq s ctx (le_refl s) (by omega) h0)⟩
      | none =>
        exact ⟨k, by omega, by omega, hI, hdis',
          fun hq => absurd hneg (hq s ctx (le_refl s) (by omega) h0)⟩
    · rw [if_neg hneg]
      refine ⟨k, by omega, by omega, hI, hdis', fun hq => ?_⟩
      obtain ⟨h0', hk'⟩ := hall (fun j c hj hj2 => hq j c (by omega) (by omega))
      exact ⟨h0', by omega⟩

/-- The tree after the visits of the first `k` nodes, one node further. -/
theorem take_map_drop_set {α : Type} (f : α → α) (T : List α) (k : Nat) (x : α)
    (hx : T[k]? = some x) :
    ((T.take k).map f ++ T.drop k).set k (f x) = (T.take (k + 1)).map f ++ T.drop (k + 1) := by
  induction T generalizing k with
  | nil => simp at hx
  | cons a rest ih =>
    cases k with
    | zero =>
      simp only [List.getElem?_cons_zero, Option.some.injEq] at hx
      subst hx
      simp
    | succ j =>
      simp only [List.getElem?_cons_succ] at hx
      simpa using ih j hx

theorem take_map_drop_getElem? {α : Type} (f : α → α) (T : List α) (k : Nat) :
    ((T.take k).map f ++ T.drop k)[k]? = T[k]? := by
  induction T generalizing k with
  | nil => simp
  | cons a rest ih =>
    cases k with
    | zero => simp
    | succ j => simpa using ih j

theorem take_succ_of_getElem? {α : Type} (T : List α) (k : Nat) (x : α) (hx : T[k]? = some x) :
    T.take (k + 1) = T.take k ++ [x] := by
  rw [List.take_succ, hx]
  rfl

/-- One visit of the tree walk, for a node that is there, during a walk (the
userdata points to the treewalk context) with a visitor that is there. -/
theorem treewalk_visitor_eq (ext : csync_treewalk_externals) (tw : _csync_treewalk_context)
    (tree : csync_replica_e) (ctx : CSYNC) (obj : Nat) (cur : csync_file_stat_t) (v : Nat)
    (hcur : (ctx.tree tree)[obj]? = some cur)
    (hud : ctx.callbacks_userdata = csync_pointer.tw_ctx) (hv : tw.user_visitor = some v) :
    _csync_treewalk_visitor ext tw tree ctx obj =
      if csync_treewalk_selects ext tw.instruction_filter cur then
        ((ext.call_visitor v (csync_treewalk_view cur) tw.userdata).1,
          ({ ctx with
              error_code := CSYNC_ERR_NONE,
              visited := ctx.visited ++ [(csync_treewalk_view cur, tw.userdata)] }).set_node
            tree obj (csync_treewalk_visit ext v tw.userdata tw.instruction_filter cur))
      else (0, { ctx with error_code := CSYNC_ERR_NONE }) := by
  unfold _csync_treewalk_visitor
  simp only [hcur, hud, if_true, hv]
  by_cases hsel : csync_treewalk_selects ext tw.instruction_filter cur
  · rw [if_pos hsel]
    have hsel' := hsel
    unfold csync_treewalk_selects at hsel'
    rw [if_neg hsel']
    simp [csync_treewalk_visit, hsel]
  · rw [if_neg hsel]
    unfold csync_treewalk_selects at hsel
    rw [if_pos (not_not.mp hsel)]

/-- The state of a tree walk after the visits of the nodes before `k`: the
records before `k` are visited, the calls of the user visitor are recorded
for those the filter lets through, the userdata still points to the treewalk
context and the other tree is as it was. -/
theorem treewalk_visitor_step (ext : csync_treewalk_externals) (tw : _csync_treewalk_context)
    (tree : csync_replica_e) (T : c_rbtree_t) (V : List (TREE_WALK_FILE × csync_pointer))
    (O : c_rbtree_t) (v : Nat) (hv : tw.user_visitor = some v) (k : Nat) (c : CSYNC)
    (hk : k < T.length)
    (h : c.tree tree =
          (T.take k).map (csync_treewalk_visit ext v tw.userdata tw.instruction_filter) ++
            T.drop k ∧
        c.visited = V ++ ((T.take k).filter
          (fun st => csync_treewalk_selects ext tw.instruction_filter st)).map
            (fun st => (csync_treewalk_view st, tw.userdata)) ∧
        c.callbacks_userdata = csync_pointer.tw_ctx ∧ c.tree tree.opposite = O) :
    ∃ cur, T[k]? = some cur ∧
      ((_csync_treewalk_visitor ext tw tree c k).1 < 0 →
        csync_treewalk_selects ext tw.instruction_filter cur ∧
        (ext.call_visitor v (csync_treewalk_view cur) tw.userdata).1 < 0) ∧
      ((_csync_treewalk_visitor ext tw tree c k).2.tree tree =
          (T.take (k + 1)).map (csync_treewalk_visit ext v tw.userdata tw.instruction_filter) ++
            T.drop (k + 1) ∧
        (_csync_treewalk_visitor ext tw tree c k).2.visited = V ++ ((T.take (k + 1)).filter
          (fun st => csync_treewalk_selects ext tw.instruction_filter st)).map
            (fun st => (csync_treewalk_view st, tw.userdata)) ∧
        (_csync_treewalk_visitor ext tw tree c k).2.callbacks_userdata = csync_pointer.tw_ctx ∧
        (_csync_treewalk_visitor ext tw tree c k).2.tree tree.opposite = O) := by
  obtain ⟨ht, hvis, hud, hopp⟩ := h
  have hcurT : T[k]? = some T[k] := List.getElem?_eq_getElem hk
  have hcur : (c.tree tree)[k]? = some T[k] := by
    rw [ht, take_map_drop_getElem?, hcurT]
  rw [treewalk_visitor_eq ext tw tree c k T[k] v hcur hud hv]
  refine ⟨T[k], hcurT, ?_, ?_⟩
  · intro hneg
    by_cases hsel : csync_treewalk_selects ext tw.instruction_filter T[k]
    · rw [if_pos hsel] at hneg
      exact ⟨hsel, hneg⟩
    · rw [if_neg hsel] at hneg
      exact absurd (show (0 : Int) < 0 from hneg) (by decide)
  · by_cases hsel : csync_treewalk_selects ext tw.instruction_filter T[k]
    · rw [if_pos hsel]
      refine ⟨?_, ?_, ?_, ?_⟩
      · rw [tree_set_node_same]
        show (c.tree tree).set k _ = _
        rw [ht, take_map_drop_set _ T k T[k] hcurT]
      · have e : ∀ (x : CSYNC) (st : csync_file_stat_t),
            (x.set_node tree k st).visited = x.visited := by
          intro x st
          cases tree <;> rfl
        rw [e]
        show c.visited ++ _ = _
        rw [hvis, take_succ_of_getElem? T k T[k] hcurT, List.filter_append]
        simp [hsel]
      · have e : ∀ (x : CSYNC) (st : csync_file_stat_t),
            (x.set_node tree k st).callbacks_userdata = x.callbacks_userdata := by
          intro x st
          cases tree <;> rfl
        rw [e]
        exact hud
      · rw [tree_opposite_set_node]
        exact hopp
    · rw [if_neg hsel]
      refine ⟨?_, ?_, hud, hopp⟩
      · show c.tree tree = _
        have e : csync_treewalk_visit ext v tw.userdata tw.instruction_filter T[k] = T[k] := by
          simp [csync_treewalk_visit, hsel]
        rw [ht, ← take_map_drop_set _ T k T[k] hcurT, e]
        exact (list_set_of_getElem? (by rw [take_map_drop_getElem?, hcurT])).symm
      · show c.visited = _
        rw [hvis, take_succ_of_getElem? T k T[k] hcurT, List.filter_append]
        simp [hsel]

/-- The tree walk of `_csync_walk_tree` over a tree `T`, from the context in
which the userdata points to the treewalk context: the nodes before some `k`
are visited; when the walk has not come to the end of the tree, the last
visit was a call of the user visitor that returned a negative value; and when
the user visitor returns no negative value for the records the filter lets
through, the walk comes to the end of the tree and returns 0. -/
theorem treewalk_walk (ext : csync_treewalk_externals) (tw : _csync_treewalk_context)
    (tree : csync_replica_e) (v : Nat) (hv : tw.user_visitor = some v) (ctx : CSYNC)
    (hud : ctx.callbacks_userdata = csync_pointer.tw_ctx) :
    ∃ k, k ≤ (ctx.tree tree).length ∧
      ((c_rbtree_walk ext.c_rbtree_walk_negative (ctx.tree tree) ctx
          (_csync_treewalk_visitor ext tw tree)).2.tree tree =
          ((ctx.tree tree).take k).map
            (csync_treewalk_visit ext v tw.userdata tw.instruction_filter) ++
            (ctx.tree tree).drop k ∧
        (c_rbtree_walk ext.c_rbtree_walk_negative (ctx.tree tree) ctx
          (_csync_treewalk_visitor ext tw tree)).2.visited =
          ctx.visited ++ (((ctx.tree tree).take k).filter
            (fun st => csync_treewalk_selects ext tw.instruction_filter st)).map
              (fun st => (csync_treewalk_view st, tw.userdata)) ∧
        (c_rbtree_walk ext.c_rbtree_walk_negative (ctx.tree tree) ctx
          (_csync_treewalk_visitor ext tw tree)).2.callbacks_userdata = csync_pointer.tw_ctx ∧
        (c_rbtree_walk ext.c_rbtree_walk_negative (ctx.tree tree) ctx
          (_csync_treewalk_visitor ext tw tree)).2.tree tree.opposite = ctx.tree tree.opposite) ∧
      (k = (ctx.tree tree).length ∨
        (0 < k ∧ ∃ st, (ctx.tree tree)[k - 1]? = some st ∧
            csync_treewalk_selects ext tw.instruction_filter st ∧
            (ext.call_visitor v (csync_treewalk_view st) tw.userdata).1 < 0)) ∧
      ((∀ st ∈ ctx.tree tree, csync_treewalk_selects ext tw.instruction_filter st →
          0 ≤ (ext.call_visitor v (csync_treewalk_view st) tw.userdata).1) →
        (c_rbtree_walk ext.c_rbtree_walk_negative (ctx.tree tree) ctx
          (_csync_treewalk_visitor ext tw tree)).1 = 0 ∧ k = (ctx.tree tree).length) := by
  obtain ⟨k, _, hk, hI, hdis, hall⟩ := c_rbtree_walk_nodes_any ext.c_rbtree_walk_negative
    (_csync_treewalk_visitor ext tw tree)
    (fun k c => k ≤ (ctx.tree tree).length ∧
      (c.tree tree =
          ((ctx.tree tree).take k).map
            (csync_treewalk_visit ext v tw.userdata tw.instruction_filter) ++
            (ctx.tree tree).drop k ∧
        c.visited = ctx.visited ++ (((ctx.tree tree).take k).filter
          (fun st => csync_treewalk_selects ext tw.instruction_filter st)).map
            (fun st => (csync_treewalk_view st, tw.userdata)) ∧
        c.callbacks_userdata = csync_pointer.tw_ctx ∧
        c.tree tree.opposite = ctx.tree tree.opposite))
    (ctx.tree tree).length 0 ctx
    (fun k c _ hk h => by
      obtain ⟨_, _, _, h2⟩ := treewalk_visitor_step ext tw tree (ctx.tree tree) ctx.visited
        (ctx.tree tree.opposite) v hv k c (by omega) h.2
      exact ⟨by omega, h2⟩)
    ⟨Nat.zero_le _, by simp, by simp, hud, rfl⟩
  have hw : c_rbtree_walk ext.c_rbtree_walk_negative (ctx.tree tree) ctx
      (_csync_treewalk_visitor ext tw tree) =
      c_rbtree_walk_nodes ext.c_rbtree_walk_negative (_csync_treewalk_visitor ext tw tree)
        (List.range' 0 (ctx.tree tree).length) ctx := by
    simp [c_rbtree_walk, List.range_eq_range']
  rw [hw]
  refine ⟨k, hI.1, hI.2, ?_, ?_⟩
  · rcases hdis with hk0 | ⟨hk0, c, hc, hvneg⟩
    · exact Or.inl (by omega)
    · refine Or.inr ⟨hk0, ?_⟩
      obtain ⟨cur, hcur, hsel, _⟩ := treewalk_visitor_step ext tw tree (ctx.tree tree)
        ctx.visited (ctx.tree tree.opposite) v hv (k - 1) c (by omega) hc.2
      exact ⟨cur, hcur, hsel hvneg⟩
  · intro hnn
    obtain ⟨h0, hk0⟩ := hall (fun j c _ hj hc hneg => by
      obtain ⟨cur, hcur, hsel, _⟩ := treewalk_visitor_step ext tw tree (ctx.tree tree)
        ctx.visited (ctx.tree tree.opposite) v hv j c (by omega) hc.2
      have := hnn cur (List.getElem?_mem hcur) (hsel hneg).1
      have := (hsel hneg).2
      omega)
    exact ⟨h0, by omega⟩

theorem csync_ftw_stops_append (w1 w2 : List csync_ftw_call) (rc : Int)
    (h1 : ∀ x ∈ w1, 0 ≤ x.rc) (h2 : csync_ftw_stops w2 rc) : csync_ftw_stops (w1 ++ w2) rc := by
  rcases h2 with h2 | ⟨pre, c, rfl, hpre, hc, hrc⟩
  · left
    intro c hc
    rcases List.mem_append.mp hc with h | h
    · exact h1 c h
    · exact h2 c h
  · right
    refine ⟨w1 ++ pre, c, by simp, ?_, hc, hrc⟩
    intro x hx
    rcases List.mem_append.mp hx with h | h
    · exact h1 x h
    · exact hpre x h

theorem csync_ftw_stops_nonneg (w : List csync_ftw_call) (rc : Int)
    (h : csync_ftw_stops w rc) (hrc : ¬ rc < 0) : ∀ x ∈ w, 0 ≤ x.rc := by
  rcases h with h | ⟨pre, c, _, _, hc, hrc'⟩
  · exact h
  · omega

theorem csync_ftw_below_step (uri d_name u : String) (d : Nat)
    (h : csync_ftw_below (uri ++ "/" ++ d_name) d u) : csync_ftw_below uri (d + 1) u := by
  obtain ⟨names, hl, rfl⟩ := h
  exact ⟨d_name :: names, by simpa using hl, rfl⟩

theorem csync_ftw_spec_refl (uri : String) (d : Nat) (run : csync_ftw_run) (rc : Int) :
    csync_ftw_spec uri d run (rc, run) :=
  ⟨[], [], by simp, by simp, by simp, by simp, Or.inl (by simp)⟩

theorem csync_ftw_spec_call (uri : String) (d : Nat) (run : csync_ftw_run) (ctx : CSYNC)
    (c : csync_ftw_call) (hc : c.d_name ≠ "." ∧ c.d_name ≠ "..") :
    csync_ftw_spec uri d run (c.rc, { run with ctx := ctx, walked := run.walked ++ [c] }) := by
  refine ⟨[], [c], by simp, rfl, by simp, by simpa using hc, ?_⟩
  by_cases h : c.rc < 0
  · exact Or.inr ⟨[], c, rfl, by simp, h, rfl⟩
  · exact Or.inl (by simpa using not_lt.mp h)

theorem csync_ftw_spec_lift (uri d_name : String) (d : Nat) (run : csync_ftw_run)
    (r : Int × csync_ftw_run) (h : csync_ftw_spec (uri ++ "/" ++ d_name) d run r) :
    csync_ftw_spec uri (d + 1) run r := by
  obtain ⟨o, w, ho, hw, hb, hn, hs⟩ := h
  exact ⟨o, w, ho, hw, fun u hu => csync_ftw_below_step uri d_name u d (hb u hu), hn, hs⟩

theorem csync_ftw_spec_trans (uri : String) (d : Nat) (run : csync_ftw_run)
    (r1 r : Int × csync_ftw_run) (h1 : csync_ftw_spec uri d run r1) (hrc : ¬ r1.1 < 0)
    (h2 : csync_ftw_spec uri d r1.2 r) : csync_ftw_spec uri d run r := by
  obtain ⟨o1, w1, ho1, hw1, hb1, hn1, hs1⟩ := h1
  obtain ⟨o2, w2, ho2, hw2, hb2, hn2, hs2⟩ := h2
  refine ⟨o1 ++ o2, w1 ++ w2, by rw [ho2, ho1]; simp, by rw [hw2, hw1]; simp, ?_, ?_, ?_⟩
  · intro u hu
    rcases List.mem_append.mp hu with h | h
    · exact hb1 u h
    · exact hb2 u h
  · intro c hc
    rcases List.mem_append.mp hc with h | h
    · exact hn1 c h
    · exact hn2 c h
  · exact csync_ftw_stops_append w1 w2 _ (csync_ftw_stops_nonneg w1 _ hs1 hrc) hs2

/-- What the loop of a walk does, when the recursive call does what a walk of
one level less may do. -/
theorem csync_ftw_entries_spec (vio : csync_vio) (fn : csync_walker_fn)
    (descend : Option (String → csync_ftw_run → Int × csync_ftw_run)) (uri : String) (d : Nat)
    (hdesc : ∀ f, descend = some f →
      ∃ d', d = d' + 1 ∧ ∀ u r, csync_ftw_spec u d' r (f u r)) :
    ∀ (entries : List csync_vio_file_stat_t) (rc : Int) (run : csync_ftw_run),
      csync_ftw_spec uri d run (csync_ftw_entries vio fn descend uri entries rc run) := by
  intro entries
  induction entries with
  | nil =>
    intro rc run
    exact csync_ftw_spec_refl uri d run rc
  | cons dirent rest ih =>
    intro rc run
    unfold csync_ftw_entries
    cases dirent.name with
    | none => exact csync_ftw_spec_refl uri d run _
    | some d_name =>
      dsimp only
      split
      · exact ih _ _
      · rename_i hdot
        have hcall := csync_ftw_spec_call uri d run
          (fn run.ctx (uri ++ "/" ++ d_name)
            ((vio.stat (uri ++ "/" ++ d_name)).getD csync_vio_file_stat_new)
            (csync_ftw_flag (vio.stat (uri ++ "/" ++ d_name)))).2
          ⟨d_name, uri ++ "/" ++ d_name, csync_ftw_flag (vio.stat (uri ++ "/" ++ d_name)),
            (fn run.ctx (uri ++ "/" ++ d_name)
              ((vio.stat (uri ++ "/" ++ d_name)).getD csync_vio_file_stat_new)
              (csync_ftw_flag (vio.stat (uri ++ "/" ++ d_name)))).1⟩
          (by simpa using hdot)
        split
        · exact csync_ftw_spec_refl uri d run _
        · split
          · exact hcall
          · rename_i hnn
            split
            · rename_i f hf
              have hd : descend = some f := by
                split at hf
                · exact hf
                · exact absurd hf (by simp)
              obtain ⟨d', rfl, hspec⟩ := hdesc f hd
              have h2 := csync_ftw_spec_trans uri (d' + 1) run _ _ hcall hnn
                (csync_ftw_spec_lift uri d_name d' _ _ (hspec (uri ++ "/" ++ d_name) _))
              split
              · exact h2
              · rename_i hnn2
                exact csync_ftw_spec_trans uri (d' + 1) run _ _ h2 hnn2 (ih _ _)
            · exact csync_ftw_spec_trans uri d run _ _ hcall hnn (ih _ _)

theorem csync_ftw_dir_spec (vio : csync_vio) (fn : csync_walker_fn)
    (descend : Option (String → csync_ftw_run → Int × csync_ftw_run)) (uri : String) (d : Nat)
    (hdesc : ∀ f, descend = some f →
      ∃ d', d = d' + 1 ∧ ∀ u r, csync_ftw_spec u d' r (f u r))
    (run : csync_ftw_run) :
    csync_ftw_spec uri d run (csync_ftw_dir vio fn descend uri run) := by
  have hopen : csync_ftw_spec uri d run (0, { run with opened := run.opened ++ [uri] }) :=
    ⟨[uri], [], rfl, by simp, by
      intro u hu
      simp only [List.mem_singleton] at hu
      exact ⟨[], by simp, by simpa using hu⟩, by simp, Or.inl (by simp)⟩
  have hopen' : ∀ rc : Int,
      csync_ftw_spec uri d run (rc, { run with opened := run.opened ++ [uri] }) := by
    intro rc
    obtain ⟨o, w, ho, hw, hb, hn, hs⟩ := hopen
    refine ⟨o, w, ho, hw, hb, hn, Or.inl ?_⟩
    have : w = [] := by simpa using hw
    simp [this]
  unfold csync_ftw_dir
  split
  · exact csync_ftw_spec_refl uri d run _
  · dsimp only
    split
    · split
      · exact hopen' _
      · exact hopen' _
    · exact csync_ftw_spec_trans uri d run _ _ hopen (show ¬ (0 : Int) < 0 by decide)
        (csync_ftw_entries_spec vio fn descend uri d hdesc _ _ _)

/-- What a walk does. -/
theorem csync_ftw_does (vio : csync_vio) (fn : csync_walker_fn) (d : Nat) :
    ∀ (uri : String) (run : csync_ftw_run),
      csync_ftw_spec uri d run (csync_ftw vio fn uri d run) := by
  induction d with
  | zero =>
    intro uri run
    unfold csync_ftw
    exact csync_ftw_dir_spec vio fn none uri 0 (fun f hf => absurd hf (by simp)) run
  | succ d ih =>
    intro uri run
    unfold csync_ftw
    refine csync_ftw_dir_spec vio fn _ uri (d + 1) (fun f hf => ?_) run
    simp only [Option.some.injEq] at hf
    subst hf
    exact ⟨d, rfl, fun u r => ih u r⟩

/-- The loop of a walk that does not descend calls the walker for the entries
in their order, "." and ".." left out, as long as every entry has a name, every
file name can be built and the walker returns no negative value. -/
theorem csync_ftw_entries_flat (vio : csync_vio) (fn : csync_walker_fn) (uri : String)
    (hasp : ∀ n, ¬ vio.asprintf uri n < 0) (hfn : ∀ c f s g, ¬ (fn c f s g).1 < 0) :
    ∀ (entries : List csync_vio_file_stat_t) (rc : Int) (run : csync_ftw_run),
      (∀ e ∈ entries, e.name ≠ none) →
      (csync_ftw_entries vio fn none uri entries rc run).2.walked.map (fun c => c.d_name) =
        run.walked.map (fun c => c.d_name) ++
          (entries.filterMap (fun e => e.name)).filter (fun n => n ≠ "." ∧ n ≠ "..") := by
  intro entries
  induction entries with
  | nil => intro rc run _; simp [csync_ftw_entries]
  | cons dirent rest ih =>
    intro rc run hname
    have hrest : ∀ e ∈ rest, e.name ≠ none := fun e he => hname e (List.mem_cons_of_mem _ he)
    unfold csync_ftw_entries
    have hd := hname dirent (List.mem_cons_self _ _)
    cases hdn : dirent.name with
    | none => exact absurd hdn hd
    | some d_name =>
      dsimp only
      by_cases hdot : d_name = "." ∨ d_name = ".."
      · rw [if_pos hdot, ih _ _ hrest]
        have : ¬ (d_name ≠ "." ∧ d_name ≠ "..") := by
          rcases hdot with h | h <;> simp [h]
        simp [List.filterMap_cons, hdn, List.filter_cons, this]
      · rw [if_neg hdot, if_neg (hasp _), if_neg (hfn _ _ _ _)]
        simp only [ite_self]
        rw [ih _ _ hrest]
        have : d_name ≠ "." ∧ d_name ≠ ".." := by
          constructor <;> intro h <;> simp [h] at hdot
        simp [List.filterMap_cons, hdn, List.filter_cons, this]

/-- From the stop property of a walk to its plain form. -/
theorem csync_ftw_stops_last (walked : List csync_ftw_call) (rc : Int)
    (h : csync_ftw_stops walked rc) (pre : List csync_ftw_call) (c : csync_ftw_call)
    (suf : List csync_ftw_call) (hw : walked = pre ++ c :: suf) (hc : c.rc < 0) :
    suf = [] ∧ rc = c.rc := by
  rcases h with h | ⟨pre', c', hw', hpre, hc', hrc⟩
  · have := h c (by rw [hw]; simp)
    omega
  · rcases List.eq_nil_or_concat suf with rfl | ⟨s', x, rfl⟩
    · rw [hw] at hw'
      obtain ⟨_, h2⟩ := List.append_inj' hw' rfl
      simp only [List.cons.injEq, and_true] at h2
      subst h2
      exact ⟨rfl, hrc⟩
    · rw [hw, List.concat_eq_append] at hw'
      have e : pre ++ c :: (s' ++ [x]) = (pre ++ c :: s') ++ [x] := by simp
      rw [e] at hw'
      obtain ⟨h1, _⟩ := List.append_inj' hw' rfl
      have := hpre c (by rw [← h1]; simp)
      omega

theorem digitChar_isDigit (d : Nat) (hd : d < 10) :
    (Nat.digitChar d).isDigit = true ∧ (Nat.digitChar d).toNat - '0'.toNat = d ∧
    isspace (Nat.digitChar d) = false ∧ Nat.digitChar d ≠ '-' ∧ Nat.digitChar d ≠ '+' := by
  interval_cases d <;> decide

/-- Reading back the decimal digits of a number: `strtol_digits` on the digits
of `n` followed by `ds` goes on with `n` at `ds`. -/
theorem strtol_digits_toDigitsCore (f : Nat) :
    ∀ (n : Nat) (ds : List Char), n < f →
      strtol_digits (Nat.toDigitsCore 10 f n ds) 0 = strtol_digits ds n := by
  induction f with
  | zero => intro n ds h; omega
  | succ f ih =>
    intro n ds h
    obtain ⟨h1, h2, _⟩ := digitChar_isDigit (n % 10) (Nat.mod_lt _ (by decide))
    unfold Nat.toDigitsCore
    dsimp only
    by_cases h0 : n / 10 = 0
    · rw [if_pos h0]
      have hn : n % 10 = n := Nat.mod_eq_of_lt (by omega)
      rw [strtol_digits, if_pos h1, h2, hn]
      simp
    · rw [if_neg h0, ih (n / 10) _ (by omega), strtol_digits, if_pos h1, h2]
      congr 1
      omega

/-- The first of the decimal digits of a number is a digit. -/
theorem toDigitsCore_head (f : Nat) :
    ∀ (n : Nat) (ds : List Char), n < f →
      ∃ d rest, d < 10 ∧ Nat.toDigitsCore 10 f n ds = Nat.digitChar d :: rest := by
  induction f with
  | zero => intro n ds h; omega
  | succ f ih =>
    intro n ds h
    unfold Nat.toDigitsCore
    dsimp only
    by_cases h0 : n / 10 = 0
    · rw [if_pos h0]
      exact ⟨n % 10, ds, Nat.mod_lt _ (by decide), rfl⟩
    · rw [if_neg h0]
      exact ih (n / 10) _ (by omega)

theorem toDigitsCore_append (f : Nat) :
    ∀ (n : Nat) (ds : List Char),
      Nat.toDigitsCore 10 f n ds = Nat.toDigitsCore 10 f n [] ++ ds := by
  induction f with
  | zero => intro n ds; rfl
  | succ f ih =>
    intro n ds
    unfold Nat.toDigitsCore
    dsimp only
    by_cases h0 : n / 10 = 0
    · rw [if_pos h0, if_pos h0]
      rfl
    · rw [if_neg h0, if_neg h0, ih _ (_ :: ds), ih _ [_]]
      simp

/-- What `strtol` reads from the first 7 bytes of the decimal digits of a
number below 100000 followed by a newline: the number, and `errno` as it was. -/
theorem strtol_lock_content (p : Nat) (hp : p < 100000) (errno : Int) :
    strtol ((sprintf_d (p : Int) ++ "\n").data.take 7) errno = ((p : Int), errno) := by
  have hs : sprintf_d (p : Int) = Nat.repr p := rfl
  have hlen := Nat.repr_length p 5 (by decide)
    (by have : (10 : Nat) ^ 5 = 100000 := by norm_num
        omega)
  have hdata : (sprintf_d (p : Int) ++ "\n").data = Nat.toDigitsCore 10 (p + 1) p ['\n'] := by
    rw [hs, toDigitsCore_append]
    rfl
  have htake : (sprintf_d (p : Int) ++ "\n").data.take 7 =
      Nat.toDigitsCore 10 (p + 1) p ['\n'] := by
    rw [← hdata]
    apply List.take_of_length_le
    have : (sprintf_d (p : Int) ++ "\n").data.length = (Nat.repr p).length + 1 := by
      rw [hs, String.data_append, List.length_append]
      rfl
    omega
  rw [htake]
  obtain ⟨d, rest, hd, hhead⟩ := toDigitsCore_head (p + 1) p ['\n'] (by omega)
  obtain ⟨_, _, h3, h4, h5⟩ := digitChar_isDigit d hd
  have hval := strtol_digits_toDigitsCore (p + 1) p ['\n'] (by omega)
  unfold strtol
  have hdrop : (Nat.toDigitsCore 10 (p + 1) p ['\n']).dropWhile isspace =
      Nat.toDigitsCore 10 (p + 1) p ['\n'] := by
    rw [hhead, List.dropWhile_cons, h3]
    rfl
  dsimp only
  rw [hdrop]
  have hh : (Nat.toDigitsCore 10 (p + 1) p ['\n']).head? = some (Nat.digitChar d) := by
    rw [hhead]
    rfl
  have hneg : ¬ ((Nat.toDigitsCore 10 (p + 1) p ['\n']).head? = some '-') := by
    rw [hh]
    simpa using h4
  have hsign : ¬ ((Nat.toDigitsCore 10 (p + 1) p ['\n']).head? = some '-' ∨
      (Nat.toDigitsCore 10 (p + 1) p ['\n']).head? = some '+') := by
    rw [hh]
    simpa using ⟨h4, h5⟩
  rw [if_neg hsign, if_neg hneg, hval]
  have hnl : strtol_digits ['\n'] p = p := by
    simp [strtol_digits]
  rw [hnl, if_neg (by omega)]

/-- The unsigned and the signed rendering of a value from 0 to 2^32 - 1 are
the same string. -/
theorem sprintf_u_eq_sprintf_d (n : Nat) (hn : n < 4294967296) :
    sprintf_u (n : Int) = sprintf_d (n : Int) := by
  have h : ((n : Int) % 4294967296).toNat = n := by omega
  unfold sprintf_u sprintf_d
  rw [h]
  rfl

end cycle_lemmas

/-! ## The commit, the phases and the abort flag -/

/-- C22, as the code has it. No phase operation tests the status. On a context
that is there, with the walks of the updater and with propagators that leave
the status alone: `csync_update` returns 0 and has added the UPDATE bit to the
status, or returns -1 and the status is as it was, and which of the two it
does is the same for every value of the status; `csync_reconcile` returns 0
and has added the RECONCILE bit, whatever the status; `csync_propagate` returns
0 and has added the PROPAGATE bit, or returns -1 and the status is as it was.
A bit that is added is added with `|`, so the bits already set are kept. -/
theorem phases_add_status_bit (vio : csync_vio) (wext : csync_walker_externals)
    (MAX_DEPTH : Nat) (asprintf_lock csync_lock : Int) (rext : csync_externals)
    (pext : csync_propagate_externals) (ctx : CSYNC)
    (hdirs : ∀ c, (pext.csync_propagate_rename_dirs c).2.status = c.status)
    (hfiles : ∀ c, (pext.csync_propagate_files c).2.status = c.status) :
    (∃ ctx' : CSYNC,
      (csync_update (csync_update_with vio wext MAX_DEPTH asprintf_lock csync_lock)
          (some ctx) = (0, some ctx') ∧
        ctx'.status = ctx.status ||| CSYNC_STATUS_UPDATE) ∨
      (csync_update (csync_update_with vio wext MAX_DEPTH asprintf_lock csync_lock)
          (some ctx) = (-1, some ctx') ∧ ctx'.status = ctx.status)) ∧
    (∀ status : Nat,
      (csync_update (csync_update_with vio wext MAX_DEPTH asprintf_lock csync_lock)
        (some { ctx with status := status })).1 =
      (csync_update (csync_update_with vio wext MAX_DEPTH asprintf_lock csync_lock)
        (some ctx)).1) ∧
    (∃ ctx' : CSYNC, csync_reconcile rext (some ctx) = (0, some ctx') ∧
      ctx'.status = ctx.status ||| CSYNC_STATUS_RECONCILE) ∧
    (∃ ctx' : CSYNC,
      (csync_propagate pext (some ctx) = (0, some ctx') ∧
        ctx'.status = ctx.status ||| CSYNC_STATUS_PROPAGATE) ∨
      (csync_propagate pext (some ctx) = (-1, some ctx') ∧ ctx'.status = ctx.status)) := by
  obtain ⟨c2, h2, s2, _⟩ := csync_reconcile_succeeds rext ctx
  exact ⟨csync_update_status _ ctx (csync_update_ftw_status vio wext MAX_DEPTH),
    csync_update_any_status vio wext MAX_DEPTH asprintf_lock csync_lock ctx, ⟨c2, h2, s2⟩,
    csync_propagate_status pext ctx hdirs hfiles⟩

/-- C22 at a sample input: the context after `csync_init` over the sample file
system, with the walks of the updater and propagators that succeed. The three
phases return 0 and add their bits: the status goes from 1 to 3, from 3 to 7
and from 7 to 15. -/
theorem phases_add_status_bit_witness :
    (∃ ctx' : CSYNC,
      (csync_propagate propagate_ext0 (some { ctx_init with remote_uri := "/l/d" }) =
          (0, some ctx') ∧
        ctx'.status =
          ({ ctx_init with remote_uri := "/l/d" } : CSYNC).status ||| CSYNC_STATUS_PROPAGATE) ∨
      (csync_propagate propagate_ext0 (some { ctx_init with remote_uri := "/l/d" }) =
          (-1, some ctx') ∧
        ctx'.status = ({ ctx_init with remote_uri := "/l/d" } : CSYNC).status)) ∧
    csync_update update_ext0 (some { ctx_init with remote_uri := "/l/d" }) =
      (0, some { ctx_init with
        remote_uri := "/l/d", current := REMOTE_REPLICA, replica := REMOTE_REPLICA,
        status := 3 }) ∧
    ((csync_update update_ext0 (some { ctx_init with remote_uri := "/l/d" })).2.bind
      (fun c => (csync_reconcile ext0 (some c)).2)).map (fun c => c.status) = some 7 ∧
    (((csync_update update_ext0 (some { ctx_init with remote_uri := "/l/d" })).2.bind
      (fun c => (csync_reconcile ext0 (some c)).2)).bind
      (fun c => (csync_propagate propagate_ext0 (some c)).2)).map (fun c => c.status) =
        some 15 :=
  ⟨(phases_add_status_bit vio0 walker_ext0 50 10 0 ext0 propagate_ext0
      { ctx_init with remote_uri := "/l/d" } (fun _ => rfl) (fun _ => rfl)).2.2.2,
    by decide, by decide, by decide⟩

/-- C22 as stated fails: on a context whose status is 0, so that no bit is
set, each of the three phase operations returns 0 and sets its own bit.
`csync_update` makes its walks over the directories "/l" and "/l/d" of the
sample file system. -/
theorem phases_without_required_bit :
    (ctx_none [] []).status = 0 ∧
    (csync_ftw vio0 (csync_walker walker_ext0) "/l" 50
      { ctx := ctx_none [] [], opened := [], walked := [] }).2.walked.map (fun c => c.file) =
        ["/l/a", "/l/d", "/l/d/b", "/l/d/e", "/l/d/e/c"] ∧
    (csync_update update_ext0 (some (ctx_none [] []))).1 = 0 ∧
    (csync_update update_ext0 (some (ctx_none [] []))).2.map (fun c => c.status) =
      some CSYNC_STATUS_UPDATE ∧
    (csync_reconcile ext0 (some (ctx_none [] []))).1 = 0 ∧
    (csync_reconcile ext0 (some (ctx_none [] []))).2.map (fun c => c.status) =
      some CSYNC_STATUS_RECONCILE ∧
    (csync_propagate propagate_ext0 (some (ctx_none [] []))).1 = 0 ∧
    (csync_propagate propagate_ext0 (some (ctx_none [] []))).2.map (fun c => c.status) =
      some CSYNC_STATUS_PROPAGATE := by
  decide

/-- C23, as the code has it. `csync_request_abort` sets the abort flag and
`csync_resume` clears it, and neither `csync_reconcile` nor `csync_update`
reads it. On a context with the flag set, `csync_reconcile` returns 0, adds
the RECONCILE bit, leaves the error code `CSYNC_ERR_NONE` and the flag set;
`csync_update`, with the walks of the updater, returns what it returns
without the flag and leaves the context it leaves without the flag, the flag
set. -/
theorem abort_flag_not_read (rext : csync_externals) (vio : csync_vio)
    (wext : csync_walker_externals) (MAX_DEPTH : Nat) (asprintf_lock csync_lock : Int)
    (ctx : CSYNC) :
    (csync_request_abort ctx).abort = true ∧ (csync_resume ctx).abort = false ∧
    (∃ ctx' : CSYNC, csync_reconcile rext (some (csync_request_abort ctx)) = (0, some ctx') ∧
      ctx'.status = ctx.status ||| CSYNC_STATUS_RECONCILE ∧
      ctx'.error_code = CSYNC_ERR_NONE ∧ ctx'.abort = true) ∧
    csync_update (csync_update_with vio wext MAX_DEPTH asprintf_lock csync_lock)
        (some (csync_request_abort ctx)) =
      ((csync_update (csync_update_with vio wext MAX_DEPTH asprintf_lock csync_lock)
          (some ctx)).1,
        (csync_update (csync_update_with vio wext MAX_DEPTH asprintf_lock csync_lock)
          (some ctx)).2.map csync_request_abort) :=
  ⟨rfl, rfl, csync_reconcile_succeeds rext (csync_request_abort ctx),
    csync_update_abort vio wext MAX_DEPTH asprintf_lock csync_lock ctx⟩

/-- C23 as stated fails: the abort flag is set by `csync_request_abort`, and
each tree holds one record. `csync_reconcile` returns 0, the error code is not
`CSYNC_ERR_USER_ABORT`, the RECONCILE bit is set and both records have been
processed (they are NONE). Likewise `csync_update` over a directory with
entries returns 0 without error and sets the UPDATE bit. -/
theorem abort_set_phases_succeed :
    (csync_request_abort (ctx0 LOCAL_REPLICA false [st0 1 "a" CSYNC_INSTRUCTION_NEW]
      [st0 1 "a" CSYNC_INSTRUCTION_NEW])).abort = true ∧
    csync_reconcile ext0 (some (csync_request_abort (ctx0 LOCAL_REPLICA false
        [st0 1 "a" CSYNC_INSTRUCTION_NEW] [st0 1 "a" CSYNC_INSTRUCTION_NEW]))) =
      (0, some { ctx0 REMOTE_REPLICA false [st0 1 "a" CSYNC_INSTRUCTION_NONE]
          [st0 1 "a" CSYNC_INSTRUCTION_NONE] with
        status := 7, error_code := CSYNC_ERR_NONE, abort := true }) ∧
    csync_update (csync_update_with vio0 walker_ext0 50 10 0)
        (some (csync_request_abort { ctx_init with remote_uri := "/x" })) =
      (0, some { ctx_init with
        remote_uri := "/x", current := REMOTE_REPLICA, replica := REMOTE_REPLICA,
        status := 3, error_code := CSYNC_ERR_NONE, abort := true }) := by
  decide

/-! ## The walker of the updater -/

/-- C24, as the code has it. For every entry the walk passes to it,
`csync_walker` returns 0 and leaves the context, and with it both trees, as
they are: no journal row is read and no record is inserted (the hash that
`csync_detect_update` computes is dropped). Hence a walk of the updater
leaves the context as it is. -/
theorem csync_walker_inserts_nothing (ext : csync_walker_externals) (vio : csync_vio)
    (ctx : CSYNC) (file : String) (fs : csync_vio_file_stat_t) (flag : csync_ftw_flags_e)
    (uri : String) (depth : Nat) (run : csync_ftw_run) :
    csync_walker ext ctx file fs flag = (0, ctx) ∧
    (csync_ftw vio (csync_walker ext) uri depth run).2.ctx = run.ctx :=
  ⟨csync_walker_eq ext ctx file fs flag,
   csync_ftw_ctx vio (csync_walker ext) (fun c f s g => by rw [csync_walker_eq]) depth uri run⟩

/-- C24 as stated fails: the walker is called for the regular file "/l/a",
which is not excluded and has a stat, on a context with empty trees. No record
for the hash of "/l/a" is in a tree afterwards; and after the walk over the
whole sample file system both trees are still empty. -/
theorem csync_walker_no_record :
    c_rbtree_find
      (csync_walker walker_ext0 ftw_run0.ctx "/l/a" (vio_file "a") CSYNC_FTW_FLAG_FILE).2.local_tree
      (walker_ext0.c_jhash64 "/l/a") = none ∧
    (csync_ftw vio0 (csync_walker walker_ext0) "/l" 50 ftw_run0).1 = 0 ∧
    (csync_ftw vio0 (csync_walker walker_ext0) "/l" 50 ftw_run0).2.walked.map
      (fun c => c.file) = ["/l/a", "/l/d", "/l/d/b", "/l/d/e", "/l/d/e/c"] ∧
    (csync_ftw vio0 (csync_walker walker_ext0) "/l" 50 ftw_run0).2.ctx.local_tree = [] ∧
    (csync_ftw vio0 (csync_walker walker_ext0) "/l" 50 ftw_run0).2.ctx.remote_tree = [] := by
  decide

/-! ## The tree walk with instruction filter -/

/-- The tree walk at a sample input: the local tree holds an EVAL, a NONE and
a NEW record and the userdata of the user is the pointer 5. With the filter 9
(EVAL or NEW) the visitor is called for the first and the third record, with
the userdata 5, and what it leaves (UPDATED) is written to these two records;
with the filter 0 it is called for all three; the userdata of the context is
5 afterwards. Without a visitor the walk fails with `CSYNC_ERR_PARAM`. -/
theorem csync_walk_tree_sample :
    (csync_walk_local_tree treewalk_ext0
      (some { ctx0 LOCAL_REPLICA false
          [st0 1 "a" CSYNC_INSTRUCTION_EVAL, st0 2 "b" CSYNC_INSTRUCTION_NONE,
            st0 3 "c" CSYNC_INSTRUCTION_NEW] [] with
          callbacks_userdata := csync_pointer.user 5 })
      (some 1) 9).2.map
        (fun c => (c.local_tree.map (fun st => st.instruction),
          c.visited.map (fun x => (x.1.path, x.2)), c.callbacks_userdata)) =
      some ([CSYNC_INSTRUCTION_UPDATED, CSYNC_INSTRUCTION_NONE, CSYNC_INSTRUCTION_UPDATED],
        [("a", csync_pointer.user 5), ("c", csync_pointer.user 5)], csync_pointer.user 5) ∧
    (csync_walk_local_tree treewalk_ext0
      (some { ctx0 LOCAL_REPLICA false
          [st0 1 "a" CSYNC_INSTRUCTION_EVAL, st0 2 "b" CSYNC_INSTRUCTION_NONE,
            st0 3 "c" CSYNC_INSTRUCTION_NEW] [] with
          callbacks_userdata := csync_pointer.user 5 })
      (some 1) 0).2.map (fun c => c.visited.map (fun x => x.1.path)) = some ["a", "b", "c"] ∧
    (csync_walk_local_tree treewalk_ext0
      (some (ctx0 LOCAL_REPLICA false [] [])) none 0).2.map (fun c => c.error_code) =
        some CSYNC_ERR_PARAM := by
  decide

/-! ## The journal lookups -/

/-- C26: the journal lookups. `csync_statedb_get_stat_by_hash` yields a record
with the `phash` asked for, and with the inode of a row that has this `phash`,
when the table has such a row, and NULL when it has none;
`csync_statedb_get_stat_by_inode` yields a record with the inode asked for,
and with the `phash` of a row that has this inode, when the table has such a
row, and NULL when it has none. -/
theorem csync_statedb_lookups (db : csync_statedb_t) (phash inode : Nat) :
    ((∃ row ∈ db, row.phash = phash) →
      ∃ st row, csync_statedb_get_stat_by_hash db phash = some st ∧ row ∈ db ∧
        row.phash = phash ∧ st.phash = phash ∧ st.inode = row.inode) ∧
    ((¬ ∃ row ∈ db, row.phash = phash) → csync_statedb_get_stat_by_hash db phash = none) ∧
    ((∃ row ∈ db, row.inode = inode) →
      ∃ st row, csync_statedb_get_stat_by_inode db inode = some st ∧ row ∈ db ∧
        row.inode = inode ∧ st.inode = inode ∧ st.phash = row.phash) ∧
    ((¬ ∃ row ∈ db, row.inode = inode) → csync_statedb_get_stat_by_inode db inode = none) := by
  refine ⟨?_, ?_, ?_, ?_⟩
  · rintro ⟨row, hrow, hp⟩
    cases hf : db.find? (fun row => row.phash = phash) with
    | none =>
      have := List.find?_eq_none.mp hf row hrow
      simp [hp] at this
    | some r =>
      have h1 := List.find?_some hf
      have h2 := List.mem_of_find?_eq_some hf
      simp only [decide_eq_true_eq] at h1
      exact ⟨r.stat, r, by simp [csync_statedb_get_stat_by_hash, hf], h2, h1, h1, rfl⟩
  · intro hn
    have : db.find? (fun row => row.phash = phash) = none := by
      rw [List.find?_eq_none]
      intro row hrow
      simp only [decide_eq_true_eq]
      exact fun h => hn ⟨row, hrow, h⟩
    simp [csync_statedb_get_stat_by_hash, this]
  · rintro ⟨row, hrow, hp⟩
    cases hf : db.find? (fun row => row.inode = inode) with
    | none =>
      have := List.find?_eq_none.mp hf row hrow
      simp [hp] at this
    | some r =>
      have h1 := List.find?_some hf
      have h2 := List.mem_of_find?_eq_some hf
      simp only [decide_eq_true_eq] at h1
      exact ⟨r.stat, r, by simp [csync_statedb_get_stat_by_inode, hf], h2, h1, h1, rfl⟩
  · intro hn
    have : db.find? (fun row => row.inode = inode) = none := by
      rw [List.find?_eq_none]
      intro row hrow
      simp only [decide_eq_true_eq]
      exact fun h => hn ⟨row, hrow, h⟩
    simp [csync_statedb_get_stat_by_inode, this]

/-- C26 at a sample input: in the journal of the test the lookup of the hash
42 yields a record, and the lookup of the inode 666 yields NULL. -/
theorem csync_statedb_lookups_witness :
    (∃ st row, csync_statedb_get_stat_by_hash statedb_test 42 = some st ∧ row ∈ statedb_test ∧
      row.phash = 42 ∧ st.phash = 42 ∧ st.inode = row.inode) ∧
    csync_statedb_get_stat_by_inode statedb_test 666 = none :=
  ⟨(csync_statedb_lookups statedb_test 42 666).1 ⟨_, List.mem_singleton.mpr rfl, rfl⟩,
   (csync_statedb_lookups statedb_test 42 666).2.2.2 (by decide)⟩

/-- The lookups at the journal of the test: the row with `phash` 42 and inode 23 is
found by hash and by inode, and the lookups of 666 find nothing. -/
theorem csync_statedb_lookups_test :
    (csync_statedb_get_stat_by_hash statedb_test 42).map (fun st => (st.phash, st.inode)) =
      some (42, 23) ∧
    csync_statedb_get_stat_by_hash statedb_test 666 = none ∧
    (csync_statedb_get_stat_by_inode statedb_test 23).map (fun st => (st.phash, st.inode)) =
      some (42, 23) ∧
    csync_statedb_get_stat_by_inode statedb_test 666 = none := by
  decide

/-! ## The bounded walk -/

/-- C27: the bounded walk. `csync_ftw` is defined by recursion on `depth` and
on the entries of a listing, so it ends for every file system with finite
listings. Of the directories it opens and the calls of the walker it makes:
every directory opened lies at most `depth` levels below `uri`, and with
`depth` 0 only `uri` is opened while the walker is called for the entries of
`uri` in their order; the walker is never called for "." or ".."; when the
walker returns a negative value, that call is the last one and its value is
what `csync_ftw` returns; and when `opendir` of `uri` fails with EACCES,
`csync_ftw` returns 0 and the walker is not called. -/
theorem csync_ftw_bounded (vio : csync_vio) (fn : csync_walker_fn) (uri : String)
    (depth : Nat) (run : csync_ftw_run) :
    ∃ (opened : List String) (walked : List csync_ftw_call),
      (csync_ftw vio fn uri depth run).2.opened = run.opened ++ opened ∧
      (csync_ftw vio fn uri depth run).2.walked = run.walked ++ walked ∧
      (∀ u ∈ opened, ∃ names : List String, names.length ≤ depth ∧
        u = names.foldl (fun u n => u ++ "/" ++ n) uri) ∧
      (depth = 0 → ∀ u ∈ opened, u = uri) ∧
      (depth = 0 → ∀ entries, uri ≠ "" → vio.opendir uri = Except.ok entries →
        (∀ e ∈ entries, e.name ≠ none) → (∀ n, ¬ vio.asprintf uri n < 0) →
        (∀ c f s g, ¬ (fn c f s g).1 < 0) →
        walked.map (fun c => c.d_name) =
          (entries.filterMap (fun e => e.name)).filter (fun n => n ≠ "." ∧ n ≠ "..")) ∧
      (∀ c ∈ walked, c.d_name ≠ "." ∧ c.d_name ≠ "..") ∧
      (∀ pre c suf, walked = pre ++ c :: suf → c.rc < 0 →
        suf = [] ∧ (csync_ftw vio fn uri depth run).1 = c.rc) ∧
      (uri ≠ "" → vio.opendir uri = Except.error EACCES →
        (csync_ftw vio fn uri depth run).1 = 0 ∧ walked = [] ∧
        (csync_ftw vio fn uri depth run).2.ctx = run.ctx) := by
  obtain ⟨opened, walked, ho, hw, hb, hn, hs⟩ := csync_ftw_does vio fn depth uri run
  refine ⟨opened, walked, ho, hw, hb, ?_, ?_, hn,
    fun pre c suf h hc => csync_ftw_stops_last walked _ hs pre c suf h hc, ?_⟩
  · rintro rfl u hu
    obtain ⟨names, hl, rfl⟩ := hb u hu
    have : names = [] := by simpa using hl
    subst this
    rfl
  · rintro rfl entries huri hopen hname hasp hfn
    have h := csync_ftw_entries_flat vio fn uri hasp hfn entries 0
      { run with opened := run.opened ++ [uri] } hname
    have e : csync_ftw vio fn uri 0 run =
        csync_ftw_entries vio fn none uri entries 0 { run with opened := run.opened ++ [uri] } := by
      simp [csync_ftw, csync_ftw_dir, huri, hopen]
    rw [← e, hw] at h
    simpa using h
  · intro huri hacc
    have e : csync_ftw vio fn uri depth run = (0, { run with opened := run.opened ++ [uri] }) := by
      cases depth <;> simp [csync_ftw, csync_ftw_dir, huri, hacc]
    rw [e] at hw
    exact ⟨by rw [e], by simpa using hw, by rw [e]⟩

/-- C27 at a sample input: the directory "/x" cannot be opened (EACCES); the
walk returns 0 and the walker is not called. -/
theorem csync_ftw_bounded_witness :
    (csync_ftw vio0 walker_fail_b "/x" 5 ftw_run0).1 = 0 ∧
    (csync_ftw vio0 walker_fail_b "/x" 5 ftw_run0).2.walked = [] := by
  obtain ⟨o, w, _, hw, _, _, _, _, _, h⟩ := csync_ftw_bounded vio0 walker_fail_b "/x" 5 ftw_run0
  obtain ⟨h1, h2, _⟩ := h (by decide) rfl
  rw [h2] at hw
  exact ⟨h1, hw⟩

/-- The walk at sample inputs: the walk of the sample file system with depth 1
opens "/l" and "/l/d" and not "/l/d/e", and calls the walker for "a", "d", "b"
and "e"; with depth 0 it opens "/l" only; with the walker that fails on
"/l/d/b" it returns -7 right after that call; and the walk of "/x", which
cannot be opened, returns 0. -/
theorem csync_ftw_sample_walks :
    (csync_ftw vio0 (csync_walker walker_ext0) "/l" 1 ftw_run0).2.opened = ["/l", "/l/d"] ∧
    (csync_ftw vio0 (csync_walker walker_ext0) "/l" 1 ftw_run0).2.walked.map
      (fun c => c.d_name) = ["a", "d", "b", "e"] ∧
    (csync_ftw vio0 (csync_walker walker_ext0) "/l" 0 ftw_run0).2.opened = ["/l"] ∧
    (csync_ftw vio0 (csync_walker walker_ext0) "/l" 0 ftw_run0).2.walked.map
      (fun c => c.d_name) = ["a", "d"] ∧
    (csync_ftw vio0 walker_fail_b "/l" 5 ftw_run0).1 = -7 ∧
    (csync_ftw vio0 walker_fail_b "/l" 5 ftw_run0).2.walked.map (fun c => (c.file, c.rc)) =
      [("/l/a", 0), ("/l/d", 0), ("/l/d/b", -7)] ∧
    csync_ftw vio0 walker_fail_b "/x" 5 ftw_run0 =
      (0, { ftw_run0 with opened := ["/x"] }) := by
  decide

/-! ## The lock file -/

/-- C28, as the code has it. For every process id p from 1 to 65535:
`_csync_lock_create`, when every step of it succeeds, leaves a lock file whose
content is the decimal digits of p followed by a newline; and
`_csync_lock_read` of a lock file with this content returns p and does not
remove the file, when `errno` is not `ERANGE` as `strtol` is called and `kill`
does not report that there is no process p. -/
theorem csync_lock_round_trip (p : Nat) (cenv : csync_lock_create_env)
    (renv : csync_lock_read_env) (hp0 : 0 < p) (hp : p ≤ 65535)
    (hpid : cenv.getpid = p) (hdir : cenv.c_dirname ≠ none) (hasp : 0 ≤ cenv.asprintf)
    (hfd : 0 ≤ cenv.mkstemp) (hwrite : ∀ buf, cenv.write buf = buf.length)
    (hlink : 0 ≤ cenv.link)
    (hopen : renv.topen ≠ 0) (hfile : renv.file = (_csync_lock_create cenv).2)
    (herrno : renv.errno ≠ ERANGE) (halive : renv.kill p ≠ some ESRCH) :
    _csync_lock_create cenv = (0, some (toString p ++ "\n")) ∧
    _csync_lock_read renv = ((p : Int), false) := by
  have hcreate : _csync_lock_create cenv = (0, some (toString p ++ "\n")) := by
    unfold _csync_lock_create
    cases hd : cenv.c_dirname with
    | none => exact absurd hd hdir
    | some dir =>
      simp only [if_neg (not_lt.mpr hasp), if_neg (not_lt.mpr hfd), hwrite, if_true,
        if_neg (not_lt.mpr hlink), hpid]
      rfl
  refine ⟨hcreate, ?_⟩
  rw [hcreate] at hfile
  have hcontent : (toString p ++ "\n" : String) = sprintf_d (p : Int) ++ "\n" := rfl
  have hlen : ¬ min ((toString p ++ "\n" : String).length : Int) 8 ≤ 0 := by
    have : (toString p ++ "\n" : String).length = (toString p).length + 1 := by
      rw [String.length_append]
      rfl
    rw [min_le_iff]
    omega
  unfold _csync_lock_read
  simp only [if_neg hopen, hfile]
  rw [if_neg hlen, hcontent, strtol_lock_content p (by omega) renv.errno]
  have hchk : ¬ ((p : Int) = 0 ∨ (p : Int) > 0xFFFF ∨ renv.errno = ERANGE) := by
    rintro (h | h | h)
    · omega
    · omega
    · exact herrno h
  have hmod : (p : Int) % 65536 = p := by omega
  simp only [if_neg hchk, hmod, if_neg halive]

/-- C28 at a sample input: process 1234 creates the lock, whose content is
"1234" and a newline, and reading it yields 1234 and leaves the file. -/
theorem csync_lock_round_trip_witness :
    _csync_lock_create (lock_create_env0 1234) = (0, some "1234\n") ∧
    _csync_lock_read (lock_read_env0 "1234\n") = (1234, false) :=
  csync_lock_round_trip 1234 (lock_create_env0 1234) (lock_read_env0 "1234\n") (by decide)
    (by decide) rfl (by decide) (by decide) (by decide) (fun _ => rfl) (by decide) (by decide)
    (by decide) (by decide) (by decide)

/-- C28 as stated fails: process 70000 is alive and holds the lock, whose
content is "70000" and a newline as `_csync_lock_create` writes it.
`_csync_lock_read` takes the lock for broken: it returns -1 and removes the
file. -/
theorem csync_lock_read_removes_live_lock :
    _csync_lock_create (lock_create_env0 70000) = (0, some "70000\n") ∧
    (lock_read_env0 "70000\n").kill 70000 = none ∧
    _csync_lock_read (lock_read_env0 "70000\n") = (-1, true) := by
  decide

/-! ## The buffers of the uploader -/

/-- For a transfer id that is not negative the buffer of `get_transfer_url` is
exactly as long as the url and its terminating NUL. -/
theorem get_transfer_url_len_exact (t : hbf_transfer_t) (i id : Nat) (url : String)
    (hid : t.transfer_id = (id : Int)) (hidlt : id < 4294967296)
    (hcnt : t.block_cnt < 4294967296) (h1 : t.block_cnt ≠ 1)
    (hurl : get_transfer_url (some t) i = some url) :
    get_transfer_url_len t i = (url.length : Int) + 1 := by
  have key : url = t.url ++ "-chunking-" ++ sprintf_d t.transfer_id ++ "-" ++
      sprintf_d t.block_cnt ++ "-" ++ sprintf_d i := by
    unfold get_transfer_url at hurl
    simp only [h1, if_false] at hurl
    split at hurl
    · exact absurd hurl (by simp)
    · split at hurl
      · exact absurd hurl (by simp)
      · exact (Option.some.inj hurl).symm
  have hi : i < 4294967296 := by
    unfold get_transfer_url at hurl
    simp only at hurl
    split at hurl
    · exact absurd hurl (by simp)
    · omega
  subst key
  unfold get_transfer_url_len
  rw [hid, sprintf_u_eq_sprintf_d id hidlt, sprintf_u_eq_sprintf_d _ hcnt,
    sprintf_u_eq_sprintf_d i hi]
  simp only [String.length_append]
  have e1 : ("-chunking-" : String).length = 10 := by decide
  have e2 : ("-" : String).length = 1 := by decide
  have e3 : ("-chunking---" : String).length = 12 := by decide
  rw [e1, e2, e3]
  push_cast
  ring

/-- C29 at an input where the code departs from it: a transfer of 3 blocks
with the transfer id -2000000000, block 0. This id is what `transfer_id`
yields at the second 1400015050 and the microsecond 27648 for a file whose
inode ends in a zero byte. The url that is formatted has 26 characters and
needs 27 bytes with its NUL; the length that `get_transfer_url` computes for
the buffer, from the unsigned rendering 2294967296 of the id, is 26. -/
theorem get_transfer_url_len_short :
    transfer_id (some (1400015050, 27648)) 256 8 = -2000000000 ∧
    ({ hbf_t0 25 10 with transfer_id := -2000000000 } : hbf_transfer_t).block_cnt = 3 ∧
    get_transfer_url (some { hbf_t0 25 10 with transfer_id := -2000000000 }) 0 =
      some "u-chunking--2000000000-3-0" ∧
    ("u-chunking--2000000000-3-0" : String).length + 1 = 27 ∧
    sprintf_u (-2000000000) = "2294967296" ∧
    get_transfer_url_len { hbf_t0 25 10 with transfer_id := -2000000000 } 0 = 26 := by
  decide

/-- The length that `dav_request` computes for the copy of a quoted etag is at
least 0 and at most the length of the header value when the value has two
characters or more. -/
theorem dav_request_etag_len_bounds (etag : String) (h : 2 ≤ etag.length) :
    0 ≤ dav_request_etag_len etag ∧ dav_request_etag_len etag ≤ etag.length := by
  unfold dav_request_etag_len
  omega

/-- C30 at an input where the code departs from it: the `ETag` header is the
one character `"`. The value is not empty, its first character is a double
quote and so is its last one, so `dav_request` takes it for quoted; the
length it computes for the copy is -1, the copy has no result, and neither
has `dav_request`. -/
theorem dav_request_etag_len_negative :
    ("\"" : String) ≠ "" ∧ ("\"" : String).length = 1 ∧
    ("\"" : String).data.head? = some '"' ∧ ("\"" : String).data.getLast? = some '"' ∧
    dav_request_etag_len "\"" = -1 ∧ dav_request_etag "\"" = none ∧
    dav_request true (some (hbf_splitlist_block 1 5 0 0)) (ne_created (some "\"")) = none := by
  decide

end Csync
